import Mathlib

/-!
# OpenSceneGraph `osg::State`: lazy state application and stacked overrides

A shallow embedding of the mode / attribute / uniform / define tracking of
`include/osg/State` (class `osg::State`).

* `std::map<K,V>` is an association list kept in ascending key order;
  `operator[]` is `Assoc.get` (a default-constructed value for an absent key)
  followed by `Assoc.put` (replace, or insert at the ordered position).
* Functions taking a `ModeStack&` / `AttributeStack&` / `ModeMap&` ... take the
  referenced object as an argument and return its new value together with the
  new `State`; the caller stores it back.
* OpenGL is an output log: `State.glCalls` lists the commands issued
  (`glEnable`, `glDisable`, `glActiveTexture`, `attribute->apply(state)`),
  oldest first.
-/

namespace osg

/-! ## Flag values -/

/-- The unsigned mask `StateAttribute::GLModeValue`. -/
abbrev GLModeValue := Nat

/-- The unsigned mask `StateAttribute::OverrideValue`. -/
abbrev OverrideValue := Nat

/-- The enumerant `StateAttribute::GLMode` (a `GLenum`). -/
abbrev GLMode := Nat

namespace StateAttribute

/-- Modelled from the spec: the flag `StateAttribute::OFF` (the header
`osg/StateAttribute` is not among the sources): the empty mask. -/
def OFF : Nat := 0

/-- Modelled from the spec: the flag `StateAttribute::ON` (the header
`osg/StateAttribute` is not among the sources): a single bit of the mask. -/
def ON : Nat := 1

/-- Modelled from the spec: the flag `StateAttribute::OVERRIDE` (the header
`osg/StateAttribute` is not among the sources): a single bit, distinct from `ON`. -/
def OVERRIDE : Nat := 2

/-- Modelled from the spec: the flag `StateAttribute::PROTECTED` (the header
`osg/StateAttribute` is not among the sources): a single bit, distinct from
`ON` and `OVERRIDE`. -/
def PROTECTED : Nat := 4

end StateAttribute

/-- The C++ conversion of `value & flag` to `bool`: true when a common bit is set. -/
def hasFlag (value flag : Nat) : Bool := (value &&& flag) != 0

/-! ## `std::map` as an ordered association list -/

/-- The strict order `operator<` a `std::map` key type is sorted by. -/
class KeyOrd (K : Type) where
  /-- The comparison `a < b`. -/
  lt : K → K → Bool

instance : KeyOrd Nat := ⟨fun a b => decide (a < b)⟩

instance : KeyOrd String := ⟨fun a b => decide (a < b)⟩

namespace Assoc

variable {K V : Type}

/-- The lookup `map.find(k)`: the value stored under `k`, if any. -/
def find [DecidableEq K] : List (K × V) → K → Option V
  | [], _ => none
  | (k', v) :: rest, k => if k' = k then some v else find rest k

/-- The value `map[k]` reads: the stored value, or a default-constructed one. -/
def get [DecidableEq K] [Inhabited V] (m : List (K × V)) (k : K) : V :=
  (find m k).getD default

/-- The store through the reference `map[k]`: replaces the value under `k`, or
inserts the pair at its place in the key order. -/
def put [DecidableEq K] [KeyOrd K] : List (K × V) → K → V → List (K × V)
  | [], k, v => [(k, v)]
  | (k', v') :: rest, k, v =>
    if k' = k then (k, v) :: rest
    else if KeyOrd.lt k k' then (k, v) :: (k', v') :: rest
    else (k', v') :: put rest k v

/-- The loop `for (itr = list.begin(); itr != list.end(); ++itr) { V& v = map[itr->first]; body }`
of the push and pop members: `body v w` is the value of `v` after the body has
run on the incoming `w`. -/
def foldUpdate [DecidableEq K] [KeyOrd K] [Inhabited V] {W : Type} (body : V → W → V) :
    List (K × V) → List (K × W) → List (K × V)
  | m, [] => m
  | m, (k, w) :: rest => foldUpdate body (put m k (body (get m k) w)) rest

/-- The keys of a map are in strictly ascending order, as `std::map` keeps them. -/
abbrev Sorted [KeyOrd K] (m : List (K × V)) : Prop :=
  m.Pairwise fun a b => KeyOrd.lt a.1 b.1 = true

/-- The linear merge of the apply-list members while the tracked entry `(k, v)` is the one
under the map iterator; `next` continues with the tracked entries after it. The
result lists, in the order the loop visits them, each key with its tracked
value (if the key is tracked) and its incoming value (if the key is incoming). -/
def mergeAt [KeyOrd K] {W : Type} (k : K) (v : V)
    (next : List (K × W) → List (K × Option V × Option W)) :
    List (K × W) → List (K × Option V × Option W)
  | [] => (k, some v, none) :: next []
  | (dk, w) :: rest =>
    if KeyOrd.lt k dk then (k, some v, none) :: next ((dk, w) :: rest)
    else if KeyOrd.lt dk k then (dk, none, some w) :: mergeAt k v next rest
    else (k, some v, some w) :: next rest

/-- The keys the merge loop `while (this_itr != map.end() && ds_itr != list.end())` and
its two tail loops visit, in order, for a tracked map and an incoming list. -/
def merge [KeyOrd K] {W : Type} : List (K × V) → List (K × W) → List (K × Option V × Option W)
  | [] => fun l => l.map fun e => (e.1, none, some e.2)
  | (k, v) :: rest => mergeAt k v (merge rest)

/-- The laws of a strict total order, which `operator<` of a `std::map` key satisfies. -/
structure LawfulLt (K : Type) [KeyOrd K] : Prop where
  /-- No key is below itself. -/
  irrefl : ∀ a : K, KeyOrd.lt a a = false
  /-- The order is transitive. -/
  trans : ∀ a b c : K, KeyOrd.lt a b = true → KeyOrd.lt b c = true → KeyOrd.lt a c = true
  /-- Two keys neither of which is below the other are the same key. -/
  total : ∀ a b : K, KeyOrd.lt a b = false → KeyOrd.lt b a = false → a = b

/-- A loop over keyed entries that runs `block` on each entry in turn, threading the state
`S` through, and collects under each key what the block leaves for it. -/
def traverse {S A B : Type} (block : S → K × A → B × S) : S → List (K × A) → List (K × B) × S
  | s, [] => ([], s)
  | s, e :: rest =>
    let r := block s e
    let t := traverse block r.2 rest
    ((e.1, r.1) :: t.1, t.2)

end Assoc

/-! ## Extension function pointers (`osg/GLExtensions`) -/

/-- The overload `getGLExtensionFuncPtr(funcName, fallbackFuncName)`. The one-name
`getGLExtensionFuncPtr(const char*)` is declared `extern`: it is the parameter
`resolve`, with 0 for a null address. -/
def getGLExtensionFuncPtr2 (resolve : String → Nat) (funcName fallbackFuncName : String) : Nat :=
  let ptr := resolve funcName
  if ptr ≠ 0 then ptr else resolve fallbackFuncName

/-- The overload `getGLExtensionFuncPtr(funcName1, funcName2, funcName3)`. -/
def getGLExtensionFuncPtr3 (resolve : String → Nat) (funcName1 funcName2 funcName3 : String) :
    Nat :=
  let ptr := resolve funcName1
  if ptr ≠ 0 then ptr else getGLExtensionFuncPtr2 resolve funcName2 funcName3

/-- The template `convertPointer(dest, src)`: what it returns, and the value copied into `dest`. -/
def convertPointer (src : Nat) : Bool × Nat :=
  (decide (src ≠ 0), src)

/-- The template `setGLExtensionFuncPtr(t, str1, str2, str3, validContext)`: what it returns,
and the value stored in `t`. -/
def setGLExtensionFuncPtr3 (resolve : String → Nat) (str1 str2 str3 : String)
    (validContext : Bool) : Bool × Nat :=
  convertPointer (if validContext then getGLExtensionFuncPtr3 resolve str1 str2 str3 else 0)

/-! ## Mode stacks -/

/-- The struct `State::ModeStack`. -/
structure ModeStack where
  /-- Whether the mode is usable in this context. -/
  valid : Bool
  /-- The dirty flag. -/
  changed : Bool
  /-- What was last issued to OpenGL. -/
  last_applied_value : Bool
  /-- The value applied when the stack is empty. -/
  global_default_value : Bool
  /-- The pushed values, top last. -/
  valueVec : List GLModeValue
deriving DecidableEq

/-- The constructor `ModeStack()`. -/
instance : Inhabited ModeStack :=
  ⟨{ valid := true, changed := false, last_applied_value := false,
     global_default_value := false, valueVec := [] }⟩

/-- The type `State::ModeMap`, a `std::map<GLMode,ModeStack>`. -/
abbrev ModeMap := List (GLMode × ModeStack)

/-- The type `StateSet::ModeList`, a `std::map<GLMode,GLModeValue>`. -/
abbrev ModeList := List (GLMode × GLModeValue)

/-! ## Attributes -/

/-- The key `StateAttribute::TypeMemberPair`, a `std::pair<Type,unsigned int>`. -/
structure TypeMemberPair where
  /-- The attribute type enumerant. -/
  type : Nat
  /-- The member index. -/
  member : Nat
deriving DecidableEq

/-- The lexicographic `operator<` of `std::pair`. -/
instance : KeyOrd TypeMemberPair :=
  ⟨fun a b => decide (a.type < b.type) || (decide (a.type = b.type) && decide (a.member < b.member))⟩

/-- A `StateAttribute` object as seen through a non-null `const StateAttribute*`:
the identity of the instance (`id`, `cloneDepth`) and what its virtual methods
return. Pointers are compared on the identity alone. -/
structure Attribute where
  /-- The instance the application created. -/
  id : Nat
  /-- The number of `cloneType()` steps from that instance (0 for the instance itself). -/
  cloneDepth : Nat
  /-- The result of `getTypeMemberPair()`. -/
  typeMemberPair : TypeMemberPair
  /-- The result of `getShaderComponent()`, `none` for a null pointer. -/
  shaderComponent : Option Nat
  /-- The parameter values of the attribute. -/
  params : List Int
deriving DecidableEq

/-- Pointer equality of two non-null attribute pointers: the same instance. -/
def Attribute.same (a b : Attribute) : Bool :=
  decide (a.id = b.id) && decide (a.cloneDepth = b.cloneDepth)

/-- Pointer equality `p == q` of two possibly null attribute pointers. -/
def ptrEq : Option Attribute → Option Attribute → Bool
  | none, none => true
  | some a, some b => a.same b
  | _, _ => false

/-- Modelled from the spec: `StateAttribute::cloneType()` followed by
`asStateAttribute()`; `cloneType` comes from the `META_StateAttribute` macro
of `osg/StateAttribute`, which is not among the sources. The spec says the
newly applied attribute "is deep-cloned to serve as the permanent
global-default": a new instance of the same type with equal parameter values. -/
def Attribute.cloneType (a : Attribute) : Attribute :=
  { a with cloneDepth := a.cloneDepth + 1 }

/-- The pair `State::AttributePair`. -/
abbrev AttributePair := Attribute × OverrideValue

/-- The struct `State::AttributeStack`. -/
structure AttributeStack where
  /-- The dirty flag. -/
  changed : Bool
  /-- The attribute last applied, `none` for null. -/
  last_applied_attribute : Option Attribute
  /-- The shader component last applied, `none` for null. -/
  last_applied_shadercomponent : Option Nat
  /-- The attribute applied when the stack is empty, `none` for null. -/
  global_default_attribute : Option Attribute
  /-- The pushed pairs, top last. -/
  attributeVec : List AttributePair
deriving DecidableEq

/-- The constructor `AttributeStack()`. -/
instance : Inhabited AttributeStack :=
  ⟨{ changed := false, last_applied_attribute := none, last_applied_shadercomponent := none,
     global_default_attribute := none, attributeVec := [] }⟩

/-- The type `State::AttributeMap`. -/
abbrev AttributeMap := List (TypeMemberPair × AttributeStack)

/-- The type `StateSet::AttributeList`, a map from key to `(ref_ptr, OverrideValue)`. -/
abbrev AttributeList := List (TypeMemberPair × AttributePair)

/-! ## Uniform and define stacks -/

/-- The pair `State::UniformStack::UniformPair`; the `const Uniform*` is the address of the uniform. -/
abbrev UniformPair := Nat × OverrideValue

/-- The struct `State::UniformStack`. -/
structure UniformStack where
  /-- The pushed pairs, top last. -/
  uniformVec : List UniformPair
deriving DecidableEq

/-- The constructor `UniformStack()`. -/
instance : Inhabited UniformStack := ⟨{ uniformVec := [] }⟩

/-- The type `State::UniformMap`. -/
abbrev UniformMap := List (String × UniformStack)

/-- The type `StateSet::UniformList`, a map from name to `(ref_ptr, OverrideValue)`. -/
abbrev UniformList := List (String × UniformPair)

/-- The pair `StateSet::DefinePair`, a `std::pair<std::string,OverrideValue>`. -/
abbrev DefinePair := String × OverrideValue

/-- The struct `State::DefineStack`. -/
structure DefineStack where
  /-- The dirty flag. -/
  changed : Bool
  /-- The pushed pairs, top last. -/
  defineVec : List DefinePair
deriving DecidableEq

/-- The constructor `DefineStack()`. -/
instance : Inhabited DefineStack := ⟨{ changed := false, defineVec := [] }⟩

/-- The type `StateSet::DefineList`, a `std::map<std::string,DefinePair>`. -/
abbrev DefineList := List (String × DefinePair)

/-- The struct `State::DefineMap`. -/
structure DefineMap where
  /-- The member `map`, a `std::map<std::string,DefineStack>`. -/
  map : List (String × DefineStack)
  /-- The map-level dirty flag. -/
  changed : Bool
  /-- The snapshot of the active defines. -/
  currentDefines : DefineList
deriving DecidableEq

/-- The constructor `DefineMap()`. -/
instance : Inhabited DefineMap := ⟨{ map := [], changed := false, currentDefines := [] }⟩

/-! ## The state object -/

/-- The enum `State::CheckForGLErrors`. -/
inductive CheckForGLErrors where
  | NEVER_CHECK_GL_ERRORS
  | ONCE_PER_FRAME
  | ONCE_PER_ATTRIBUTE
deriving DecidableEq

/-- A command issued to OpenGL. -/
inductive GLCall where
  /-- The call `glEnable(mode)`. -/
  | glEnable (mode : GLMode)
  /-- The call `glDisable(mode)`. -/
  | glDisable (mode : GLMode)
  /-- The call `_glActiveTexture(GL_TEXTURE0+unit)`; the argument is recorded. -/
  | glActiveTexture (texture : Nat)
  /-- The virtual call `attribute->apply(*this)`. -/
  | attributeApply (attr : Attribute)
  /-- The call `_lastAppliedProgramObject->apply(*uniform)` on the program object `program`,
  made for the map key `name`; `uniform` is the address of the uniform. -/
  | uniformApply (program : Nat) (name : String) (uniform : Nat)
deriving DecidableEq

/-- A request to `State::checkGLErrors`. -/
inductive GLErrorCheck where
  /-- The overload `checkGLErrors(GLMode)`. -/
  | mode (mode : GLMode)
  /-- The overload `checkGLErrors(const StateAttribute*)`. -/
  | attr (attr : Attribute)
deriving DecidableEq

/-- The members of `osg::State` the mode and attribute machinery reads or writes,
with the log of issued OpenGL commands. -/
structure State where
  /-- The member `_modeMap`. -/
  _modeMap : ModeMap
  /-- The member `_attributeMap`. -/
  _attributeMap : AttributeMap
  /-- The member `_uniformMap`. -/
  _uniformMap : UniformMap
  /-- The member `_defineMap`. -/
  _defineMap : DefineMap
  /-- The member `_textureModeMapList`. -/
  _textureModeMapList : List ModeMap
  /-- The member `_textureAttributeMapList`. -/
  _textureAttributeMapList : List AttributeMap
  /-- The member `_checkGLErrors`. -/
  _checkGLErrors : CheckForGLErrors
  /-- The member `_shaderCompositionDirty`. -/
  _shaderCompositionDirty : Bool
  /-- The member `_currentActiveTextureUnit`. -/
  _currentActiveTextureUnit : Nat
  /-- Whether the function pointer `_glActiveTexture` is non-null. -/
  _glActiveTexture : Bool
  /-- The member `_glMaxTextureCoords`, a `GLint`. -/
  _glMaxTextureCoords : Int
  /-- The member `_glMaxTextureUnits`, a `GLint`. -/
  _glMaxTextureUnits : Int
  /-- The member `_lastAppliedProgramObject`: the address of the program object, `none` for null. -/
  _lastAppliedProgramObject : Option Nat
  /-- The member `_dynamicObjectCount`, an `unsigned int`. -/
  _dynamicObjectCount : Nat
  /-- The member `_completeDynamicObjectRenderingCallback`: the address of the registered
  callback, `none` for a null `ref_ptr`. -/
  _completeDynamicObjectRenderingCallback : Option Nat
  /-- The callbacks whose `completed(this)` was invoked so far, oldest first. -/
  completedCalls : List Nat
  /-- The OpenGL commands issued so far, oldest first. -/
  glCalls : List GLCall
  /-- The error checks requested so far, oldest first. -/
  glErrorChecks : List GLErrorCheck
deriving DecidableEq

/-- The constant `GL_TEXTURE0`. -/
def GL_TEXTURE0 : Nat := 0x84C0

namespace State

/-- Modelled from the spec: `State::checkGLErrors(GLMode)` is declared in the
header and defined outside the sources. The spec says driver error codes "are
reported through a logging sink" and "do not alter control flow": the request
is recorded and nothing else changes. -/
def checkGLErrorsMode (s : State) (mode : GLMode) : State :=
  { s with glErrorChecks := s.glErrorChecks ++ [GLErrorCheck.mode mode] }

/-- Modelled from the spec: `State::checkGLErrors(const StateAttribute*)`, declared in
the header and defined outside the sources; as for `checkGLErrorsMode` the
request is recorded and nothing else changes. -/
def checkGLErrorsAttribute (s : State) (attr : Attribute) : State :=
  { s with glErrorChecks := s.glErrorChecks ++ [GLErrorCheck.attr attr] }

/-- The protected `State::applyMode(GLMode mode, bool enabled, ModeStack& ms)`. -/
def applyModeStack (s : State) (mode : GLMode) (enabled : Bool) (ms : ModeStack) :
    Bool × ModeStack × State :=
  if ms.valid && (ms.last_applied_value != enabled) then
    let ms := { ms with last_applied_value := enabled }
    let s := if enabled then { s with glCalls := s.glCalls ++ [GLCall.glEnable mode] }
             else { s with glCalls := s.glCalls ++ [GLCall.glDisable mode] }
    let s := if s._checkGLErrors = CheckForGLErrors.ONCE_PER_ATTRIBUTE then s.checkGLErrorsMode mode
             else s
    (true, ms, s)
  else
    (false, ms, s)

/-- The public `State::applyMode(GLMode mode, bool enabled)`. -/
def applyMode (s : State) (mode : GLMode) (enabled : Bool) : Bool × State :=
  let ms := Assoc.get s._modeMap mode
  let ms := { ms with changed := true }
  let r := s.applyModeStack mode enabled ms
  (r.1, { r.2.2 with _modeMap := Assoc.put r.2.2._modeMap mode r.2.1 })

/-- The accessor `State::getLastAppliedModeValue(mode)`, without the insertion
of a default `ModeStack` it performs for an absent key. -/
def getLastAppliedModeValue (s : State) (mode : GLMode) : Bool :=
  (Assoc.get s._modeMap mode).last_applied_value

end State

namespace State

/-- The public `State::setGlobalDefaultAttribute(attribute)`. -/
def setGlobalDefaultAttribute (s : State) (attr : Attribute) : State :=
  let as := Assoc.get s._attributeMap attr.typeMemberPair
  let as := { as with global_default_attribute := some attr }
  { s with _attributeMap := Assoc.put s._attributeMap attr.typeMemberPair as }

/-- The member `State::setActiveTextureUnit(unit)`; the cast
`(unsigned int)(maximum(_glMaxTextureCoords,_glMaxTextureUnits))` is taken modulo `2^32`. -/
def setActiveTextureUnit (s : State) (unit : Nat) : Bool × State :=
  if unit ≠ s._currentActiveTextureUnit then
    if s._glActiveTexture && decide (unit < ((max s._glMaxTextureCoords s._glMaxTextureUnits) % 2 ^ 32).toNat) then
      (true, { s with glCalls := s.glCalls ++ [GLCall.glActiveTexture ((GL_TEXTURE0 + unit) % 2 ^ 32)],
                      _currentActiveTextureUnit := unit })
    else
      (decide (unit = 0), s)
  else
    (true, s)

/-- The statements of `applyAttribute` that follow the identity test, shared
verbatim by `applyAttribute` and `applyAttributeOnTexUnit`: record the global
default if none is recorded, record `attribute` as last applied, call
`attribute->apply(*this)`, track the shader component, check for errors. -/
def applyAttributeBody (s : State) (attr : Attribute) (as : AttributeStack) :
    AttributeStack × State :=
  let as := if as.global_default_attribute.isSome then as
            else { as with global_default_attribute := some attr.cloneType }
  let as := { as with last_applied_attribute := some attr }
  let s := { s with glCalls := s.glCalls ++ [GLCall.attributeApply attr] }
  let sc := attr.shaderComponent
  let r : AttributeStack × State :=
    if as.last_applied_shadercomponent ≠ sc then
      ({ as with last_applied_shadercomponent := sc }, { s with _shaderCompositionDirty := true })
    else (as, s)
  let s := if r.2._checkGLErrors = CheckForGLErrors.ONCE_PER_ATTRIBUTE then
             r.2.checkGLErrorsAttribute attr
           else r.2
  (r.1, s)

/-- The protected `State::applyAttribute(const StateAttribute* attribute, AttributeStack& as)`. -/
def applyAttributeStack (s : State) (attr : Attribute) (as : AttributeStack) :
    Bool × AttributeStack × State :=
  if !(ptrEq as.last_applied_attribute (some attr)) then
    (true, s.applyAttributeBody attr as)
  else
    (false, as, s)

/-- The public `State::applyAttribute(const StateAttribute* attribute)`. -/
def applyAttribute (s : State) (attr : Attribute) : Bool × State :=
  let as := Assoc.get s._attributeMap attr.typeMemberPair
  let as := { as with changed := true }
  let r := s.applyAttributeStack attr as
  (r.1, { r.2.2 with _attributeMap := Assoc.put r.2.2._attributeMap attr.typeMemberPair r.2.1 })

/-- The protected `State::applyAttributeOnTexUnit(unit, attribute, as)`. -/
def applyAttributeOnTexUnit (s : State) (unit : Nat) (attr : Attribute) (as : AttributeStack) :
    Bool × AttributeStack × State :=
  if !(ptrEq as.last_applied_attribute (some attr)) then
    let u := s.setActiveTextureUnit unit
    if u.1 then
      (true, u.2.applyAttributeBody attr as)
    else
      (false, as, u.2)
  else
    (false, as, s)

/-- The statements of `applyGlobalDefaultAttribute` under
`if (as.global_default_attribute.valid())`. -/
def applyGlobalDefaultBody (s : State) (dflt : Attribute) (as : AttributeStack) :
    AttributeStack × State :=
  let s := { s with glCalls := s.glCalls ++ [GLCall.attributeApply dflt] }
  let sc := dflt.shaderComponent
  let r : AttributeStack × State :=
    if as.last_applied_shadercomponent ≠ sc then
      ({ as with last_applied_shadercomponent := sc }, { s with _shaderCompositionDirty := true })
    else (as, s)
  let s := if r.2._checkGLErrors = CheckForGLErrors.ONCE_PER_ATTRIBUTE then
             r.2.checkGLErrorsAttribute dflt
           else r.2
  (r.1, s)

/-- The protected `State::applyGlobalDefaultAttribute(AttributeStack& as)`. -/
def applyGlobalDefaultAttribute (s : State) (as : AttributeStack) :
    Bool × AttributeStack × State :=
  if !(ptrEq as.last_applied_attribute as.global_default_attribute) then
    let as := { as with last_applied_attribute := as.global_default_attribute }
    match as.global_default_attribute with
    | some dflt => (true, s.applyGlobalDefaultBody dflt as)
    | none => (true, as, s)
  else
    (false, as, s)

/-- The block of `applyAttributeMap` and `applyAttributeList` run on a tracked
key with no incoming value: if the stack is dirty, clear the flag and apply
the top of `attributeVec`, or the global default when it is empty. -/
def applyTrackedAttribute (s : State) (as : AttributeStack) : AttributeStack × State :=
  if as.changed then
    let as := { as with changed := false }
    match as.attributeVec.getLast? with
    | some new_attr => (s.applyAttributeStack new_attr.1 as).2
    | none => (s.applyGlobalDefaultAttribute as).2
  else
    (as, s)

/-- The member `State::applyAttributeMap(AttributeMap& attributeMap)`. -/
def applyAttributeMap (s : State) : AttributeMap → AttributeMap × State
  | [] => ([], s)
  | (key, as) :: rest =>
    let r := s.applyTrackedAttribute as
    let t := applyAttributeMap r.2 rest
    ((key, r.1) :: t.1, t.2)

/-- The block of `applyAttributeList` run on an incoming key that is not tracked:
a new `AttributeStack` is inserted, the incoming attribute applied, and the
stack marked changed. -/
def applyNewAttribute (s : State) (incoming : AttributePair) : AttributeStack × State :=
  let r := s.applyAttributeStack incoming.1 default
  ({ r.2.1 with changed := true }, r.2.2)

/-- The block of `applyAttributeList` run on a key that is both tracked and incoming. -/
def applyBothAttribute (s : State) (as : AttributeStack) (incoming : AttributePair) :
    AttributeStack × State :=
  match as.attributeVec.getLast? with
  | some top =>
    if hasFlag top.2 StateAttribute.OVERRIDE && !(hasFlag incoming.2 StateAttribute.PROTECTED) then
      if as.changed then
        (s.applyAttributeStack top.1 { as with changed := false }).2
      else (as, s)
    else
      let r := s.applyAttributeStack incoming.1 as
      if r.1 then ({ r.2.1 with changed := true }, r.2.2) else r.2
  | none =>
    let r := s.applyAttributeStack incoming.1 as
    if r.1 then ({ r.2.1 with changed := true }, r.2.2) else r.2

/-- The last loop of `applyAttributeList`: the incoming attributes left once
the tracked keys are exhausted. -/
def applyAttributeListIncoming (s : State) : AttributeList → AttributeMap × State
  | [] => ([], s)
  | (key, incoming) :: rest =>
    let r := s.applyNewAttribute incoming
    let t := applyAttributeListIncoming r.2 rest
    ((key, r.1) :: t.1, t.2)

/-- The merge of `applyAttributeList` while the tracked entry `(key, as)` is the
one under `this_aitr`; `next` continues with the tracked entries after it. -/
def applyAttributeListAt (key : TypeMemberPair) (as : AttributeStack)
    (next : State → AttributeList → AttributeMap × State) :
    State → AttributeList → AttributeMap × State
  | s, [] =>
    let r := s.applyTrackedAttribute as
    let t := next r.2 []
    ((key, r.1) :: t.1, t.2)
  | s, (dkey, incoming) :: rest =>
    if KeyOrd.lt key dkey then
      let r := s.applyTrackedAttribute as
      let t := next r.2 ((dkey, incoming) :: rest)
      ((key, r.1) :: t.1, t.2)
    else if KeyOrd.lt dkey key then
      let r := s.applyNewAttribute incoming
      let t := applyAttributeListAt key as next r.2 rest
      ((dkey, r.1) :: t.1, t.2)
    else
      let r := s.applyBothAttribute as incoming
      let t := next r.2 rest
      ((key, r.1) :: t.1, t.2)

/-- The member `State::applyAttributeList(attributeMap, attributeList)`: the
linear merge of the tracked keys with the incoming ones, both in key order. -/
def applyAttributeListFrom : AttributeMap → State → AttributeList → AttributeMap × State
  | [] => fun s l => s.applyAttributeListIncoming l
  | (key, as) :: rest => applyAttributeListAt key as (applyAttributeListFrom rest)

/-- The member `State::applyAttributeList(attributeMap, attributeList)`. -/
def applyAttributeList (s : State) (attributeMap : AttributeMap) (attributeList : AttributeList) :
    AttributeMap × State :=
  applyAttributeListFrom attributeMap s attributeList

/-- The body of the loop of `State::pushModeList` on the stack `ms = modeMap[mitr->first]`
and the incoming value `mitr->second`. -/
def pushModeEntry (ms : ModeStack) (value : GLModeValue) : ModeStack :=
  let ms :=
    match ms.valueVec.getLast? with
    | none => { ms with valueVec := ms.valueVec ++ [value] }
    | some back =>
      if hasFlag back StateAttribute.OVERRIDE && !(hasFlag value StateAttribute.PROTECTED) then
        { ms with valueVec := ms.valueVec ++ [back] }
      else
        { ms with valueVec := ms.valueVec ++ [value] }
  { ms with changed := true }

/-- The member `State::pushModeList(modeMap, modeList)`. -/
def pushModeList (modeMap : ModeMap) (modeList : ModeList) : ModeMap :=
  Assoc.foldUpdate pushModeEntry modeMap modeList

/-- The body of the loop of `State::pushAttributeList` on the stack
`as = attributeMap[aitr->first]` and the incoming pair. -/
def pushAttributeEntry (as : AttributeStack) (incoming : AttributePair) : AttributeStack :=
  let as :=
    match as.attributeVec.getLast? with
    | none => { as with attributeVec := as.attributeVec ++ [incoming] }
    | some back =>
      if hasFlag back.2 StateAttribute.OVERRIDE && !(hasFlag incoming.2 StateAttribute.PROTECTED) then
        { as with attributeVec := as.attributeVec ++ [back] }
      else
        { as with attributeVec := as.attributeVec ++ [incoming] }
  { as with changed := true }

/-- The member `State::pushAttributeList(attributeMap, attributeList)`. -/
def pushAttributeList (attributeMap : AttributeMap) (attributeList : AttributeList) : AttributeMap :=
  Assoc.foldUpdate pushAttributeEntry attributeMap attributeList

/-- The body of the loop of `State::popAttributeList` on the stack
`as = attributeMap[aitr->first]`; the incoming pair is not read. -/
def popAttributeEntry (as : AttributeStack) (_incoming : AttributePair) : AttributeStack :=
  let as := if !as.attributeVec.isEmpty then { as with attributeVec := as.attributeVec.dropLast }
            else as
  { as with changed := true }

/-- The member `State::popAttributeList(attributeMap, attributeList)`. -/
def popAttributeList (attributeMap : AttributeMap) (attributeList : AttributeList) : AttributeMap :=
  Assoc.foldUpdate popAttributeEntry attributeMap attributeList

/-- The body of the loop of `State::pushUniformList` on the stack
`us = uniformMap[aitr->first]` and the incoming pair. -/
def pushUniformEntry (us : UniformStack) (incoming : UniformPair) : UniformStack :=
  match us.uniformVec.getLast? with
  | none => { us with uniformVec := us.uniformVec ++ [incoming] }
  | some back =>
    if hasFlag back.2 StateAttribute.OVERRIDE && !(hasFlag incoming.2 StateAttribute.PROTECTED) then
      { us with uniformVec := us.uniformVec ++ [back] }
    else
      { us with uniformVec := us.uniformVec ++ [incoming] }

/-- The member `State::pushUniformList(uniformMap, uniformList)`. -/
def pushUniformList (uniformMap : UniformMap) (uniformList : UniformList) : UniformMap :=
  Assoc.foldUpdate pushUniformEntry uniformMap uniformList

/-- The body of the loop of `State::pushDefineList` on the stack
`ds = defineMap.map[aitr->first]` and the incoming pair: the stack afterwards,
and whether `defineMap.changed = true` was executed. -/
def pushDefineEntry (ds : DefineStack) (incoming : DefinePair) : DefineStack × Bool :=
  match ds.defineVec.getLast? with
  | none => ({ ds with defineVec := ds.defineVec ++ [incoming], changed := true }, true)
  | some back =>
    if hasFlag back.2 StateAttribute.OVERRIDE && !(hasFlag incoming.2 StateAttribute.PROTECTED) then
      ({ ds with defineVec := ds.defineVec ++ [back] }, false)
    else
      let dv := ds.defineVec ++ [incoming]
      let changed := decide (dv[dv.length - 2]? ≠ dv.getLast?)
      if changed then ({ ds with defineVec := dv, changed := true }, true)
      else ({ ds with defineVec := dv }, false)

/-- The member `State::pushDefineList(defineMap, defineList)`. -/
def pushDefineList (defineMap : DefineMap) : DefineList → DefineMap
  | [] => defineMap
  | (key, incoming) :: rest =>
    let r := pushDefineEntry (Assoc.get defineMap.map key) incoming
    pushDefineList
      { defineMap with
        map := Assoc.put defineMap.map key r.1,
        changed := if r.2 then true else defineMap.changed } rest

/-- The body of the loop of `State::applyModeMap` on the stack `ms = mitr->second` of
the mode `mitr->first`: if the stack is dirty, clear the flag and apply the ON
bit of the top of `valueVec`, or `global_default_value` when it is empty. -/
def applyTrackedMode (s : State) (mode : GLMode) (ms : ModeStack) : ModeStack × State :=
  if ms.changed then
    let ms := { ms with changed := false }
    match ms.valueVec.getLast? with
    | some back => (s.applyModeStack mode (hasFlag back StateAttribute.ON) ms).2
    | none => (s.applyModeStack mode ms.global_default_value ms).2
  else
    (ms, s)

/-- The member `State::applyModeMap(ModeMap& modeMap)`. -/
def applyModeMap (s : State) : ModeMap → ModeMap × State
  | [] => ([], s)
  | (mode, ms) :: rest =>
    let r := s.applyTrackedMode mode ms
    let t := applyModeMap r.2 rest
    ((mode, r.1) :: t.1, t.2)

/-- The entry the specification says a push appends to a stack: the incoming
entry if the stack is empty; the previous top if that top has OVERRIDE and the
incoming entry lacks PROTECTED; the incoming entry otherwise. -/
def pushRule {α : Type} (flags : α → Nat) (stack : List α) (incoming : α) : α :=
  match stack.getLast? with
  | none => incoming
  | some top =>
    if hasFlag (flags top) StateAttribute.OVERRIDE && !(hasFlag (flags incoming) StateAttribute.PROTECTED)
    then top else incoming

/-- Where a run of public `applyAttribute` calls, one per attribute of the list in order, leaves the state. -/
def applyAttributes (s : State) : List Attribute → State
  | [] => s
  | attr :: rest => applyAttributes (s.applyAttribute attr).2 rest

/-- The attributes of a sequence that are not the same instance as their
predecessor, `prev` being the predecessor of the first one (`none` for null). -/
def transitions (prev : Option Attribute) : List Attribute → List Attribute
  | [] => []
  | attr :: rest =>
    if ptrEq prev (some attr) then transitions (some attr) rest
    else attr :: transitions (some attr) rest

/-- The number of `attribute->apply(state)` invocations in a log of commands. -/
def attributeApplyCount (calls : List GLCall) : Nat :=
  calls.countP fun c => match c with
    | GLCall.attributeApply _ => true
    | _ => false

/-- The body of the loop of `State::popModeList` on the stack `ms = modeMap[mitr->first]`;
the incoming value is not read. -/
def popModeEntry (ms : ModeStack) (_value : GLModeValue) : ModeStack :=
  let ms := if !ms.valueVec.isEmpty then { ms with valueVec := ms.valueVec.dropLast } else ms
  { ms with changed := true }

/-- The member `State::popModeList(modeMap, modeList)`. -/
def popModeList (modeMap : ModeMap) (modeList : ModeList) : ModeMap :=
  Assoc.foldUpdate popModeEntry modeMap modeList

/-- The body of the loop of `State::popUniformList` on the stack
`us = uniformMap[aitr->first]`; the incoming pair is not read. -/
def popUniformEntry (us : UniformStack) (_incoming : UniformPair) : UniformStack :=
  if !us.uniformVec.isEmpty then { us with uniformVec := us.uniformVec.dropLast } else us

/-- The member `State::popUniformList(uniformMap, uniformList)`. -/
def popUniformList (uniformMap : UniformMap) (uniformList : UniformList) : UniformMap :=
  Assoc.foldUpdate popUniformEntry uniformMap uniformList

/-- The body of the loop of `State::popDefineList` on the stack
`ds = defineMap.map[aitr->first]`: the stack afterwards, and whether
`defineMap.changed = true` was executed. The incoming pair is not read. -/
def popDefineEntry (ds : DefineStack) (_incoming : DefinePair) : DefineStack × Bool :=
  let dv := ds.defineVec
  if !dv.isEmpty then
    if decide (dv.length < 2) || decide (dv[dv.length - 2]? ≠ dv.getLast?) then
      ({ ds with changed := true, defineVec := dv.dropLast }, true)
    else
      ({ ds with defineVec := dv.dropLast }, false)
  else
    (ds, false)

/-- The member `State::popDefineList(defineMap, defineList)`. -/
def popDefineList (defineMap : DefineMap) : DefineList → DefineMap
  | [] => defineMap
  | (key, incoming) :: rest =>
    let r := popDefineEntry (Assoc.get defineMap.map key) incoming
    popDefineList
      { defineMap with
        map := Assoc.put defineMap.map key r.1,
        changed := if r.2 then true else defineMap.changed } rest

/-- The bound `(unsigned int)(maximum(_glMaxTextureCoords,_glMaxTextureUnits))` that
`setActiveTextureUnit` compares the unit against. -/
def textureUnitLimit (s : State) : Nat :=
  ((max s._glMaxTextureCoords s._glMaxTextureUnits) % 2 ^ 32).toNat

/-- The protected `State::applyModeOnTexUnit(unit, mode, enabled, ms)`. -/
def applyModeOnTexUnit (s : State) (unit : Nat) (mode : GLMode) (enabled : Bool)
    (ms : ModeStack) : Bool × ModeStack × State :=
  if ms.valid && (ms.last_applied_value != enabled) then
    let u := s.setActiveTextureUnit unit
    if u.1 then
      let ms := { ms with last_applied_value := enabled }
      let s := if enabled then { u.2 with glCalls := u.2.glCalls ++ [GLCall.glEnable mode] }
               else { u.2 with glCalls := u.2.glCalls ++ [GLCall.glDisable mode] }
      let s := if s._checkGLErrors = CheckForGLErrors.ONCE_PER_ATTRIBUTE then
                 s.checkGLErrorsMode mode
               else s
      (true, ms, s)
    else
      (false, ms, u.2)
  else
    (false, ms, s)

/-- The protected `State::applyGlobalDefaultAttributeOnTexUnit(unit, as)`. -/
def applyGlobalDefaultAttributeOnTexUnit (s : State) (unit : Nat) (as : AttributeStack) :
    Bool × AttributeStack × State :=
  if !(ptrEq as.last_applied_attribute as.global_default_attribute) then
    let u := s.setActiveTextureUnit unit
    if u.1 then
      let as := { as with last_applied_attribute := as.global_default_attribute }
      match as.global_default_attribute with
      | some dflt => (true, u.2.applyGlobalDefaultBody dflt as)
      | none => (true, as, u.2)
    else
      (false, as, u.2)
  else
    (false, as, s)

/-- The body of the loop of `State::applyUniformMap` on an entry of the map: the top of a
non-empty stack is sent to the program. -/
def uniformMapBlock (program : Nat) (entry : String × UniformStack) : List GLCall :=
  match entry.2.uniformVec.getLast? with
  | some back => [GLCall.uniformApply program entry.1 back.1]
  | none => []

/-- The calls `State::applyUniformMap(uniformMap)` makes on the bound program, in order. -/
def uniformMapCalls (program : Nat) (uniformMap : UniformMap) : List GLCall :=
  uniformMap.flatMap (uniformMapBlock program)

/-- The member `State::applyUniformMap(UniformMap& uniformMap)`; the map is only read. -/
def applyUniformMap (s : State) (uniformMap : UniformMap) : State :=
  match s._lastAppliedProgramObject with
  | none => s
  | some program => { s with glCalls := s.glCalls ++ uniformMapCalls program uniformMap }

/-- The block `State::applyUniformList` runs on a key the merge visits: for a key that is
only tracked, the top of a non-empty stack is sent; for a key that is only
incoming, the incoming uniform; for a key that is both, the top of the stack
when the stack is non-empty, its top has OVERRIDE and the incoming pair lacks
PROTECTED, and the incoming uniform otherwise. -/
def uniformListBlock (program : Nat)
    (entry : String × Option UniformStack × Option UniformPair) : List GLCall :=
  match entry.2.1, entry.2.2 with
  | some us, none =>
    match us.uniformVec.getLast? with
    | some back => [GLCall.uniformApply program entry.1 back.1]
    | none => []
  | none, some incoming => [GLCall.uniformApply program entry.1 incoming.1]
  | some us, some incoming =>
    match us.uniformVec.getLast? with
    | some back =>
      if hasFlag back.2 StateAttribute.OVERRIDE && !(hasFlag incoming.2 StateAttribute.PROTECTED) then
        [GLCall.uniformApply program entry.1 back.1]
      else
        [GLCall.uniformApply program entry.1 incoming.1]
    | none => [GLCall.uniformApply program entry.1 incoming.1]
  | none, none => []

/-- The calls `State::applyUniformList(uniformMap, uniformList)` makes on the bound program,
in order. -/
def uniformListCalls (program : Nat) (uniformMap : UniformMap) (uniformList : UniformList) :
    List GLCall :=
  (Assoc.merge uniformMap uniformList).flatMap (uniformListBlock program)

/-- The member `State::applyUniformList(uniformMap, uniformList)`; the map is only read. -/
def applyUniformList (s : State) (uniformMap : UniformMap) (uniformList : UniformList) : State :=
  match s._lastAppliedProgramObject with
  | none => s
  | some program =>
    { s with glCalls := s.glCalls ++ uniformListCalls program uniformMap uniformList }

/-- The calls of a log that send a uniform for the map key `name`. -/
def uniformCallsFor (name : String) (calls : List GLCall) : List GLCall :=
  calls.filter fun c => match c with
    | GLCall.uniformApply _ n _ => decide (n = name)
    | _ => false

/-- The uniform the specification says `applyUniformList` sends for a name, given the
stack tracked for the name (if any) and the incoming pair (if any): for a name
with an incoming pair, the top of the tracked stack when that stack is
non-empty, its top has OVERRIDE and the incoming pair lacks PROTECTED, and the
incoming uniform otherwise; for a name with no incoming pair, the top of its
tracked stack, and nothing when that stack is empty or absent. -/
def uniformToSend (tracked : Option UniformStack) (incoming : Option UniformPair) : Option Nat :=
  let top : Option UniformPair := tracked.bind fun us => us.uniformVec.getLast?
  match incoming with
  | some inc =>
    match top with
    | some back =>
      if hasFlag back.2 StateAttribute.OVERRIDE && !(hasFlag inc.2 StateAttribute.PROTECTED)
      then some back.1 else some inc.1
    | none => some inc.1
  | none => top.map Prod.fst

/-- The effective value of a mode stack: the ON bit of the top of `valueVec`, or
`global_default_value` when the stack is empty. -/
def effectiveModeValue (ms : ModeStack) : Bool :=
  match ms.valueVec.getLast? with
  | some back => hasFlag back StateAttribute.ON
  | none => ms.global_default_value

/-- The member `State::setDynamicObjectCount(count, callCallbackOnZero)`; `count` is an
`unsigned int`. -/
def setDynamicObjectCount (s : State) (count : Nat) (callCallbackOnZero : Bool) : State :=
  if s._dynamicObjectCount ≠ count then
    let s := { s with _dynamicObjectCount := count }
    if s._dynamicObjectCount = 0 ∧ callCallbackOnZero = true then
      match s._completeDynamicObjectRenderingCallback with
      | some cb => { s with completedCalls := s.completedCalls ++ [cb] }
      | none => s
    else s
  else s

/-- The accessor `State::getDynamicObjectCount()`. -/
def getDynamicObjectCount (s : State) : Nat :=
  s._dynamicObjectCount

/-- The member `State::decrementDynamicObjectCount()`; `--_dynamicObjectCount` on an
`unsigned int` adds `2^32 - 1` modulo `2^32`. -/
def decrementDynamicObjectCount (s : State) : State :=
  let s := { s with _dynamicObjectCount := (2 ^ 32 - 1 + s._dynamicObjectCount) % 2 ^ 32 }
  if s._dynamicObjectCount = 0 then
    match s._completeDynamicObjectRenderingCallback with
    | some cb => { s with completedCalls := s.completedCalls ++ [cb] }
    | none => s
  else s

/-- The state after `k` calls of `decrementDynamicObjectCount()`. -/
def decrements (s : State) : Nat → State
  | 0 => s
  | k + 1 => (decrements s k).decrementDynamicObjectCount

/-- The insertion of a default `ModeStack` that `_modeMap[mode]` performs for an absent key. -/
def touchMode (s : State) (mode : GLMode) : State :=
  { s with _modeMap := Assoc.put s._modeMap mode (Assoc.get s._modeMap mode) }

/-- The members of the struct `State::ApplyModeProxy` other than the reference `_state`. -/
structure ApplyModeProxy where
  /-- The member `_mode`. -/
  _mode : GLMode
  /-- The member `_previous_value`. -/
  _previous_value : Bool
  /-- The member `_need_to_apply_value`. -/
  _need_to_apply_value : Bool
deriving DecidableEq

/-- The constructor `ApplyModeProxy(state, mode, value)`: the proxy, and the state it leaves. -/
def ApplyModeProxy.construct (s : State) (mode : GLMode) (value : Bool) :
    ApplyModeProxy × State :=
  let previous := s.getLastAppliedModeValue mode
  let s := s.touchMode mode
  let need := previous != value
  let s := if need then (s.applyMode mode value).2 else s
  ({ _mode := mode, _previous_value := previous, _need_to_apply_value := need }, s)

/-- The destructor `~ApplyModeProxy()`. -/
def ApplyModeProxy.destroy (p : ApplyModeProxy) (s : State) : State :=
  if p._need_to_apply_value then (s.applyMode p._mode p._previous_value).2 else s

/-- The block of `applyModeList` run on an incoming mode that is not tracked: a new
`ModeStack` is inserted, the incoming value applied, and the stack marked changed. -/
def applyNewMode (s : State) (mode : GLMode) (value : GLModeValue) : ModeStack × State :=
  let r := s.applyModeStack mode (hasFlag value StateAttribute.ON) default
  ({ r.2.1 with changed := true }, r.2.2)

/-- The block of `applyModeList` run on a mode that is both tracked and incoming. -/
def applyBothMode (s : State) (mode : GLMode) (ms : ModeStack) (value : GLModeValue) :
    ModeStack × State :=
  match ms.valueVec.getLast? with
  | some top =>
    if hasFlag top StateAttribute.OVERRIDE && !(hasFlag value StateAttribute.PROTECTED) then
      if ms.changed then
        (s.applyModeStack mode (hasFlag top StateAttribute.ON) { ms with changed := false }).2
      else (ms, s)
    else
      let r := s.applyModeStack mode (hasFlag value StateAttribute.ON) ms
      if r.1 then ({ r.2.1 with changed := true }, r.2.2) else r.2
  | none =>
    let r := s.applyModeStack mode (hasFlag value StateAttribute.ON) ms
    if r.1 then ({ r.2.1 with changed := true }, r.2.2) else r.2

/-- The block `State::applyModeList` runs on a key the merge visits. -/
def modeListBlock (s : State) (entry : GLMode × Option ModeStack × Option GLModeValue) :
    ModeStack × State :=
  match entry.2.1, entry.2.2 with
  | some ms, none => s.applyTrackedMode entry.1 ms
  | none, some value => s.applyNewMode entry.1 value
  | some ms, some value => s.applyBothMode entry.1 ms value
  | none, none => (default, s)

/-- The member `State::applyModeList(modeMap, modeList)`: the linear merge of the tracked
modes with the incoming ones, both in key order. -/
def applyModeList (s : State) (modeMap : ModeMap) (modeList : ModeList) : ModeMap × State :=
  Assoc.traverse modeListBlock s (Assoc.merge modeMap modeList)

/-- The block `State::applyAttributeList` runs on a key the merge visits. -/
def attributeListBlock (s : State)
    (entry : TypeMemberPair × Option AttributeStack × Option AttributePair) :
    AttributeStack × State :=
  match entry.2.1, entry.2.2 with
  | some as, none => s.applyTrackedAttribute as
  | none, some incoming => s.applyNewAttribute incoming
  | some as, some incoming => s.applyBothAttribute as incoming
  | none, none => (default, s)

/-- The block `State::applyDefineList` runs on a key the merge visits: the pair it
assigns to `defineMap.currentDefines[key]`, if it assigns one. -/
def defineListBlock (entry : String × Option DefineStack × Option DefinePair) :
    Option DefinePair :=
  match entry.2.1, entry.2.2 with
  | some ds, none =>
    match ds.defineVec.getLast? with
    | some back => if hasFlag back.2 StateAttribute.ON then some back else none
    | none => none
  | none, some incoming => if hasFlag incoming.2 StateAttribute.ON then some incoming else none
  | some ds, some incoming =>
    match ds.defineVec.getLast? with
    | some back =>
      if hasFlag back.2 StateAttribute.OVERRIDE && !(hasFlag incoming.2 StateAttribute.PROTECTED) then
        if hasFlag back.2 StateAttribute.ON then some back else none
      else
        if hasFlag incoming.2 StateAttribute.ON then some incoming else none
    | none => if hasFlag incoming.2 StateAttribute.ON then some incoming else none
  | none, none => none

/-- One round of the loops of `applyDefineList` on the snapshot `currentDefines`. -/
def defineListStep (currentDefines : DefineList)
    (entry : String × Option DefineStack × Option DefinePair) : DefineList :=
  match defineListBlock entry with
  | some pair => Assoc.put currentDefines entry.1 pair
  | none => currentDefines

/-- The member `State::applyDefineList(defineMap, defineList)`: the flag `changed` is
cleared, the snapshot `currentDefines` is cleared and refilled by the merge. -/
def applyDefineList (defineMap : DefineMap) (defineList : DefineList) : DefineMap :=
  { defineMap with
    changed := false,
    currentDefines := (Assoc.merge defineMap.map defineList).foldl defineListStep [] }

/-- The entry the specification resolves for a define name, given the stack tracked for
the name (if any) and the incoming entry (if any): the stack top if the name is
only tracked and its stack is non-empty; the incoming entry if the name is only
incoming; for a name that is both, the stack top when the stack is non-empty,
its top has OVERRIDE and the incoming entry lacks PROTECTED, else the incoming
entry. -/
def resolvedDefine (tracked : Option DefineStack) (incoming : Option DefinePair) :
    Option DefinePair :=
  let top : Option DefinePair := tracked.bind fun ds => ds.defineVec.getLast?
  match incoming with
  | some inc =>
    match top with
    | some back =>
      if hasFlag back.2 StateAttribute.OVERRIDE && !(hasFlag inc.2 StateAttribute.PROTECTED)
      then some back else some inc
    | none => some inc
  | none => top

/-- The body of the loop of `State::applyModeMapOnTexUnit` on the stack `ms = mitr->second`
of the mode `mitr->first`. -/
def applyTrackedModeOnTexUnit (s : State) (unit : Nat) (mode : GLMode) (ms : ModeStack) :
    ModeStack × State :=
  if ms.changed then
    let ms := { ms with changed := false }
    match ms.valueVec.getLast? with
    | some back => (s.applyModeOnTexUnit unit mode (hasFlag back StateAttribute.ON) ms).2
    | none => (s.applyModeOnTexUnit unit mode ms.global_default_value ms).2
  else
    (ms, s)

/-- The member `State::applyModeMapOnTexUnit(unit, modeMap)`. -/
def applyModeMapOnTexUnit (s : State) (unit : Nat) : ModeMap → ModeMap × State
  | [] => ([], s)
  | (mode, ms) :: rest =>
    let r := s.applyTrackedModeOnTexUnit unit mode ms
    let t := applyModeMapOnTexUnit r.2 unit rest
    ((mode, r.1) :: t.1, t.2)

/-- The body of the loop of `State::applyAttributeMapOnTexUnit` on the stack
`as = aitr->second`. -/
def applyTrackedAttributeOnTexUnit (s : State) (unit : Nat) (as : AttributeStack) :
    AttributeStack × State :=
  if as.changed then
    let as := { as with changed := false }
    match as.attributeVec.getLast? with
    | some new_attr => (s.applyAttributeOnTexUnit unit new_attr.1 as).2
    | none => (s.applyGlobalDefaultAttributeOnTexUnit unit as).2
  else
    (as, s)

/-- The member `State::applyAttributeMapOnTexUnit(unit, attributeMap)`. -/
def applyAttributeMapOnTexUnit (s : State) (unit : Nat) : AttributeMap → AttributeMap × State
  | [] => ([], s)
  | (key, as) :: rest =>
    let r := s.applyTrackedAttributeOnTexUnit unit as
    let t := applyAttributeMapOnTexUnit r.2 unit rest
    ((key, r.1) :: t.1, t.2)

/-- A call of one of the members that select a texture unit, with its arguments. -/
inductive TexUnitCall where
  /-- The call `setActiveTextureUnit(unit)`. -/
  | setActiveTextureUnit (unit : Nat)
  /-- The call `applyModeOnTexUnit(unit, mode, enabled, ms)`. -/
  | applyModeOnTexUnit (unit : Nat) (mode : GLMode) (enabled : Bool) (ms : ModeStack)
  /-- The call `applyAttributeOnTexUnit(unit, attribute, as)`. -/
  | applyAttributeOnTexUnit (unit : Nat) (attr : Attribute) (as : AttributeStack)
deriving DecidableEq

/-- The state a call of `TexUnitCall` leaves. -/
def runTexUnitCall (s : State) : TexUnitCall → State
  | TexUnitCall.setActiveTextureUnit unit => (s.setActiveTextureUnit unit).2
  | TexUnitCall.applyModeOnTexUnit unit mode enabled ms =>
    (s.applyModeOnTexUnit unit mode enabled ms).2.2
  | TexUnitCall.applyAttributeOnTexUnit unit attr as =>
    (s.applyAttributeOnTexUnit unit attr as).2.2

/-- The state a sequence of calls leaves, the calls made in order. -/
def runTexUnitCalls (s : State) (calls : List TexUnitCall) : State :=
  calls.foldl runTexUnitCall s

/-- The argument of the most recent `_glActiveTexture` call of a log, if there is one. -/
def lastActiveTexture (calls : List GLCall) : Option Nat :=
  calls.foldl (fun found c => match c with
    | GLCall.glActiveTexture texture => some texture
    | _ => found) none

/-- The clean-implies-converged predicate on one mode stack: if the mode is valid and
not dirty, the value last applied is the effective value of the stack. -/
def modeStackConverged (ms : ModeStack) : Bool :=
  !(ms.valid && !ms.changed) || (ms.last_applied_value == effectiveModeValue ms)

/-- The clean-implies-converged predicate on a mode map. -/
def modeMapConverged (m : ModeMap) : Prop :=
  ∀ k ms, Assoc.find m k = some ms → modeStackConverged ms = true

/-- The effective attribute of an attribute stack: the attribute of the top of
`attributeVec`, or `global_default_attribute` when the stack is empty. -/
def effectiveAttribute (as : AttributeStack) : Option Attribute :=
  match as.attributeVec.getLast? with
  | some top => some top.1
  | none => as.global_default_attribute

/-- The clean-implies-converged predicate on one attribute stack: if the stack is not
dirty, the attribute last applied is the effective attribute of the stack. -/
def attributeStackConverged (as : AttributeStack) : Bool :=
  as.changed || ptrEq as.last_applied_attribute (effectiveAttribute as)

/-- The clean-implies-converged predicate on an attribute map. -/
def attributeMapConverged (m : AttributeMap) : Prop :=
  ∀ k as, Assoc.find m k = some as → attributeStackConverged as = true

/-- The state `t` has the texture-unit members and the most recent `_glActiveTexture` call
of the state `u`. -/
def sameSelection (t u : State) : Prop :=
  t._currentActiveTextureUnit = u._currentActiveTextureUnit ∧
  t._glActiveTexture = u._glActiveTexture ∧
  t._glMaxTextureCoords = u._glMaxTextureCoords ∧
  t._glMaxTextureUnits = u._glMaxTextureUnits ∧
  lastActiveTexture t.glCalls = lastActiveTexture u.glCalls

/-- The active-unit invariant: `_currentActiveTextureUnit` is 0 or below the bound
`setActiveTextureUnit` compares against, and it is the unit of the most recent
`_glActiveTexture` call, or 0 when no such call was made. -/
def activeUnitInvariant (s : State) : Prop :=
  (s._currentActiveTextureUnit = 0 ∨ s._currentActiveTextureUnit < s.textureUnitLimit) ∧
  (match lastActiveTexture s.glCalls with
    | none => s._currentActiveTextureUnit = 0
    | some texture => texture = (GL_TEXTURE0 + s._currentActiveTextureUnit) % 2 ^ 32)

/-! ### Checked stack reads

The members below are the loop bodies of the push, pop and apply members once more, with
every read of `back()`, of `dv[dv.size()-2]` and every `pop_back()` made through an
accessor that fails when the access is out of range. -/

/-- The read `vec.back()`: undefined on an empty vector, here `none`. -/
def vecBack {α : Type} (vec : List α) : Option α :=
  vec.getLast?

/-- The read `vec[vec.size()-2]`: the index is computed in `size_t`, so with fewer than
two entries it wraps to a value beyond the end and the read is out of range, here
`none`. -/
def vecAtSizeMinus2 {α : Type} (vec : List α) : Option α :=
  if vec.length < 2 then none else vec[vec.length - 2]?

/-- The call `vec.pop_back()`: undefined on an empty vector, here `none`. -/
def vecPopBack {α : Type} (vec : List α) : Option (List α) :=
  if vec.isEmpty then none else some vec.dropLast

/-- The condition `!vec.empty() && (vec.back() & OVERRIDE) && !(incoming & PROTECTED)` of the
apply-list members, evaluated left to right: `vec.back()` is read only when the
vector is not empty. -/
def overrideGuard {α : Type} (flags : α → Nat) (vec : List α) (incomingFlags : Nat) :
    Option Bool :=
  if vec.isEmpty then some false
  else (vecBack vec).map fun back =>
    hasFlag (flags back) StateAttribute.OVERRIDE &&
      !(hasFlag incomingFlags StateAttribute.PROTECTED)

/-- The body of the loop of `State::pushModeList`, with checked reads. -/
def pushModeEntryChecked (ms : ModeStack) (value : GLModeValue) : Option ModeStack :=
  if ms.valueVec.isEmpty then
    some { ms with valueVec := ms.valueVec ++ [value], changed := true }
  else
    (vecBack ms.valueVec).bind fun back =>
      if hasFlag back StateAttribute.OVERRIDE && !(hasFlag value StateAttribute.PROTECTED) then
        (vecBack ms.valueVec).map fun back2 =>
          { ms with valueVec := ms.valueVec ++ [back2], changed := true }
      else
        some { ms with valueVec := ms.valueVec ++ [value], changed := true }

/-- The body of the loop of `State::popModeList`, with checked reads. -/
def popModeEntryChecked (ms : ModeStack) (_value : GLModeValue) : Option ModeStack :=
  if !ms.valueVec.isEmpty then
    (vecPopBack ms.valueVec).map fun popped => { ms with valueVec := popped, changed := true }
  else
    some { ms with changed := true }

/-- The block of `applyModeMap` and `applyModeList` on a tracked key, with checked reads. -/
def applyTrackedModeChecked (s : State) (mode : GLMode) (ms : ModeStack) :
    Option (ModeStack × State) :=
  if ms.changed then
    let ms := { ms with changed := false }
    if !ms.valueVec.isEmpty then
      (vecBack ms.valueVec).map fun back =>
        (s.applyModeStack mode (hasFlag back StateAttribute.ON) ms).2
    else
      some (s.applyModeStack mode ms.global_default_value ms).2
  else
    some (ms, s)

/-- The block of `applyModeList` on a key that is both tracked and incoming, with checked
reads. -/
def applyBothModeChecked (s : State) (mode : GLMode) (ms : ModeStack) (value : GLModeValue) :
    Option (ModeStack × State) :=
  (overrideGuard id ms.valueVec value).bind fun overridden =>
    if overridden then
      if ms.changed then
        (vecBack ms.valueVec).map fun back =>
          (s.applyModeStack mode (hasFlag back StateAttribute.ON) { ms with changed := false }).2
      else some (ms, s)
    else
      let r := s.applyModeStack mode (hasFlag value StateAttribute.ON) ms
      some (if r.1 then ({ r.2.1 with changed := true }, r.2.2) else r.2)

/-- The body of the loop of `State::pushAttributeList`, with checked reads. -/
def pushAttributeEntryChecked (as : AttributeStack) (incoming : AttributePair) :
    Option AttributeStack :=
  if as.attributeVec.isEmpty then
    some { as with attributeVec := as.attributeVec ++ [incoming], changed := true }
  else
    (vecBack as.attributeVec).bind fun back =>
      if hasFlag back.2 StateAttribute.OVERRIDE &&
          !(hasFlag incoming.2 StateAttribute.PROTECTED) then
        (vecBack as.attributeVec).map fun back2 =>
          { as with attributeVec := as.attributeVec ++ [back2], changed := true }
      else
        some { as with attributeVec := as.attributeVec ++ [incoming], changed := true }

/-- The body of the loop of `State::popAttributeList`, with checked reads. -/
def popAttributeEntryChecked (as : AttributeStack) (_incoming : AttributePair) :
    Option AttributeStack :=
  if !as.attributeVec.isEmpty then
    (vecPopBack as.attributeVec).map fun popped =>
      { as with attributeVec := popped, changed := true }
  else
    some { as with changed := true }

/-- The block of `applyAttributeMap` and `applyAttributeList` on a tracked key, with checked
reads. -/
def applyTrackedAttributeChecked (s : State) (as : AttributeStack) :
    Option (AttributeStack × State) :=
  if as.changed then
    let as := { as with changed := false }
    if !as.attributeVec.isEmpty then
      (vecBack as.attributeVec).map fun new_attr => (s.applyAttributeStack new_attr.1 as).2
    else
      some (s.applyGlobalDefaultAttribute as).2
  else
    some (as, s)

/-- The block of `applyAttributeList` on a key that is both tracked and incoming, with
checked reads. -/
def applyBothAttributeChecked (s : State) (as : AttributeStack) (incoming : AttributePair) :
    Option (AttributeStack × State) :=
  (overrideGuard Prod.snd as.attributeVec incoming.2).bind fun overridden =>
    if overridden then
      if as.changed then
        (vecBack as.attributeVec).map fun new_attr =>
          (s.applyAttributeStack new_attr.1 { as with changed := false }).2
      else some (as, s)
    else
      let r := s.applyAttributeStack incoming.1 as
      some (if r.1 then ({ r.2.1 with changed := true }, r.2.2) else r.2)

/-- The body of the loop of `State::pushUniformList`, with checked reads. -/
def pushUniformEntryChecked (us : UniformStack) (incoming : UniformPair) :
    Option UniformStack :=
  if us.uniformVec.isEmpty then
    some { us with uniformVec := us.uniformVec ++ [incoming] }
  else
    (vecBack us.uniformVec).bind fun back =>
      if hasFlag back.2 StateAttribute.OVERRIDE &&
          !(hasFlag incoming.2 StateAttribute.PROTECTED) then
        (vecBack us.uniformVec).map fun back2 =>
          { us with uniformVec := us.uniformVec ++ [back2] }
      else
        some { us with uniformVec := us.uniformVec ++ [incoming] }

/-- The body of the loop of `State::popUniformList`, with checked reads. -/
def popUniformEntryChecked (us : UniformStack) (_incoming : UniformPair) :
    Option UniformStack :=
  if !us.uniformVec.isEmpty then
    (vecPopBack us.uniformVec).map fun popped => { us with uniformVec := popped }
  else
    some us

/-- The body of the loop of `State::applyUniformMap`, with checked reads. -/
def uniformMapBlockChecked (program : Nat) (entry : String × UniformStack) :
    Option (List GLCall) :=
  if !entry.2.uniformVec.isEmpty then
    (vecBack entry.2.uniformVec).map fun back => [GLCall.uniformApply program entry.1 back.1]
  else
    some []

/-- The block `State::applyUniformList` runs on a key the merge visits, with checked reads. -/
def uniformListBlockChecked (program : Nat)
    (entry : String × Option UniformStack × Option UniformPair) : Option (List GLCall) :=
  match entry.2.1, entry.2.2 with
  | some us, none =>
    if !us.uniformVec.isEmpty then
      (vecBack us.uniformVec).map fun back => [GLCall.uniformApply program entry.1 back.1]
    else
      some []
  | none, some incoming => some [GLCall.uniformApply program entry.1 incoming.1]
  | some us, some incoming =>
    (overrideGuard Prod.snd us.uniformVec incoming.2).bind fun overridden =>
      if overridden then
        (vecBack us.uniformVec).map fun back => [GLCall.uniformApply program entry.1 back.1]
      else
        some [GLCall.uniformApply program entry.1 incoming.1]
  | none, none => some []

/-- The body of the loop of `State::pushDefineList`, with checked reads. -/
def pushDefineEntryChecked (ds : DefineStack) (incoming : DefinePair) :
    Option (DefineStack × Bool) :=
  if ds.defineVec.isEmpty then
    some ({ ds with defineVec := ds.defineVec ++ [incoming], changed := true }, true)
  else
    (vecBack ds.defineVec).bind fun back =>
      if hasFlag back.2 StateAttribute.OVERRIDE &&
          !(hasFlag incoming.2 StateAttribute.PROTECTED) then
        (vecBack ds.defineVec).map fun back2 =>
          ({ ds with defineVec := ds.defineVec ++ [back2] }, false)
      else
        let dv := ds.defineVec ++ [incoming]
        (vecAtSizeMinus2 dv).bind fun previous =>
          (vecBack dv).map fun last =>
            if previous ≠ last then ({ ds with defineVec := dv, changed := true }, true)
            else ({ ds with defineVec := dv }, false)

/-- The condition `(dv.size() < 2) || (dv[dv.size()-2] != dv.back())` of `popDefineList`,
evaluated left to right. -/
def popDefineGuard (dv : List DefinePair) : Option Bool :=
  if dv.length < 2 then some true
  else (vecAtSizeMinus2 dv).bind fun previous =>
    (vecBack dv).map fun last => decide (previous ≠ last)

/-- The body of the loop of `State::popDefineList`, with checked reads. -/
def popDefineEntryChecked (ds : DefineStack) (_incoming : DefinePair) :
    Option (DefineStack × Bool) :=
  let dv := ds.defineVec
  if !dv.isEmpty then
    (popDefineGuard dv).bind fun changed =>
      (vecPopBack dv).map fun popped =>
        if changed then ({ ds with changed := true, defineVec := popped }, true)
        else ({ ds with defineVec := popped }, false)
  else
    some (ds, false)

/-- The condition `!dv.empty() && (dv.back().second & ON) != 0` and the value `dv.back()`
assigned under it in `applyDefineList`, evaluated left to right. -/
def definedTop (dv : List DefinePair) : Option (Option DefinePair) :=
  if dv.isEmpty then some none
  else (vecBack dv).bind fun back =>
    if hasFlag back.2 StateAttribute.ON then (vecBack dv).map some else some none

/-- The block `State::applyDefineList` runs on a key the merge visits, with checked reads. -/
def defineListBlockChecked (entry : String × Option DefineStack × Option DefinePair) :
    Option (Option DefinePair) :=
  match entry.2.1, entry.2.2 with
  | some ds, none => definedTop ds.defineVec
  | none, some incoming =>
    some (if hasFlag incoming.2 StateAttribute.ON then some incoming else none)
  | some ds, some incoming =>
    (overrideGuard Prod.snd ds.defineVec incoming.2).bind fun overridden =>
      if overridden then
        (vecBack ds.defineVec).bind fun back =>
          if hasFlag back.2 StateAttribute.ON then (vecBack ds.defineVec).map some
          else some none
      else
        some (if hasFlag incoming.2 StateAttribute.ON then some incoming else none)
  | none, none => some none

end State

/-- A state with empty maps, no error checking, four texture units, no program bound, a
dynamic object count of 0 and no completion callback. -/
def sampleState : State :=
  { _modeMap := [], _attributeMap := [], _uniformMap := [], _defineMap := default,
    _textureModeMapList := [], _textureAttributeMapList := [],
    _checkGLErrors := CheckForGLErrors.NEVER_CHECK_GL_ERRORS, _shaderCompositionDirty := false,
    _currentActiveTextureUnit := 0, _glActiveTexture := true, _glMaxTextureCoords := 4,
    _glMaxTextureUnits := 4, _lastAppliedProgramObject := none, _dynamicObjectCount := 0,
    _completeDynamicObjectRenderingCallback := none, completedCalls := [], glCalls := [],
    glErrorChecks := [] }

/-- An attribute instance with identity `id`, of type 9, member 0, with the given parameters. -/
def sampleAttribute (id : Nat) (params : List Int) : Attribute :=
  { id := id, cloneDepth := 0, typeMemberPair := ⟨9, 0⟩, shaderComponent := none, params := params }

/-- The state reached from `sampleState` by `setGlobalDefaultAttribute(g)` and then the
public `applyAttribute(g)`, for the one attribute instance `g = sampleAttribute 1 [7]`. -/
def appliedDefaultState : State :=
  ((sampleState.setGlobalDefaultAttribute (sampleAttribute 1 [7])).applyAttribute
    (sampleAttribute 1 [7])).2

/-! ## Association list laws -/

namespace Assoc

variable {K V : Type}

theorem find_put_same [DecidableEq K] [KeyOrd K] (m : List (K × V)) (k : K) (v : V) :
    find (put m k v) k = some v := by
  induction m with
  | nil => simp [put, find]
  | cons hd tl ih =>
    obtain ⟨k', v'⟩ := hd
    by_cases h1 : k' = k
    · simp [put, find, h1]
    · by_cases h2 : KeyOrd.lt k k' = true
      · simp [put, find, h1, h2]
      · simp [put, find, h1, h2, ih]

theorem find_put_other [DecidableEq K] [KeyOrd K] (m : List (K × V)) (k k2 : K) (v : V)
    (hne : k2 ≠ k) : find (put m k v) k2 = find m k2 := by
  induction m with
  | nil => simp [put, find, Ne.symm hne]
  | cons hd tl ih =>
    obtain ⟨k', v'⟩ := hd
    by_cases h1 : k' = k
    · subst h1
      simp [put, find, Ne.symm hne]
    · by_cases h2 : KeyOrd.lt k k' = true
      · simp [put, find, h1, h2, Ne.symm hne]
      · simp [put, find, h1, h2, ih]

theorem get_put_same [DecidableEq K] [KeyOrd K] [Inhabited V] (m : List (K × V)) (k : K) (v : V) :
    get (put m k v) k = v := by
  simp [get, find_put_same]

theorem get_put_other [DecidableEq K] [KeyOrd K] [Inhabited V] (m : List (K × V)) (k k2 : K)
    (v : V) (hne : k2 ≠ k) : get (put m k v) k2 = get m k2 := by
  simp [get, find_put_other m k k2 v hne]

theorem find_foldUpdate_of_not_mem [DecidableEq K] [KeyOrd K] [Inhabited V] {W : Type}
    (body : V → W → V) (l : List (K × W)) :
    ∀ (m : List (K × V)) (k : K), k ∉ l.map Prod.fst →
      find (foldUpdate body m l) k = find m k := by
  induction l with
  | nil => intro m k _; rfl
  | cons hd tl ih =>
    intro m k hk
    obtain ⟨k', w'⟩ := hd
    simp only [List.map_cons, List.mem_cons, not_or] at hk
    simp only [foldUpdate]
    rw [ih _ k hk.2, find_put_other _ _ _ _ hk.1]

theorem get_foldUpdate_of_mem [DecidableEq K] [KeyOrd K] [Inhabited V] {W : Type}
    (body : V → W → V) (l : List (K × W)) :
    ∀ (m : List (K × V)) (k : K) (w : W), (l.map Prod.fst).Nodup → (k, w) ∈ l →
      get (foldUpdate body m l) k = body (get m k) w := by
  induction l with
  | nil => intro m k w _ h; simp at h
  | cons hd tl ih =>
    intro m k w hnd hmem
    obtain ⟨k', w'⟩ := hd
    simp only [List.map_cons, List.nodup_cons] at hnd
    simp only [foldUpdate]
    rcases List.mem_cons.1 hmem with h | h
    · injection h with h1 h2
      subst h1
      subst h2
      simp only [get]
      rw [find_foldUpdate_of_not_mem body tl _ k hnd.1, find_put_same]
      rfl
    · have hk : k ∈ tl.map Prod.fst := List.mem_map.2 ⟨(k, w), h, rfl⟩
      have hne : k ≠ k' := fun e => hnd.1 (e ▸ hk)
      rw [ih _ k w hnd.2 h, get_put_other _ _ _ _ hne]

theorem get_foldUpdate_invariant [DecidableEq K] [KeyOrd K] [Inhabited V] {W : Type}
    (body : V → W → V) (P : V → Prop) (hbody : ∀ v w, P v → P (body v w)) (l : List (K × W)) :
    ∀ (m : List (K × V)) (k : K), P (get m k) → P (get (foldUpdate body m l) k) := by
  induction l with
  | nil => intro m k h; exact h
  | cons hd tl ih =>
    intro m k h
    obtain ⟨k', w'⟩ := hd
    simp only [foldUpdate]
    apply ih
    by_cases hk : k = k'
    · subst hk
      rw [get_put_same]
      exact hbody _ _ h
    · rw [get_put_other _ _ _ _ hk]
      exact h

theorem mem_of_find_eq_some [DecidableEq K] (m : List (K × V)) (k : K) (v : V)
    (h : find m k = some v) : (k, v) ∈ m := by
  induction m with
  | nil => simp [find] at h
  | cons hd tl ih =>
    obtain ⟨k', v'⟩ := hd
    by_cases hk : k' = k
    · simp only [find, hk, if_true, Option.some.injEq] at h
      subst hk
      subst h
      exact List.mem_cons_self _ _
    · simp only [find, hk, if_false] at h
      exact List.mem_cons_of_mem _ (ih h)

end Assoc

/-! ## Push rule -/

namespace State

theorem pushModeEntry_valueVec (ms : ModeStack) (value : GLModeValue) :
    (pushModeEntry ms value).valueVec = ms.valueVec ++ [pushRule id ms.valueVec value] := by
  unfold pushModeEntry pushRule
  cases h : ms.valueVec.getLast? with
  | none => simp
  | some back =>
    cases hc : (hasFlag back StateAttribute.OVERRIDE &&
        !(hasFlag value StateAttribute.PROTECTED)) <;> simp [hc]

theorem pushAttributeEntry_attributeVec (as : AttributeStack) (incoming : AttributePair) :
    (pushAttributeEntry as incoming).attributeVec =
      as.attributeVec ++ [pushRule Prod.snd as.attributeVec incoming] := by
  unfold pushAttributeEntry pushRule
  cases h : as.attributeVec.getLast? with
  | none => simp
  | some back =>
    cases hc : (hasFlag back.2 StateAttribute.OVERRIDE &&
        !(hasFlag incoming.2 StateAttribute.PROTECTED)) <;> simp [hc]

theorem pushUniformEntry_uniformVec (us : UniformStack) (incoming : UniformPair) :
    (pushUniformEntry us incoming).uniformVec =
      us.uniformVec ++ [pushRule Prod.snd us.uniformVec incoming] := by
  unfold pushUniformEntry pushRule
  cases h : us.uniformVec.getLast? with
  | none => simp
  | some back =>
    cases hc : (hasFlag back.2 StateAttribute.OVERRIDE &&
        !(hasFlag incoming.2 StateAttribute.PROTECTED)) <;> simp [hc]

theorem pushDefineEntry_defineVec (ds : DefineStack) (incoming : DefinePair) :
    (pushDefineEntry ds incoming).1.defineVec =
      ds.defineVec ++ [pushRule Prod.snd ds.defineVec incoming] := by
  unfold pushDefineEntry pushRule
  cases h : ds.defineVec.getLast? with
  | none => simp
  | some back =>
    cases hc : (hasFlag back.2 StateAttribute.OVERRIDE &&
        !(hasFlag incoming.2 StateAttribute.PROTECTED))
    · simp only [hc, Bool.false_eq_true, if_false]
      split <;> rfl
    · simp [hc]

theorem pushDefineList_map (l : DefineList) :
    ∀ dm : DefineMap, (pushDefineList dm l).map =
      Assoc.foldUpdate (fun ds incoming => (pushDefineEntry ds incoming).1) dm.map l := by
  induction l with
  | nil => intro dm; rfl
  | cons hd tl ih =>
    intro dm
    obtain ⟨k, w⟩ := hd
    simp only [pushDefineList, Assoc.foldUpdate]
    rw [ih]

end State

/-! ## Mode application -/

namespace State

theorem applyModeStack_modeMap (s : State) (mode : GLMode) (enabled : Bool) (ms : ModeStack) :
    (s.applyModeStack mode enabled ms).2.2._modeMap = s._modeMap := by
  unfold applyModeStack checkGLErrorsMode
  split <;> [skip; rfl]
  cases enabled <;> simp <;> split <;> rfl

theorem applyModeStack_fst (s : State) (mode : GLMode) (enabled : Bool) (ms : ModeStack) :
    (s.applyModeStack mode enabled ms).1 = (ms.valid && (ms.last_applied_value != enabled)) := by
  unfold applyModeStack
  split <;> simp_all

theorem applyModeStack_ms (s : State) (mode : GLMode) (enabled : Bool) (ms : ModeStack) :
    (s.applyModeStack mode enabled ms).2.1 =
      if ms.valid && (ms.last_applied_value != enabled) then { ms with last_applied_value := enabled }
      else ms := by
  unfold applyModeStack
  split <;> simp_all

theorem applyModeStack_glCalls (s : State) (mode : GLMode) (enabled : Bool) (ms : ModeStack) :
    (s.applyModeStack mode enabled ms).2.2.glCalls =
      if ms.valid && (ms.last_applied_value != enabled) then
        s.glCalls ++ [if enabled then GLCall.glEnable mode else GLCall.glDisable mode]
      else s.glCalls := by
  unfold applyModeStack checkGLErrorsMode
  split <;> [skip; rfl]
  cases enabled <;> simp <;> split <;> rfl

theorem applyMode_get (s : State) (mode : GLMode) (enabled : Bool) :
    Assoc.get (s.applyMode mode enabled).2._modeMap mode =
      (s.applyModeStack mode enabled { Assoc.get s._modeMap mode with changed := true }).2.1 := by
  simp [applyMode, Assoc.get_put_same]

/-- C1: the public `applyMode(mode, enabled)` returns true exactly when the key's
`ModeStack` is valid and its `last_applied_value` differs from `enabled` before
the call; after a true return `last_applied_value` is `enabled`, after a false
return it is what it was. -/
theorem applyMode_true_iff_valid_and_differs (s : State) (mode : GLMode) (enabled : Bool) :
    ((s.applyMode mode enabled).1 = true ↔
        ((Assoc.get s._modeMap mode).valid = true ∧
          (Assoc.get s._modeMap mode).last_applied_value ≠ enabled)) ∧
    ((s.applyMode mode enabled).1 = true →
        (Assoc.get (s.applyMode mode enabled).2._modeMap mode).last_applied_value = enabled) ∧
    ((s.applyMode mode enabled).1 = false →
        (Assoc.get (s.applyMode mode enabled).2._modeMap mode).last_applied_value =
          (Assoc.get s._modeMap mode).last_applied_value) := by
  rw [applyMode_get, applyModeStack_ms]
  have hr : (s.applyMode mode enabled).1 =
      ((Assoc.get s._modeMap mode).valid &&
        ((Assoc.get s._modeMap mode).last_applied_value != enabled)) := by
    simp [applyMode, applyModeStack_fst]
  rw [hr]
  generalize Assoc.get s._modeMap mode = ms
  obtain ⟨valid, changed, last, dflt, vec⟩ := ms
  cases valid <;> cases last <;> cases enabled <;> simp

/-- Witness of C1 on a state whose depth-test mode (0x0B71) was never applied:
enabling it returns true and records the value. -/
theorem applyMode_true_iff_valid_and_differs_witness :
    (sampleState.applyMode 0x0B71 true).1 = true ∧
      (Assoc.get (sampleState.applyMode 0x0B71 true).2._modeMap 0x0B71).last_applied_value = true :=
  ⟨(applyMode_true_iff_valid_and_differs sampleState 0x0B71 true).1.2 (by decide),
   (applyMode_true_iff_valid_and_differs sampleState 0x0B71 true).2.1 (by decide)⟩

/-- C2: lazy mode update. For a valid `ModeStack`, `applyMode(mode, enabled, ms)`
issues an OpenGL command exactly when `enabled` differs from
`ms.last_applied_value`, and then exactly one: `glEnable(mode)` when `enabled`
is true, `glDisable(mode)` when it is false. (The error check requested under
`ONCE_PER_ATTRIBUTE` goes to `glErrorChecks`, not to `glCalls`.) -/
theorem applyModeStack_lazy (s : State) (mode : GLMode) (enabled : Bool) (ms : ModeStack)
    (hvalid : ms.valid = true) :
    ((s.applyModeStack mode enabled ms).2.2.glCalls ≠ s.glCalls ↔
        enabled ≠ ms.last_applied_value) ∧
    (enabled ≠ ms.last_applied_value →
        (s.applyModeStack mode enabled ms).2.2.glCalls =
          s.glCalls ++ [if enabled then GLCall.glEnable mode else GLCall.glDisable mode]) ∧
    (enabled = ms.last_applied_value →
        (s.applyModeStack mode enabled ms).2.2.glCalls = s.glCalls) := by
  rw [applyModeStack_glCalls, hvalid]
  obtain ⟨valid, changed, last, dflt, vec⟩ := ms
  cases last <;> cases enabled <;> simp

/-- Witness of C2: enabling a never-applied valid mode issues the single command
`glEnable`. -/
theorem applyModeStack_lazy_witness :
    (sampleState.applyModeStack 0x0B71 true default).2.2.glCalls = [GLCall.glEnable 0x0B71] :=
  (applyModeStack_lazy sampleState 0x0B71 true default rfl).2.1 (by decide)

/-- Counterexample to C3 as stated: the mode 0x0B71 is tracked, clean and last
applied as disabled; `applyMode(0x0B71, false)` returns false, yet the
`changed` flag of its `ModeStack` goes from false to true, so the stack is not
the same after the call as before. -/
theorem applyMode_false_changes_stack :
    (Assoc.get ({ sampleState with _modeMap := [(0x0B71, default)] } : State)._modeMap
        0x0B71).last_applied_value = false ∧
    (Assoc.get ({ sampleState with _modeMap := [(0x0B71, default)] } : State)._modeMap
        0x0B71).changed = false ∧
    (({ sampleState with _modeMap := [(0x0B71, default)] } : State).applyMode 0x0B71 false).1
      = false ∧
    (Assoc.get (({ sampleState with _modeMap := [(0x0B71, default)] } : State).applyMode
        0x0B71 false).2._modeMap 0x0B71).changed = true ∧
    Assoc.get (({ sampleState with _modeMap := [(0x0B71, default)] } : State).applyMode
        0x0B71 false).2._modeMap 0x0B71 ≠
      Assoc.get ({ sampleState with _modeMap := [(0x0B71, default)] } : State)._modeMap 0x0B71 := by
  decide

/-- C3 as amended: when the key is invalid or `enabled` equals its
`last_applied_value`, the public `applyMode(mode, enabled)` returns false,
issues no OpenGL command and requests no error check, and leaves `valid`,
`last_applied_value`, `global_default_value` and `valueVec` of the key's
`ModeStack` as they were; its `changed` flag is true afterwards. -/
theorem applyMode_false_only_marks_changed (s : State) (mode : GLMode) (enabled : Bool)
    (h : (Assoc.get s._modeMap mode).valid = false ∨
      enabled = (Assoc.get s._modeMap mode).last_applied_value) :
    (s.applyMode mode enabled).1 = false ∧
    (s.applyMode mode enabled).2.glCalls = s.glCalls ∧
    (s.applyMode mode enabled).2.glErrorChecks = s.glErrorChecks ∧
    Assoc.get (s.applyMode mode enabled).2._modeMap mode =
      { Assoc.get s._modeMap mode with changed := true } := by
  have hc : ((Assoc.get s._modeMap mode).valid &&
      ((Assoc.get s._modeMap mode).last_applied_value != enabled)) = false := by
    rcases h with h | h
    · simp [h]
    · simp [h]
  refine ⟨?_, ?_, ?_, ?_⟩
  · simp [applyMode, applyModeStack_fst, hc]
  · simp only [applyMode, applyModeStack]
    simp [hc]
  · simp only [applyMode, applyModeStack]
    simp [hc]
  · rw [applyMode_get, applyModeStack_ms]
    simp [hc]

/-- Witness of the amended C3: disabling a mode that is already disabled. -/
theorem applyMode_false_only_marks_changed_witness :
    (sampleState.applyMode 0x0B71 false).1 = false ∧
    (sampleState.applyMode 0x0B71 false).2.glCalls = sampleState.glCalls ∧
    (sampleState.applyMode 0x0B71 false).2.glErrorChecks = sampleState.glErrorChecks ∧
    Assoc.get (sampleState.applyMode 0x0B71 false).2._modeMap 0x0B71 =
      { Assoc.get sampleState._modeMap 0x0B71 with changed := true } :=
  applyMode_false_only_marks_changed sampleState 0x0B71 false (Or.inr (by decide))

/-! ## Attribute application -/

theorem ptrEq_same_left (p : Option Attribute) (a b : Attribute) (h : a.same b = true) :
    ptrEq p (some a) = ptrEq p (some b) := by
  cases p with
  | none => rfl
  | some c =>
    simp only [ptrEq, Attribute.same, Bool.and_eq_true, decide_eq_true_eq] at h ⊢
    rw [h.1, h.2]

theorem ptrEq_comm (p q : Option Attribute) : ptrEq p q = ptrEq q p := by
  cases p <;> cases q <;> simp [ptrEq, Attribute.same, eq_comm]

theorem applyAttributeBody_eq (s : State) (attr : Attribute) (as : AttributeStack) :
    s.applyAttributeBody attr as =
      ({ as with
          global_default_attribute :=
            if as.global_default_attribute.isSome then as.global_default_attribute
            else some attr.cloneType,
          last_applied_attribute := some attr,
          last_applied_shadercomponent := attr.shaderComponent },
       { s with
          glCalls := s.glCalls ++ [GLCall.attributeApply attr],
          _shaderCompositionDirty :=
            if as.last_applied_shadercomponent = attr.shaderComponent then s._shaderCompositionDirty
            else true,
          glErrorChecks :=
            if s._checkGLErrors = CheckForGLErrors.ONCE_PER_ATTRIBUTE then
              s.glErrorChecks ++ [GLErrorCheck.attr attr]
            else s.glErrorChecks }) := by
  by_cases h1 : as.global_default_attribute.isSome = true <;>
    by_cases h2 : as.last_applied_shadercomponent = attr.shaderComponent <;>
    by_cases h3 : s._checkGLErrors = CheckForGLErrors.ONCE_PER_ATTRIBUTE <;>
    simp [applyAttributeBody, checkGLErrorsAttribute, h1, h2, h3]

theorem applyAttributeBody_glCalls (s : State) (attr : Attribute) (as : AttributeStack) :
    (s.applyAttributeBody attr as).2.glCalls = s.glCalls ++ [GLCall.attributeApply attr] := by
  rw [applyAttributeBody_eq]

theorem applyAttributeBody_last (s : State) (attr : Attribute) (as : AttributeStack) :
    (s.applyAttributeBody attr as).1.last_applied_attribute = some attr := by
  rw [applyAttributeBody_eq]

theorem applyAttributeBody_default (s : State) (attr : Attribute) (as : AttributeStack) :
    (s.applyAttributeBody attr as).1.global_default_attribute =
      if as.global_default_attribute.isSome then as.global_default_attribute
      else some attr.cloneType := by
  rw [applyAttributeBody_eq]

theorem applyAttributeBody_vec (s : State) (attr : Attribute) (as : AttributeStack) :
    (s.applyAttributeBody attr as).1.attributeVec = as.attributeVec ∧
      (s.applyAttributeBody attr as).1.changed = as.changed := by
  rw [applyAttributeBody_eq]
  exact ⟨rfl, rfl⟩

theorem applyAttributeBody_attributeMap (s : State) (attr : Attribute) (as : AttributeStack) :
    (s.applyAttributeBody attr as).2._attributeMap = s._attributeMap := by
  rw [applyAttributeBody_eq]

/-- C4: `applyAttribute(attr, as)` compares by identity. If `attr` is the instance
last applied it returns false and leaves the stack and the state as they are,
so no apply routine is invoked; otherwise it invokes `attr->apply` exactly
once, records `attr` as last applied and returns true. -/
theorem applyAttributeStack_identity (s : State) (attr : Attribute) (as : AttributeStack) :
    (ptrEq as.last_applied_attribute (some attr) = true →
        s.applyAttributeStack attr as = (false, as, s)) ∧
    (ptrEq as.last_applied_attribute (some attr) = false →
        (s.applyAttributeStack attr as).1 = true ∧
        (s.applyAttributeStack attr as).2.1.last_applied_attribute = some attr ∧
        (s.applyAttributeStack attr as).2.2.glCalls =
          s.glCalls ++ [GLCall.attributeApply attr]) := by
  constructor
  · intro h
    simp [applyAttributeStack, h]
  · intro h
    simp [applyAttributeStack, h, applyAttributeBody_glCalls, applyAttributeBody_last]

/-- Witness of C4: with instance 1 last applied, instance 2 with equal
parameters is applied all the same, while instance 1 itself is not. -/
theorem applyAttributeStack_identity_witness :
    (sampleState.applyAttributeStack (sampleAttribute 2 [7])
        { (default : AttributeStack) with
          last_applied_attribute := some (sampleAttribute 1 [7]) }).2.2.glCalls =
      [GLCall.attributeApply (sampleAttribute 2 [7])] ∧
    sampleState.applyAttributeStack (sampleAttribute 1 [7])
        { (default : AttributeStack) with
          last_applied_attribute := some (sampleAttribute 1 [7]) } =
      (false, { (default : AttributeStack) with
          last_applied_attribute := some (sampleAttribute 1 [7]) }, sampleState) :=
  ⟨((applyAttributeStack_identity sampleState (sampleAttribute 2 [7])
      { (default : AttributeStack) with
        last_applied_attribute := some (sampleAttribute 1 [7]) }).2 (by decide)).2.2,
   (applyAttributeStack_identity sampleState (sampleAttribute 1 [7])
      { (default : AttributeStack) with
        last_applied_attribute := some (sampleAttribute 1 [7]) }).1 (by decide)⟩

theorem ptrEq_of_same (p : Option Attribute) (a x : Attribute)
    (h : ptrEq p (some a) = true) : ptrEq p (some x) = ptrEq (some a) (some x) := by
  cases p with
  | none => simp [ptrEq] at h
  | some c =>
    simp only [ptrEq, Attribute.same, Bool.and_eq_true, decide_eq_true_eq] at h ⊢
    rw [h.1, h.2]

theorem applyAttributeStack_attributeMap (s : State) (attr : Attribute) (as : AttributeStack) :
    (s.applyAttributeStack attr as).2.2._attributeMap = s._attributeMap := by
  unfold applyAttributeStack
  split
  · exact applyAttributeBody_attributeMap s attr as
  · rfl

theorem applyAttributeStack_glCalls (s : State) (attr : Attribute) (as : AttributeStack) :
    (s.applyAttributeStack attr as).2.2.glCalls =
      if ptrEq as.last_applied_attribute (some attr) then s.glCalls
      else s.glCalls ++ [GLCall.attributeApply attr] := by
  unfold applyAttributeStack
  cases h : ptrEq as.last_applied_attribute (some attr) <;>
    simp [applyAttributeBody_glCalls]

theorem applyAttributeStack_default (s : State) (attr : Attribute) (as : AttributeStack) :
    (s.applyAttributeStack attr as).2.1.global_default_attribute =
      if ptrEq as.last_applied_attribute (some attr) then as.global_default_attribute
      else if as.global_default_attribute.isSome then as.global_default_attribute
      else some attr.cloneType := by
  unfold applyAttributeStack
  cases h : ptrEq as.last_applied_attribute (some attr) <;>
    simp [applyAttributeBody_default]

theorem applyAttribute_get (s : State) (attr : Attribute) :
    Assoc.get (s.applyAttribute attr).2._attributeMap attr.typeMemberPair =
      (s.applyAttributeStack attr
        { Assoc.get s._attributeMap attr.typeMemberPair with changed := true }).2.1 := by
  simp [applyAttribute, Assoc.get_put_same]

theorem applyAttribute_glCalls (s : State) (attr : Attribute) :
    (s.applyAttribute attr).2.glCalls =
      if ptrEq (Assoc.get s._attributeMap attr.typeMemberPair).last_applied_attribute (some attr)
      then s.glCalls else s.glCalls ++ [GLCall.attributeApply attr] := by
  simp [applyAttribute, applyAttributeStack_glCalls]

theorem applyAttribute_last (s : State) (attr x : Attribute) :
    ptrEq (Assoc.get (s.applyAttribute attr).2._attributeMap
      attr.typeMemberPair).last_applied_attribute (some x) = ptrEq (some attr) (some x) := by
  rw [applyAttribute_get]
  unfold applyAttributeStack
  cases h : ptrEq (Assoc.get s._attributeMap attr.typeMemberPair).last_applied_attribute
      (some attr)
  · simp [h, applyAttributeBody_last]
  · simp [h]
    exact ptrEq_of_same _ attr x h

theorem applyAttributes_glCalls (key : TypeMemberPair) (l : List Attribute) :
    ∀ (s : State) (prev : Option Attribute), (∀ a ∈ l, a.typeMemberPair = key) →
      (∀ x, ptrEq (Assoc.get s._attributeMap key).last_applied_attribute (some x) =
        ptrEq prev (some x)) →
      (applyAttributes s l).glCalls =
        s.glCalls ++ (transitions prev l).map GLCall.attributeApply := by
  induction l with
  | nil => intro s prev _ _; simp [applyAttributes, transitions]
  | cons a rest ih =>
    intro s prev hkey hprev
    have ha : a.typeMemberPair = key := hkey a (List.mem_cons_self a rest)
    have hrest : ∀ b ∈ rest, b.typeMemberPair = key :=
      fun b hb => hkey b (List.mem_cons_of_mem a hb)
    have hstep := ih (s.applyAttribute a).2 (some a) hrest
      (fun x => by rw [← ha]; exact applyAttribute_last s a x)
    simp only [applyAttributes, transitions]
    rw [hstep, applyAttribute_glCalls, ha, hprev a]
    cases ptrEq prev (some a) <;> simp

theorem attributeApplyCount_append_map (calls : List GLCall) (l : List Attribute) :
    attributeApplyCount (calls ++ l.map GLCall.attributeApply) =
      attributeApplyCount calls + l.length := by
  unfold attributeApplyCount
  rw [List.countP_append, List.countP_map]
  congr 1
  rw [List.countP_eq_length]
  intro a _
  rfl

/-- C5: lazy convergence. Applying in order, with the public `applyAttribute`, a
sequence of attributes of one type/member key to a state whose last applied
attribute for the key is null invokes `attribute->apply` once for every
position holding another instance than the position before (the first
position included), in that order; for `[a, a, b, a]` with `a` and `b`
different instances that is three invocations. -/
theorem applyAttributes_lazy_convergence (s : State) (key : TypeMemberPair)
    (hnull : (Assoc.get s._attributeMap key).last_applied_attribute = none) :
    (∀ l : List Attribute, (∀ a ∈ l, a.typeMemberPair = key) →
      (applyAttributes s l).glCalls =
          s.glCalls ++ (transitions none l).map GLCall.attributeApply ∧
      attributeApplyCount (applyAttributes s l).glCalls =
          attributeApplyCount s.glCalls + (transitions none l).length) ∧
    (∀ a b : Attribute, a.typeMemberPair = key → b.typeMemberPair = key → a.same b = false →
      attributeApplyCount (applyAttributes s [a, a, b, a]).glCalls =
        attributeApplyCount s.glCalls + 3) := by
  have main : ∀ l : List Attribute, (∀ a ∈ l, a.typeMemberPair = key) →
      (applyAttributes s l).glCalls =
        s.glCalls ++ (transitions none l).map GLCall.attributeApply :=
    fun l hl => applyAttributes_glCalls key l s none hl (fun x => by rw [hnull])
  refine ⟨fun l hl => ⟨main l hl, ?_⟩, ?_⟩
  · rw [main l hl, attributeApplyCount_append_map]
  · intro a b ha hb hab
    have hl : ∀ x ∈ [a, a, b, a], x.typeMemberPair = key := by
      intro x hx
      simp only [List.mem_cons, List.mem_singleton, List.not_mem_nil, or_false] at hx
      rcases hx with h | h | h | h <;> rw [h] <;> assumption
    rw [main _ hl, attributeApplyCount_append_map]
    have haa : a.same a = true := by simp [Attribute.same]
    have hba : b.same a = false := by
      simp only [Attribute.same, Bool.and_eq_false_imp, decide_eq_true_eq,
        decide_eq_false_iff_not] at hab ⊢
      intro h1 h2
      exact hab h1.symm h2.symm
    simp [transitions, ptrEq, haa, hab, hba]

/-- Witness of C5: on a fresh state the sequence `[a, a, b, a]` of two
instances with equal parameters invokes apply for `a`, `b`, `a`. -/
theorem applyAttributes_lazy_convergence_witness :
    (applyAttributes sampleState [sampleAttribute 1 [7], sampleAttribute 1 [7],
        sampleAttribute 2 [7], sampleAttribute 1 [7]]).glCalls =
      [GLCall.attributeApply (sampleAttribute 1 [7]), GLCall.attributeApply (sampleAttribute 2 [7]),
        GLCall.attributeApply (sampleAttribute 1 [7])] ∧
    attributeApplyCount (applyAttributes sampleState [sampleAttribute 1 [7], sampleAttribute 1 [7],
        sampleAttribute 2 [7], sampleAttribute 1 [7]]).glCalls = 3 :=
  ⟨((applyAttributes_lazy_convergence sampleState ⟨9, 0⟩ rfl).1 _ (by decide)).1,
   (applyAttributes_lazy_convergence sampleState ⟨9, 0⟩ rfl).2 (sampleAttribute 1 [7])
     (sampleAttribute 2 [7]) rfl rfl (by decide)⟩

/-- C6: with no global default recorded and `attr` not the instance last applied,
`applyAttribute(attr, as)` records as global default the clone of `attr`: another
instance, of the same type and member, with the parameter values of `attr`. -/
theorem applyAttributeStack_records_clone (s : State) (attr : Attribute) (as : AttributeStack)
    (hnone : as.global_default_attribute = none)
    (hdiff : ptrEq as.last_applied_attribute (some attr) = false) :
    (s.applyAttributeStack attr as).2.1.global_default_attribute = some attr.cloneType ∧
    attr.cloneType.same attr = false ∧
    attr.cloneType.typeMemberPair = attr.typeMemberPair ∧
    attr.cloneType.params = attr.params := by
  refine ⟨?_, ?_, rfl, rfl⟩
  · rw [applyAttributeStack_default, hdiff, hnone]
    rfl
  · simp [Attribute.same, Attribute.cloneType]

/-- Witness of C6: the first attribute applied to a fresh stack. -/
theorem applyAttributeStack_records_clone_witness :
    (sampleState.applyAttributeStack (sampleAttribute 1 [7]) default).2.1.global_default_attribute =
        some (sampleAttribute 1 [7]).cloneType ∧
    (sampleAttribute 1 [7]).cloneType.same (sampleAttribute 1 [7]) = false ∧
    (sampleAttribute 1 [7]).cloneType.typeMemberPair = (sampleAttribute 1 [7]).typeMemberPair ∧
    (sampleAttribute 1 [7]).cloneType.params = (sampleAttribute 1 [7]).params :=
  applyAttributeStack_records_clone sampleState (sampleAttribute 1 [7]) default rfl rfl

/-! ## Pushing lists and override propagation -/

/-- C9: the push rule. After `pushModeList`, `pushAttributeList`, `pushUniformList`
or `pushDefineList` of a list (a `std::map`, so its keys are distinct), the
stack of every key of the list is the stack before with one entry appended,
the one `pushRule` names: the incoming entry on an empty stack, the previous
top when it has OVERRIDE and the incoming entry lacks PROTECTED, the incoming
entry otherwise. Keys outside the list keep the stack they had, or stay absent. -/
theorem push_appends_pushRule_entry :
    (∀ (m : ModeMap) (l : ModeList), (l.map Prod.fst).Nodup →
      (∀ k v, (k, v) ∈ l → (Assoc.get (pushModeList m l) k).valueVec =
          (Assoc.get m k).valueVec ++ [pushRule id (Assoc.get m k).valueVec v]) ∧
      (∀ k, k ∉ l.map Prod.fst → Assoc.find (pushModeList m l) k = Assoc.find m k)) ∧
    (∀ (m : AttributeMap) (l : AttributeList), (l.map Prod.fst).Nodup →
      (∀ k v, (k, v) ∈ l → (Assoc.get (pushAttributeList m l) k).attributeVec =
          (Assoc.get m k).attributeVec ++ [pushRule Prod.snd (Assoc.get m k).attributeVec v]) ∧
      (∀ k, k ∉ l.map Prod.fst → Assoc.find (pushAttributeList m l) k = Assoc.find m k)) ∧
    (∀ (m : UniformMap) (l : UniformList), (l.map Prod.fst).Nodup →
      (∀ k v, (k, v) ∈ l → (Assoc.get (pushUniformList m l) k).uniformVec =
          (Assoc.get m k).uniformVec ++ [pushRule Prod.snd (Assoc.get m k).uniformVec v]) ∧
      (∀ k, k ∉ l.map Prod.fst → Assoc.find (pushUniformList m l) k = Assoc.find m k)) ∧
    (∀ (dm : DefineMap) (l : DefineList), (l.map Prod.fst).Nodup →
      (∀ k v, (k, v) ∈ l → (Assoc.get (pushDefineList dm l).map k).defineVec =
          (Assoc.get dm.map k).defineVec ++ [pushRule Prod.snd (Assoc.get dm.map k).defineVec v]) ∧
      (∀ k, k ∉ l.map Prod.fst → Assoc.find (pushDefineList dm l).map k = Assoc.find dm.map k)) := by
  refine ⟨fun m l hnd => ⟨fun k v hmem => ?_, fun k hk => ?_⟩,
    fun m l hnd => ⟨fun k v hmem => ?_, fun k hk => ?_⟩,
    fun m l hnd => ⟨fun k v hmem => ?_, fun k hk => ?_⟩,
    fun dm l hnd => ⟨fun k v hmem => ?_, fun k hk => ?_⟩⟩
  · rw [pushModeList, Assoc.get_foldUpdate_of_mem _ l m k v hnd hmem, pushModeEntry_valueVec]
  · exact Assoc.find_foldUpdate_of_not_mem _ l m k hk
  · rw [pushAttributeList, Assoc.get_foldUpdate_of_mem _ l m k v hnd hmem,
      pushAttributeEntry_attributeVec]
  · exact Assoc.find_foldUpdate_of_not_mem _ l m k hk
  · rw [pushUniformList, Assoc.get_foldUpdate_of_mem _ l m k v hnd hmem,
      pushUniformEntry_uniformVec]
  · exact Assoc.find_foldUpdate_of_not_mem _ l m k hk
  · rw [pushDefineList_map, Assoc.get_foldUpdate_of_mem _ l dm.map k v hnd hmem,
      pushDefineEntry_defineVec]
  · rw [pushDefineList_map]
    exact Assoc.find_foldUpdate_of_not_mem _ l dm.map k hk

/-- Witness of C9: on a mode stack whose top is ON|OVERRIDE, pushing OFF
appends a copy of the top, and a key outside the list is left absent. -/
theorem push_appends_pushRule_entry_witness :
    (Assoc.get (pushModeList [(0x0B71, { (default : ModeStack) with valueVec := [3] })]
        [(0x0B71, 0)]) 0x0B71).valueVec = [3, 3] ∧
    Assoc.find (pushModeList [(0x0B71, { (default : ModeStack) with valueVec := [3] })]
        [(0x0B71, 0)]) 0x0B60 = none :=
  ⟨((push_appends_pushRule_entry.1
      [(0x0B71, { (default : ModeStack) with valueVec := [3] })] [(0x0B71, 0)]
      (by decide)).1 0x0B71 0 (by decide)).trans (by decide),
   ((push_appends_pushRule_entry.1
      [(0x0B71, { (default : ModeStack) with valueVec := [3] })] [(0x0B71, 0)]
      (by decide)).2 0x0B60 (by decide)).trans (by decide)⟩

theorem applyTrackedMode_fst (s : State) (mode : GLMode) (ms : ModeStack) :
    (s.applyTrackedMode mode ms).1 =
      if ms.changed then
        if ms.valid && (ms.last_applied_value !=
            (match ms.valueVec.getLast? with
              | some back => hasFlag back StateAttribute.ON
              | none => ms.global_default_value)) then
          { ms with changed := false,
                    last_applied_value :=
                      (match ms.valueVec.getLast? with
                        | some back => hasFlag back StateAttribute.ON
                        | none => ms.global_default_value) }
        else { ms with changed := false }
      else ms := by
  unfold applyTrackedMode
  cases hc : ms.changed
  · simp
  · simp only [if_true]
    cases ms.valueVec.getLast? <;> simp [applyModeStack_ms]

theorem find_applyModeMap (m : ModeMap) :
    ∀ (s : State) (k : GLMode), Assoc.find (s.applyModeMap m).1 k =
      (Assoc.find m k).map fun ms => (s.applyTrackedMode k ms).1 := by
  induction m with
  | nil => intro s k; rfl
  | cons hd tl ih =>
    intro s k
    obtain ⟨k', ms⟩ := hd
    by_cases hk : k' = k
    · subst hk
      simp [applyModeMap, Assoc.find]
    · simp only [applyModeMap, Assoc.find, hk, if_false]
      rw [ih]
      cases Assoc.find tl k with
      | none => rfl
      | some v => simp [applyTrackedMode_fst]

theorem get_applyModeMap (m : ModeMap) (s : State) (k : GLMode) :
    Assoc.get (s.applyModeMap m).1 k = (s.applyTrackedMode k (Assoc.get m k)).1 := by
  unfold Assoc.get
  rw [find_applyModeMap]
  cases Assoc.find m k with
  | none =>
    rw [applyTrackedMode_fst]
    rfl
  | some v => rfl

/-- C10: override propagation. From a state in which the mode `M` is valid and
its stack is empty, pushing a list with `M = ON|OVERRIDE`, then a list with
`M = OFF`, then `applyModeMap`, leaves `last_applied_value` of `M` true; when
the second list carries `M = OFF|PROTECTED` instead, it leaves it false. -/
theorem override_propagation (s : State) (M : GLMode) (l1 l2 : ModeList)
    (hvalid : (Assoc.get s._modeMap M).valid = true)
    (hempty : (Assoc.get s._modeMap M).valueVec = [])
    (h1 : (l1.map Prod.fst).Nodup) (h2 : (l2.map Prod.fst).Nodup)
    (hA : (M, StateAttribute.ON ||| StateAttribute.OVERRIDE) ∈ l1) :
    ((M, StateAttribute.OFF) ∈ l2 →
      (Assoc.get (s.applyModeMap (pushModeList (pushModeList s._modeMap l1) l2)).1
        M).last_applied_value = true) ∧
    ((M, StateAttribute.OFF ||| StateAttribute.PROTECTED) ∈ l2 →
      (Assoc.get (s.applyModeMap (pushModeList (pushModeList s._modeMap l1) l2)).1
        M).last_applied_value = false) := by
  have e1 : Assoc.get (pushModeList s._modeMap l1) M =
      pushModeEntry (Assoc.get s._modeMap M) (StateAttribute.ON ||| StateAttribute.OVERRIDE) :=
    Assoc.get_foldUpdate_of_mem _ l1 _ M _ h1 hA
  have e2 : ∀ v, (M, v) ∈ l2 → Assoc.get (pushModeList (pushModeList s._modeMap l1) l2) M =
      pushModeEntry (pushModeEntry (Assoc.get s._modeMap M)
        (StateAttribute.ON ||| StateAttribute.OVERRIDE)) v := by
    intro v hv
    rw [← e1]
    exact Assoc.get_foldUpdate_of_mem _ l2 _ M _ h2 hv
  generalize Assoc.get s._modeMap M = ms at hvalid hempty e2
  obtain ⟨valid, changed, last, dflt, vec⟩ := ms
  simp only at hvalid hempty
  subst hvalid
  subst hempty
  constructor
  · intro hB
    rw [get_applyModeMap, e2 _ hB, applyTrackedMode_fst]
    cases last <;> cases changed <;> cases dflt <;> decide
  · intro hB
    rw [get_applyModeMap, e2 _ hB, applyTrackedMode_fst]
    cases last <;> cases changed <;> cases dflt <;> decide

/-- Witness of C10 on the depth-test mode (0x0B71) of a fresh state. -/
theorem override_propagation_witness :
    (Assoc.get (sampleState.applyModeMap (pushModeList (pushModeList sampleState._modeMap
        [(0x0B71, StateAttribute.ON ||| StateAttribute.OVERRIDE)])
        [(0x0B71, StateAttribute.OFF)])).1 0x0B71).last_applied_value = true :=
  (override_propagation sampleState 0x0B71
    [(0x0B71, StateAttribute.ON ||| StateAttribute.OVERRIDE)] [(0x0B71, StateAttribute.OFF)]
    (by decide) (by decide) (by decide) (by decide) (by decide)).1 (by decide)

/-! ## The global default attribute -/

theorem applyGlobalDefaultBody_eq (s : State) (dflt : Attribute) (as : AttributeStack) :
    s.applyGlobalDefaultBody dflt as =
      ({ as with last_applied_shadercomponent := dflt.shaderComponent },
       { s with
          glCalls := s.glCalls ++ [GLCall.attributeApply dflt],
          _shaderCompositionDirty :=
            if as.last_applied_shadercomponent = dflt.shaderComponent then s._shaderCompositionDirty
            else true,
          glErrorChecks :=
            if s._checkGLErrors = CheckForGLErrors.ONCE_PER_ATTRIBUTE then
              s.glErrorChecks ++ [GLErrorCheck.attr dflt]
            else s.glErrorChecks }) := by
  obtain ⟨changed, last, sc, dfl, vec⟩ := as
  by_cases h2 : sc = dflt.shaderComponent <;>
    by_cases h3 : s._checkGLErrors = CheckForGLErrors.ONCE_PER_ATTRIBUTE <;>
    simp [applyGlobalDefaultBody, checkGLErrorsAttribute, h2, h3]

theorem applyGlobalDefaultAttribute_default (s : State) (as : AttributeStack) :
    (s.applyGlobalDefaultAttribute as).2.1.global_default_attribute =
      as.global_default_attribute := by
  unfold applyGlobalDefaultAttribute
  split
  · cases h : as.global_default_attribute with
    | none => simp [h]
    | some d => simp [h, applyGlobalDefaultBody_eq]
  · rfl

theorem applyGlobalDefaultAttribute_changed (s : State) (as : AttributeStack) :
    (s.applyGlobalDefaultAttribute as).2.1.changed = as.changed := by
  unfold applyGlobalDefaultAttribute
  split
  · cases h : as.global_default_attribute with
    | none => simp
    | some d => simp [applyGlobalDefaultBody_eq]
  · rfl

theorem applyGlobalDefaultAttribute_some (s : State) (as : AttributeStack) (d : Attribute)
    (hd : as.global_default_attribute = some d) :
    (s.applyGlobalDefaultAttribute as).2.2.glCalls =
        s.glCalls ++ (if ptrEq as.last_applied_attribute (some d) then []
          else [GLCall.attributeApply d]) ∧
    ptrEq (s.applyGlobalDefaultAttribute as).2.1.last_applied_attribute (some d) = true := by
  unfold applyGlobalDefaultAttribute
  rw [hd]
  cases h : ptrEq as.last_applied_attribute (some d)
  · simp [applyGlobalDefaultBody_eq, ptrEq, Attribute.same]
  · simp [h]

theorem applyAttributeOnTexUnit_default (s : State) (unit : Nat) (attr : Attribute)
    (as : AttributeStack) (d : Attribute) (hd : as.global_default_attribute = some d) :
    (s.applyAttributeOnTexUnit unit attr as).2.1.global_default_attribute = some d := by
  unfold applyAttributeOnTexUnit
  split
  · simp only
    split
    · rw [applyAttributeBody_default, hd]
      rfl
    · exact hd
  · exact hd

theorem applyAttributeStack_default_some (s : State) (attr : Attribute) (as : AttributeStack)
    (d : Attribute) (hd : as.global_default_attribute = some d) :
    (s.applyAttributeStack attr as).2.1.global_default_attribute = some d := by
  rw [applyAttributeStack_default, hd]
  simp

theorem applyTrackedAttribute_default_some (s : State) (as : AttributeStack) (d : Attribute)
    (hd : as.global_default_attribute = some d) :
    (s.applyTrackedAttribute as).1.global_default_attribute = some d := by
  unfold applyTrackedAttribute
  split
  · simp only
    split
    · exact applyAttributeStack_default_some s _ _ d hd
    · rw [applyGlobalDefaultAttribute_default]
      exact hd
  · exact hd

theorem applyBothAttribute_default_some (s : State) (as : AttributeStack)
    (incoming : AttributePair) (d : Attribute) (hd : as.global_default_attribute = some d) :
    (s.applyBothAttribute as incoming).1.global_default_attribute = some d := by
  have key : ∀ r : Bool × AttributeStack × State, r.2.1.global_default_attribute = some d →
      (if r.1 = true then ({ r.2.1 with changed := true }, r.2.2) else r.2).1.global_default_attribute
        = some d := by
    intro r hr
    split
    · exact hr
    · exact hr
  unfold applyBothAttribute
  split
  · split
    · split
      · exact applyAttributeStack_default_some s _ _ d hd
      · exact hd
    · exact key _ (applyAttributeStack_default_some s _ _ d hd)
  · exact key _ (applyAttributeStack_default_some s _ _ d hd)

theorem find_applyAttributeMap (m : AttributeMap) :
    ∀ (s : State) (k : TypeMemberPair),
      (∀ as, Assoc.find m k = some as →
        ∃ t : State, Assoc.find (s.applyAttributeMap m).1 k = some (t.applyTrackedAttribute as).1) ∧
      (Assoc.find m k = none → Assoc.find (s.applyAttributeMap m).1 k = none) := by
  induction m with
  | nil => intro s k; simp [applyAttributeMap, Assoc.find]
  | cons hd tl ih =>
    intro s k
    obtain ⟨k', as'⟩ := hd
    by_cases hk : k' = k
    · subst hk
      simp only [applyAttributeMap, Assoc.find, if_true, Option.some.injEq]
      exact ⟨fun as h => ⟨s, by rw [h]⟩, fun h => by simp at h⟩
    · simp only [applyAttributeMap, Assoc.find, hk, if_false]
      exact ih _ k

theorem find_of_default_some (m : AttributeMap) (k : TypeMemberPair) (d : Attribute)
    (h : (Assoc.get m k).global_default_attribute = some d) :
    Assoc.find m k = some (Assoc.get m k) := by
  unfold Assoc.get at h ⊢
  cases hf : Assoc.find m k with
  | none =>
    rw [hf] at h
    exact absurd h (by simp [default])
  | some v => rfl

theorem typeMemberPair_lt_asymm (a b : TypeMemberPair) (h : KeyOrd.lt a b = true) :
    KeyOrd.lt b a = false := by
  simp only [KeyOrd.lt, Bool.or_eq_true, Bool.and_eq_true, decide_eq_true_eq, Bool.or_eq_false_iff,
    Bool.and_eq_false_imp, decide_eq_false_iff_not] at h ⊢
  constructor
  · omega
  · intro _
    omega

theorem typeMemberPair_lt_irrefl (a : TypeMemberPair) : KeyOrd.lt a a = false := by
  simp [KeyOrd.lt]

theorem find_applyAttributeListAt (P : AttributeStack → Prop)
    (hT : ∀ (t : State) as, P as → P (t.applyTrackedAttribute as).1)
    (hB : ∀ (t : State) as incoming, P as → P (t.applyBothAttribute as incoming).1)
    (k key : TypeMemberPair) (as : AttributeStack) (rest : AttributeMap)
    (next : State → AttributeList → AttributeMap × State)
    (hsorted : ∀ e ∈ rest, KeyOrd.lt key e.1 = true)
    (hnext : ∀ s l as0, Assoc.find rest k = some as0 → P as0 →
      ∃ as1, Assoc.find (next s l).1 k = some as1 ∧ P as1)
    (l : AttributeList) :
    ∀ (s : State) (as0 : AttributeStack), Assoc.find ((key, as) :: rest) k = some as0 → P as0 →
      ∃ as1, Assoc.find (applyAttributeListAt key as next s l).1 k = some as1 ∧ P as1 := by
  have tracked : ∀ (s : State) (l' : AttributeList) (as0 : AttributeStack) (as2 : AttributeStack),
      (P as → P as2) → Assoc.find ((key, as) :: rest) k = some as0 → P as0 →
      ∃ as1, Assoc.find ((key, as2) :: (next s l').1) k = some as1 ∧ P as1 := by
    intro s l' as0 as2 h2 hfind hP
    by_cases hk : key = k
    · simp only [Assoc.find, hk, if_true, Option.some.injEq] at hfind ⊢
      subst hfind
      exact ⟨as2, rfl, h2 hP⟩
    · simp only [Assoc.find, hk, if_false] at hfind ⊢
      exact hnext s l' as0 hfind hP
  induction l with
  | nil =>
    intro s as0 hfind hP
    simp only [applyAttributeListAt]
    exact tracked _ _ as0 _ (hT s as) hfind hP
  | cons hd tl ih =>
    intro s as0 hfind hP
    obtain ⟨dkey, incoming⟩ := hd
    simp only [applyAttributeListAt]
    by_cases h1 : KeyOrd.lt key dkey = true
    · simp only [h1, if_true]
      exact tracked _ _ as0 _ (hT s as) hfind hP
    · by_cases h2 : KeyOrd.lt dkey key = true
      · simp only [h1, h2, if_true, if_false]
        have hne : dkey ≠ k := by
          intro e
          subst e
          by_cases hk : key = dkey
          · rw [hk, typeMemberPair_lt_irrefl] at h2
            exact Bool.noConfusion h2
          · simp only [Assoc.find, hk, if_false] at hfind
            have hmem := Assoc.mem_of_find_eq_some rest dkey as0 hfind
            have hlt := hsorted _ hmem
            rw [typeMemberPair_lt_asymm _ _ hlt] at h2
            exact Bool.noConfusion h2
        simp only [Assoc.find, hne, if_false]
        exact ih _ as0 hfind hP
      · simp only [h1, h2, if_false]
        exact tracked _ _ as0 _ (hB s as incoming) hfind hP

theorem find_applyAttributeListFrom (P : AttributeStack → Prop)
    (hT : ∀ (t : State) as, P as → P (t.applyTrackedAttribute as).1)
    (hB : ∀ (t : State) as incoming, P as → P (t.applyBothAttribute as incoming).1)
    (k : TypeMemberPair) (m : AttributeMap) :
    Assoc.Sorted m → ∀ (s : State) (l : AttributeList) (as0 : AttributeStack),
      Assoc.find m k = some as0 → P as0 →
      ∃ as1, Assoc.find (applyAttributeListFrom m s l).1 k = some as1 ∧ P as1 := by
  induction m with
  | nil =>
    intro _ s l as0 h
    simp [Assoc.find] at h
  | cons hd tl ih =>
    intro hs s l as0 hfind hP
    obtain ⟨key, as⟩ := hd
    have hs' := List.pairwise_cons.1 hs
    exact find_applyAttributeListAt P hT hB k key as tl (applyAttributeListFrom tl)
      (fun e he => hs'.1 e he) (fun s l as0 h hp => ih hs'.2 s l as0 h hp) l s as0 hfind hP

/-- C7: the global default is permanent once recorded. A stack whose
`global_default_attribute` is the non-null `d` still has `d` there after
`applyAttribute` (protected and public), `applyAttributeOnTexUnit`,
`applyGlobalDefaultAttribute`, `applyAttributeMap`, `applyAttributeList` (on a
map in key order), `pushAttributeList` and `popAttributeList`. -/
theorem global_default_attribute_permanent (d : Attribute) :
    (∀ (s : State) (attr : Attribute) (as : AttributeStack),
      as.global_default_attribute = some d →
      (s.applyAttributeStack attr as).2.1.global_default_attribute = some d) ∧
    (∀ (s : State) (attr : Attribute) (k : TypeMemberPair),
      (Assoc.get s._attributeMap k).global_default_attribute = some d →
      (Assoc.get (s.applyAttribute attr).2._attributeMap k).global_default_attribute = some d) ∧
    (∀ (s : State) (unit : Nat) (attr : Attribute) (as : AttributeStack),
      as.global_default_attribute = some d →
      (s.applyAttributeOnTexUnit unit attr as).2.1.global_default_attribute = some d) ∧
    (∀ (s : State) (as : AttributeStack),
      as.global_default_attribute = some d →
      (s.applyGlobalDefaultAttribute as).2.1.global_default_attribute = some d) ∧
    (∀ (s : State) (m : AttributeMap) (k : TypeMemberPair),
      (Assoc.get m k).global_default_attribute = some d →
      (Assoc.get (s.applyAttributeMap m).1 k).global_default_attribute = some d) ∧
    (∀ (s : State) (m : AttributeMap) (l : AttributeList) (k : TypeMemberPair),
      Assoc.Sorted m → (Assoc.get m k).global_default_attribute = some d →
      (Assoc.get (s.applyAttributeList m l).1 k).global_default_attribute = some d) ∧
    (∀ (m : AttributeMap) (l : AttributeList) (k : TypeMemberPair),
      (Assoc.get m k).global_default_attribute = some d →
      (Assoc.get (pushAttributeList m l) k).global_default_attribute = some d) ∧
    (∀ (m : AttributeMap) (l : AttributeList) (k : TypeMemberPair),
      (Assoc.get m k).global_default_attribute = some d →
      (Assoc.get (popAttributeList m l) k).global_default_attribute = some d) := by
  refine ⟨fun s attr as h => applyAttributeStack_default_some s attr as d h, ?_,
    fun s unit attr as h => applyAttributeOnTexUnit_default s unit attr as d h,
    fun s as h => (applyGlobalDefaultAttribute_default s as).trans h, ?_, ?_, ?_, ?_⟩
  · intro s attr k h
    by_cases hk : k = attr.typeMemberPair
    · subst hk
      rw [applyAttribute_get]
      exact applyAttributeStack_default_some s attr _ d h
    · simp only [applyAttribute]
      rw [Assoc.get_put_other _ _ _ _ hk, applyAttributeStack_attributeMap]
      exact h
  · intro s m k h
    obtain ⟨t, ht⟩ := (find_applyAttributeMap m s k).1 _ (find_of_default_some m k d h)
    simp only [Assoc.get, ht, Option.getD_some]
    exact applyTrackedAttribute_default_some t _ d h
  · intro s m l k hs h
    obtain ⟨as1, h1, h2⟩ := find_applyAttributeListFrom
      (fun as => as.global_default_attribute = some d)
      (fun t as hp => applyTrackedAttribute_default_some t as d hp)
      (fun t as inc hp => applyBothAttribute_default_some t as inc d hp)
      k m hs s l _ (find_of_default_some m k d h) h
    simp only [applyAttributeList, Assoc.get, h1, Option.getD_some]
    exact h2
  · intro m l k h
    refine Assoc.get_foldUpdate_invariant pushAttributeEntry
      (fun as => as.global_default_attribute = some d) ?_ l m k h
    intro v w hv
    unfold pushAttributeEntry
    simp only
    split
    · exact hv
    · split <;> exact hv
  · intro m l k h
    refine Assoc.get_foldUpdate_invariant popAttributeEntry
      (fun as => as.global_default_attribute = some d) ?_ l m k h
    intro v w hv
    unfold popAttributeEntry
    simp only
    split <;> exact hv

/-- Witness of C7: a one-shot `applyAttributeList` of another attribute for the key
(9,0), and a push of it, both leave the recorded default `sampleAttribute 5 []`. -/
theorem global_default_attribute_permanent_witness :
    (Assoc.get (sampleState.applyAttributeList
        [(⟨3, 0⟩, default),
         (⟨9, 0⟩, { (default : AttributeStack) with
            global_default_attribute := some (sampleAttribute 5 []) })]
        [(⟨9, 0⟩, (sampleAttribute 1 [7], StateAttribute.ON))]).1
      ⟨9, 0⟩).global_default_attribute = some (sampleAttribute 5 []) ∧
    (Assoc.get (pushAttributeList
        [(⟨3, 0⟩, default),
         (⟨9, 0⟩, { (default : AttributeStack) with
            global_default_attribute := some (sampleAttribute 5 []) })]
        [(⟨9, 0⟩, (sampleAttribute 1 [7], StateAttribute.ON))])
      ⟨9, 0⟩).global_default_attribute = some (sampleAttribute 5 []) :=
  ⟨(global_default_attribute_permanent (sampleAttribute 5 [])).2.2.2.2.2.1 sampleState _ _ ⟨9, 0⟩
      (by decide) (by decide),
   (global_default_attribute_permanent (sampleAttribute 5 [])).2.2.2.2.2.2.1 _ _ ⟨9, 0⟩
      (by decide)⟩

/-! ## Global default fallback -/

theorem applyTrackedAttribute_glCalls_append (t : State) (as : AttributeStack) :
    ∃ x, (t.applyTrackedAttribute as).2.glCalls = t.glCalls ++ x := by
  unfold applyTrackedAttribute
  split
  · simp only
    split
    · rw [applyAttributeStack_glCalls]
      split
      · exact ⟨[], by simp⟩
      · exact ⟨_, rfl⟩
    · unfold applyGlobalDefaultAttribute
      split
      · simp only
        split
        · rw [applyGlobalDefaultBody_eq]
          exact ⟨_, rfl⟩
        · exact ⟨[], by simp⟩
      · exact ⟨[], by simp⟩
  · exact ⟨[], by simp⟩

theorem applyAttributeMap_glCalls_append (m : AttributeMap) :
    ∀ s : State, ∃ x, (s.applyAttributeMap m).2.glCalls = s.glCalls ++ x := by
  induction m with
  | nil => intro s; exact ⟨[], by simp [applyAttributeMap]⟩
  | cons hd tl ih =>
    intro s
    obtain ⟨k, as⟩ := hd
    obtain ⟨x, hx⟩ := applyTrackedAttribute_glCalls_append s as
    obtain ⟨y, hy⟩ := ih (s.applyTrackedAttribute as).2
    exact ⟨x ++ y, by simp only [applyAttributeMap]; rw [hy, hx, List.append_assoc]⟩

theorem applyAttributeMap_glCalls_mem (c : GLCall) (k : TypeMemberPair) (as : AttributeStack)
    (hc : ∀ t : State, (t.applyTrackedAttribute as).2.glCalls = t.glCalls ++ [c])
    (m : AttributeMap) :
    ∀ s : State, Assoc.find m k = some as →
      ∃ before after, (s.applyAttributeMap m).2.glCalls = s.glCalls ++ before ++ [c] ++ after := by
  induction m with
  | nil => intro s h; simp [Assoc.find] at h
  | cons hd tl ih =>
    intro s h
    obtain ⟨k', as'⟩ := hd
    by_cases hk : k' = k
    · simp only [Assoc.find, hk, if_true, Option.some.injEq] at h
      subst h
      obtain ⟨y, hy⟩ := applyAttributeMap_glCalls_append tl (s.applyTrackedAttribute as').2
      exact ⟨[], y, by simp only [applyAttributeMap]; rw [hy, hc s]; simp⟩
    · simp only [Assoc.find, hk, if_false] at h
      obtain ⟨x, hx⟩ := applyTrackedAttribute_glCalls_append s as'
      obtain ⟨b, a, hba⟩ := ih (s.applyTrackedAttribute as').2 h
      exact ⟨x ++ b, a, by simp only [applyAttributeMap]; rw [hba, hx]; simp⟩

theorem applyTrackedAttribute_fallback (t : State) (as : AttributeStack) (d : Attribute)
    (hchanged : as.changed = true) (hempty : as.attributeVec = [])
    (hd : as.global_default_attribute = some d) :
    (t.applyTrackedAttribute as).2.glCalls =
        t.glCalls ++ (if ptrEq as.last_applied_attribute (some d) then []
          else [GLCall.attributeApply d]) ∧
    ptrEq (t.applyTrackedAttribute as).1.last_applied_attribute (some d) = true ∧
    (t.applyTrackedAttribute as).1.global_default_attribute = some d ∧
    (t.applyTrackedAttribute as).1.changed = false := by
  obtain ⟨changed, last, sc, dfl, vec⟩ := as
  simp only at hchanged hempty hd
  subst hchanged
  subst hempty
  subst hd
  have h := applyGlobalDefaultAttribute_some t
    { changed := false, last_applied_attribute := last, last_applied_shadercomponent := sc,
      global_default_attribute := some d, attributeVec := [] } d rfl
  have h3 := applyGlobalDefaultAttribute_default t
    { changed := false, last_applied_attribute := last, last_applied_shadercomponent := sc,
      global_default_attribute := some d, attributeVec := [] }
  have h4 := applyGlobalDefaultAttribute_changed t
    { changed := false, last_applied_attribute := last, last_applied_shadercomponent := sc,
      global_default_attribute := some d, attributeVec := [] }
  unfold applyTrackedAttribute
  simp only [if_true, List.getLast?_nil]
  exact ⟨h.1, h.2, h3, h4⟩

/-- Counterexample to C8 as stated: after `setGlobalDefaultAttribute(g)` and
`applyAttribute(g)` the stack of the key of `g` is empty, its `changed` flag is
set, and `g` has been applied for it; `applyAttributeMap` then issues no
command at all, so the apply routine of the global default `g` is not invoked. -/
theorem applyAttributeMap_skips_applied_default :
    (Assoc.get appliedDefaultState._attributeMap ⟨9, 0⟩).attributeVec = [] ∧
    (Assoc.get appliedDefaultState._attributeMap ⟨9, 0⟩).changed = true ∧
    (Assoc.get appliedDefaultState._attributeMap ⟨9, 0⟩).global_default_attribute =
      some (sampleAttribute 1 [7]) ∧
    appliedDefaultState.glCalls = [GLCall.attributeApply (sampleAttribute 1 [7])] ∧
    (appliedDefaultState.applyAttributeMap appliedDefaultState._attributeMap).2.glCalls =
      appliedDefaultState.glCalls := by
  decide

/-- C8 as amended: global default fallback. Let `a` have been applied with the public
`applyAttribute`, and let the stack of its key then be empty with a recorded
global default `d`. The `changed` flag of the key is set; the block
`applyAttributeMap` runs for the key issues exactly one command, the apply of
`d`, when `d` is another instance than `a`, and none when `d` is `a` itself.
In both cases `applyAttributeMap` leaves the key with `d` last applied,
`d` as global default and `changed` false, and in the first case the apply of
`d` is among the commands `applyAttributeMap` issues. -/
theorem applyAttributeMap_global_default_fallback (s0 : State) (a d : Attribute)
    (hempty : (Assoc.get (s0.applyAttribute a).2._attributeMap a.typeMemberPair).attributeVec = [])
    (hd : (Assoc.get (s0.applyAttribute a).2._attributeMap
      a.typeMemberPair).global_default_attribute = some d) :
    (Assoc.get (s0.applyAttribute a).2._attributeMap a.typeMemberPair).changed = true ∧
    (∀ t : State,
      (t.applyTrackedAttribute
          (Assoc.get (s0.applyAttribute a).2._attributeMap a.typeMemberPair)).2.glCalls =
        t.glCalls ++ (if d.same a then [] else [GLCall.attributeApply d])) ∧
    (d.same a = false → ∃ before after,
      ((s0.applyAttribute a).2.applyAttributeMap (s0.applyAttribute a).2._attributeMap).2.glCalls =
        (s0.applyAttribute a).2.glCalls ++ before ++ [GLCall.attributeApply d] ++ after) ∧
    ptrEq (Assoc.get ((s0.applyAttribute a).2.applyAttributeMap
        (s0.applyAttribute a).2._attributeMap).1 a.typeMemberPair).last_applied_attribute
      (some d) = true ∧
    (Assoc.get ((s0.applyAttribute a).2.applyAttributeMap
        (s0.applyAttribute a).2._attributeMap).1 a.typeMemberPair).global_default_attribute =
      some d ∧
    (Assoc.get ((s0.applyAttribute a).2.applyAttributeMap
        (s0.applyAttribute a).2._attributeMap).1 a.typeMemberPair).changed = false := by
  have hlast : ptrEq (Assoc.get (s0.applyAttribute a).2._attributeMap
      a.typeMemberPair).last_applied_attribute (some d) = d.same a := by
    rw [applyAttribute_last s0 a d, ptrEq_comm]
    rfl
  have hchanged : (Assoc.get (s0.applyAttribute a).2._attributeMap a.typeMemberPair).changed
      = true := by
    rw [applyAttribute_get]
    unfold applyAttributeStack
    split
    · exact (applyAttributeBody_vec _ _ _).2
    · rfl
  have hfind := find_of_default_some _ _ d hd
  generalize (s0.applyAttribute a).2 = s1 at hempty hd hlast hchanged hfind
  generalize Assoc.get s1._attributeMap a.typeMemberPair = as1 at hempty hd hlast hchanged hfind
  have hblock := fun t => applyTrackedAttribute_fallback t as1 d hchanged hempty hd
  obtain ⟨t, ht⟩ := (find_applyAttributeMap s1._attributeMap s1 a.typeMemberPair).1 as1 hfind
  refine ⟨hchanged, fun t => ?_, fun hne => ?_, ?_, ?_, ?_⟩
  · rw [(hblock t).1, hlast]
  · refine applyAttributeMap_glCalls_mem _ a.typeMemberPair as1 (fun t => ?_) _ s1 hfind
    rw [(hblock t).1, hlast, hne]
    rfl
  · simp only [Assoc.get, ht, Option.getD_some]
    exact (hblock t).2.1
  · simp only [Assoc.get, ht, Option.getD_some]
    exact (hblock t).2.2.1
  · simp only [Assoc.get, ht, Option.getD_some]
    exact (hblock t).2.2.2

/-- Witness of the amended C8: on a fresh state the first `applyAttribute(a)` records the
clone of `a` as global default, and `applyAttributeMap` then applies that clone. -/
theorem applyAttributeMap_global_default_fallback_witness :
    ∃ before after,
      ((sampleState.applyAttribute (sampleAttribute 1 [7])).2.applyAttributeMap
        (sampleState.applyAttribute (sampleAttribute 1 [7])).2._attributeMap).2.glCalls =
      (sampleState.applyAttribute (sampleAttribute 1 [7])).2.glCalls ++ before ++
        [GLCall.attributeApply (sampleAttribute 1 [7]).cloneType] ++ after :=
  (applyAttributeMap_global_default_fallback sampleState (sampleAttribute 1 [7])
    (sampleAttribute 1 [7]).cloneType (by decide) (by decide)).2.2.1 (by decide)

/-! ## Nested pushes and pops -/

theorem foldl_push_replicate {M Lst α : Type} (push : M → Lst → M) (vec : M → List α)
    (ok : Lst → Prop) (e : α)
    (hstep : ∀ m L, ok L → (vec m).getLast? = some e → vec (push m L) = vec m ++ [e]) :
    ∀ (Ls : List Lst) (m : M), (∀ L ∈ Ls, ok L) → (vec m).getLast? = some e →
      vec (Ls.foldl push m) = vec m ++ List.replicate Ls.length e := by
  intro Ls
  induction Ls with
  | nil => intro m _ _; simp
  | cons L tl ih =>
    intro m hok htop
    have h1 := hstep m L (hok L (List.mem_cons_self L tl)) htop
    have h2 : (vec (push m L)).getLast? = some e := by rw [h1]; simp
    rw [List.foldl_cons, ih (push m L) (fun L' h' => hok L' (List.mem_cons_of_mem L h')) h2, h1]
    simp [List.replicate_succ]

theorem pushRule_override {α : Type} (flags : α → Nat) (stack : List α) (e incoming : α)
    (htop : stack.getLast? = some e) (hov : hasFlag (flags e) StateAttribute.OVERRIDE = true)
    (hprot : hasFlag (flags incoming) StateAttribute.PROTECTED = false) :
    pushRule flags stack incoming = e := by
  simp [pushRule, htop, hov, hprot]

/-- C11: override suppression survives nested pushes. If the top `e` of the stack of
a key has OVERRIDE, then after any sequence of pushed lists (each a
`std::map`, so with distinct keys) that each carry the key with a value
lacking PROTECTED, the stack is the one before followed by one copy of `e` per
push: its top is still `e` and it has grown by one entry per push. This holds
for the mode, attribute, uniform and define stacks. -/
theorem override_survives_nested_pushes :
    (∀ (m : ModeMap) (k : GLMode) (e : GLModeValue) (Ls : List ModeList),
      (Assoc.get m k).valueVec.getLast? = some e → hasFlag e StateAttribute.OVERRIDE = true →
      (∀ L ∈ Ls, (L.map Prod.fst).Nodup ∧
        ∃ v, (k, v) ∈ L ∧ hasFlag v StateAttribute.PROTECTED = false) →
      (Assoc.get (Ls.foldl pushModeList m) k).valueVec =
        (Assoc.get m k).valueVec ++ List.replicate Ls.length e) ∧
    (∀ (m : AttributeMap) (k : TypeMemberPair) (e : AttributePair) (Ls : List AttributeList),
      (Assoc.get m k).attributeVec.getLast? = some e → hasFlag e.2 StateAttribute.OVERRIDE = true →
      (∀ L ∈ Ls, (L.map Prod.fst).Nodup ∧
        ∃ v, (k, v) ∈ L ∧ hasFlag v.2 StateAttribute.PROTECTED = false) →
      (Assoc.get (Ls.foldl pushAttributeList m) k).attributeVec =
        (Assoc.get m k).attributeVec ++ List.replicate Ls.length e) ∧
    (∀ (m : UniformMap) (k : String) (e : UniformPair) (Ls : List UniformList),
      (Assoc.get m k).uniformVec.getLast? = some e → hasFlag e.2 StateAttribute.OVERRIDE = true →
      (∀ L ∈ Ls, (L.map Prod.fst).Nodup ∧
        ∃ v, (k, v) ∈ L ∧ hasFlag v.2 StateAttribute.PROTECTED = false) →
      (Assoc.get (Ls.foldl pushUniformList m) k).uniformVec =
        (Assoc.get m k).uniformVec ++ List.replicate Ls.length e) ∧
    (∀ (dm : DefineMap) (k : String) (e : DefinePair) (Ls : List DefineList),
      (Assoc.get dm.map k).defineVec.getLast? = some e →
      hasFlag e.2 StateAttribute.OVERRIDE = true →
      (∀ L ∈ Ls, (L.map Prod.fst).Nodup ∧
        ∃ v, (k, v) ∈ L ∧ hasFlag v.2 StateAttribute.PROTECTED = false) →
      (Assoc.get (Ls.foldl pushDefineList dm).map k).defineVec =
        (Assoc.get dm.map k).defineVec ++ List.replicate Ls.length e) := by
  refine ⟨fun m k e Ls htop hov hLs => ?_, fun m k e Ls htop hov hLs => ?_,
    fun m k e Ls htop hov hLs => ?_, fun dm k e Ls htop hov hLs => ?_⟩
  · refine foldl_push_replicate pushModeList (fun m => (Assoc.get m k).valueVec) _ e ?_ Ls m hLs htop
    rintro m' L ⟨hnd, v, hv, hp⟩ ht
    simp only [pushModeList]
    rw [Assoc.get_foldUpdate_of_mem _ L m' k v hnd hv, pushModeEntry_valueVec,
      pushRule_override id _ e v ht hov hp]
  · refine foldl_push_replicate pushAttributeList (fun m => (Assoc.get m k).attributeVec) _ e ?_
      Ls m hLs htop
    rintro m' L ⟨hnd, v, hv, hp⟩ ht
    simp only [pushAttributeList]
    rw [Assoc.get_foldUpdate_of_mem _ L m' k v hnd hv, pushAttributeEntry_attributeVec,
      pushRule_override Prod.snd _ e v ht hov hp]
  · refine foldl_push_replicate pushUniformList (fun m => (Assoc.get m k).uniformVec) _ e ?_
      Ls m hLs htop
    rintro m' L ⟨hnd, v, hv, hp⟩ ht
    simp only [pushUniformList]
    rw [Assoc.get_foldUpdate_of_mem _ L m' k v hnd hv, pushUniformEntry_uniformVec,
      pushRule_override Prod.snd _ e v ht hov hp]
  · refine foldl_push_replicate pushDefineList (fun dm => (Assoc.get dm.map k).defineVec) _ e ?_
      Ls dm hLs htop
    rintro m' L ⟨hnd, v, hv, hp⟩ ht
    simp only []
    rw [pushDefineList_map, Assoc.get_foldUpdate_of_mem _ L m'.map k v hnd hv,
      pushDefineEntry_defineVec, pushRule_override Prod.snd _ e v ht hov hp]

/-- Witness of C11: on a mode stack `[ON|OVERRIDE]`, pushing OFF and then ON leaves
three copies of ON|OVERRIDE. -/
theorem override_survives_nested_pushes_witness :
    (Assoc.get ([[(0x0B71, 0)], [(0x0B71, 1)]].foldl pushModeList
        [(0x0B71, { (default : ModeStack) with valueVec := [3] })]) 0x0B71).valueVec =
      [3, 3, 3] :=
  (override_survives_nested_pushes.1
    [(0x0B71, { (default : ModeStack) with valueVec := [3] })] 0x0B71 3
    [[(0x0B71, 0)], [(0x0B71, 1)]] (by decide) (by decide)
    (fun L hL => by
      simp only [List.mem_cons, List.mem_singleton, List.not_mem_nil, or_false] at hL
      rcases hL with rfl | rfl
      · exact ⟨by decide, 0, by decide, by decide⟩
      · exact ⟨by decide, 1, by decide, by decide⟩)).trans (by decide)

theorem popModeEntry_valueVec (ms : ModeStack) (value : GLModeValue) :
    (popModeEntry ms value).valueVec = ms.valueVec.dropLast ∧
      (popModeEntry ms value).changed = true := by
  unfold popModeEntry
  cases h : ms.valueVec with
  | nil => simp [h]
  | cons a tl => simp [h]

theorem popAttributeEntry_attributeVec (as : AttributeStack) (incoming : AttributePair) :
    (popAttributeEntry as incoming).attributeVec = as.attributeVec.dropLast ∧
      (popAttributeEntry as incoming).changed = true := by
  unfold popAttributeEntry
  cases h : as.attributeVec with
  | nil => simp [h]
  | cons a tl => simp [h]

theorem popUniformEntry_uniformVec (us : UniformStack) (incoming : UniformPair) :
    (popUniformEntry us incoming).uniformVec = us.uniformVec.dropLast := by
  unfold popUniformEntry
  cases h : us.uniformVec with
  | nil => simp [h]
  | cons a tl => simp [h]

theorem popDefineEntry_defineVec (ds : DefineStack) (incoming : DefinePair) :
    (popDefineEntry ds incoming).1.defineVec = ds.defineVec.dropLast := by
  unfold popDefineEntry
  cases h : ds.defineVec with
  | nil => simp [h]
  | cons a tl =>
    simp only [List.isEmpty_cons, Bool.not_false, if_true]
    split <;> rfl

theorem popDefineList_map (l : DefineList) :
    ∀ dm : DefineMap, (popDefineList dm l).map =
      Assoc.foldUpdate (fun ds incoming => (popDefineEntry ds incoming).1) dm.map l := by
  induction l with
  | nil => intro dm; rfl
  | cons hd tl ih =>
    intro dm
    obtain ⟨k, w⟩ := hd
    simp only [popDefineList, Assoc.foldUpdate]
    rw [ih]

/-- C12: the pop rule. After `popModeList` or `popAttributeList` of a list (a
`std::map`, so with distinct keys), the stack of every key of the list is the
stack before without its last entry (still empty if it was empty) and its
`changed` flag is true; keys outside the list keep the stack they had, or stay
absent. -/
theorem pop_removes_last_entry :
    (∀ (m : ModeMap) (l : ModeList), (l.map Prod.fst).Nodup →
      (∀ k v, (k, v) ∈ l →
        (Assoc.get (popModeList m l) k).valueVec = (Assoc.get m k).valueVec.dropLast ∧
        ((Assoc.get m k).valueVec = [] → (Assoc.get (popModeList m l) k).valueVec = []) ∧
        (Assoc.get (popModeList m l) k).changed = true) ∧
      (∀ k, k ∉ l.map Prod.fst → Assoc.find (popModeList m l) k = Assoc.find m k)) ∧
    (∀ (m : AttributeMap) (l : AttributeList), (l.map Prod.fst).Nodup →
      (∀ k v, (k, v) ∈ l →
        (Assoc.get (popAttributeList m l) k).attributeVec =
          (Assoc.get m k).attributeVec.dropLast ∧
        ((Assoc.get m k).attributeVec = [] →
          (Assoc.get (popAttributeList m l) k).attributeVec = []) ∧
        (Assoc.get (popAttributeList m l) k).changed = true) ∧
      (∀ k, k ∉ l.map Prod.fst → Assoc.find (popAttributeList m l) k = Assoc.find m k)) := by
  refine ⟨fun m l hnd => ⟨fun k v hmem => ?_, fun k hk => ?_⟩,
    fun m l hnd => ⟨fun k v hmem => ?_, fun k hk => ?_⟩⟩
  · have h := Assoc.get_foldUpdate_of_mem popModeEntry l m k v hnd hmem
    simp only [popModeList]
    rw [h]
    refine ⟨(popModeEntry_valueVec _ v).1, fun he => ?_, (popModeEntry_valueVec _ v).2⟩
    rw [(popModeEntry_valueVec _ v).1, he]
    rfl
  · exact Assoc.find_foldUpdate_of_not_mem _ l m k hk
  · have h := Assoc.get_foldUpdate_of_mem popAttributeEntry l m k v hnd hmem
    simp only [popAttributeList]
    rw [h]
    refine ⟨(popAttributeEntry_attributeVec _ v).1, fun he => ?_,
      (popAttributeEntry_attributeVec _ v).2⟩
    rw [(popAttributeEntry_attributeVec _ v).1, he]
    rfl
  · exact Assoc.find_foldUpdate_of_not_mem _ l m k hk

/-- Witness of C12: popping the key 0x0B71 from the stack `[1, 3]` leaves `[1]`, dirty,
and popping it from an absent (empty) stack leaves an empty stack. -/
theorem pop_removes_last_entry_witness :
    (Assoc.get (popModeList [(0x0B71, { (default : ModeStack) with valueVec := [1, 3] })]
        [(0x0B71, 0)]) 0x0B71).valueVec = [1] ∧
    (Assoc.get (popModeList [] [(0x0B71, 0)]) 0x0B71).valueVec = [] :=
  ⟨((pop_removes_last_entry.1 [(0x0B71, { (default : ModeStack) with valueVec := [1, 3] })]
      [(0x0B71, 0)] (by decide)).1 0x0B71 0 (by decide)).1.trans (by decide),
   ((pop_removes_last_entry.1 [] [(0x0B71, 0)] (by decide)).1 0x0B71 0 (by decide)).2.1
      (by decide)⟩

theorem get_foldUpdate_of_not_mem {K V W : Type} [DecidableEq K] [KeyOrd K] [Inhabited V]
    (body : V → W → V) (l : List (K × W)) (m : List (K × V)) (k : K)
    (hk : k ∉ l.map Prod.fst) : Assoc.get (Assoc.foldUpdate body m l) k = Assoc.get m k := by
  simp only [Assoc.get, Assoc.find_foldUpdate_of_not_mem body l m k hk]

theorem foldUpdate_push_pop_step {K V W α : Type} [DecidableEq K] [KeyOrd K] [Inhabited V]
    (pushBody popBody : V → W → V) (vec : V → List α)
    (hpush : ∀ v w, ∃ x, vec (pushBody v w) = vec v ++ [x])
    (hpop : ∀ v w, vec (popBody v w) = (vec v).dropLast)
    (k : K) (L : List (K × W)) (hnd : (L.map Prod.fst).Nodup) :
    ((∀ m, ∃ x, vec (Assoc.get (Assoc.foldUpdate pushBody m L) k) = vec (Assoc.get m k) ++ [x]) ∧
      (∀ m, vec (Assoc.get (Assoc.foldUpdate popBody m L) k) = (vec (Assoc.get m k)).dropLast)) ∨
    ((∀ m, vec (Assoc.get (Assoc.foldUpdate pushBody m L) k) = vec (Assoc.get m k)) ∧
      (∀ m, vec (Assoc.get (Assoc.foldUpdate popBody m L) k) = vec (Assoc.get m k))) := by
  by_cases hk : k ∈ L.map Prod.fst
  · left
    obtain ⟨⟨k', w⟩, hmem, hfst⟩ := List.mem_map.1 hk
    simp only at hfst
    subst hfst
    constructor
    · intro m
      rw [Assoc.get_foldUpdate_of_mem pushBody L m k' w hnd hmem]
      exact hpush _ w
    · intro m
      rw [Assoc.get_foldUpdate_of_mem popBody L m k' w hnd hmem]
      exact hpop _ w
  · right
    exact ⟨fun m => by rw [get_foldUpdate_of_not_mem pushBody L m k hk],
      fun m => by rw [get_foldUpdate_of_not_mem popBody L m k hk]⟩

theorem push_pop_restores {M Lst α : Type} (push pop : M → Lst → M) (vec : M → List α)
    (ok : Lst → Prop)
    (hstep : ∀ L, ok L →
      ((∀ m, ∃ x, vec (push m L) = vec m ++ [x]) ∧ (∀ m, vec (pop m L) = (vec m).dropLast)) ∨
      ((∀ m, vec (push m L) = vec m) ∧ (∀ m, vec (pop m L) = vec m))) :
    ∀ (Ls : List Lst) (m : M), (∀ L ∈ Ls, ok L) →
      vec (Ls.foldr (fun L acc => pop acc L) (Ls.foldl push m)) = vec m := by
  intro Ls
  induction Ls with
  | nil => intro m _; rfl
  | cons L tl ih =>
    intro m hok
    have hih := ih (push m L) (fun L' h' => hok L' (List.mem_cons_of_mem L h'))
    rw [List.foldl_cons, List.foldr_cons]
    rcases hstep L (hok L (List.mem_cons_self L tl)) with ⟨hpush, hpop⟩ | ⟨hpush, hpop⟩
    · obtain ⟨x, hx⟩ := hpush m
      rw [hpop, hih, hx]
      simp
    · rw [hpop, hih, hpush]

theorem fold_push_pop_keeps {M Lst β : Type} (push pop : M → Lst → M) (g : M → β)
    (hpush : ∀ m L, g (push m L) = g m) (hpop : ∀ m L, g (pop m L) = g m) :
    ∀ (Ls : List Lst) (m : M),
      g (Ls.foldr (fun L acc => pop acc L) (Ls.foldl push m)) = g m := by
  intro Ls
  induction Ls with
  | nil => intro m; rfl
  | cons L tl ih =>
    intro m
    rw [List.foldl_cons, List.foldr_cons, hpop, ih, hpush]

theorem pushModeEntry_fields (ms : ModeStack) (value : GLModeValue) :
    (pushModeEntry ms value).valid = ms.valid ∧
    (pushModeEntry ms value).last_applied_value = ms.last_applied_value ∧
    (pushModeEntry ms value).global_default_value = ms.global_default_value := by
  unfold pushModeEntry
  simp only
  split
  · exact ⟨rfl, rfl, rfl⟩
  · split <;> exact ⟨rfl, rfl, rfl⟩

theorem popModeEntry_fields (ms : ModeStack) (value : GLModeValue) :
    (popModeEntry ms value).valid = ms.valid ∧
    (popModeEntry ms value).last_applied_value = ms.last_applied_value ∧
    (popModeEntry ms value).global_default_value = ms.global_default_value := by
  unfold popModeEntry
  simp only
  split <;> exact ⟨rfl, rfl, rfl⟩

theorem pushAttributeEntry_fields (as : AttributeStack) (incoming : AttributePair) :
    (pushAttributeEntry as incoming).last_applied_attribute = as.last_applied_attribute ∧
    (pushAttributeEntry as incoming).last_applied_shadercomponent =
      as.last_applied_shadercomponent ∧
    (pushAttributeEntry as incoming).global_default_attribute = as.global_default_attribute := by
  unfold pushAttributeEntry
  simp only
  split
  · exact ⟨rfl, rfl, rfl⟩
  · split <;> exact ⟨rfl, rfl, rfl⟩

theorem popAttributeEntry_fields (as : AttributeStack) (incoming : AttributePair) :
    (popAttributeEntry as incoming).last_applied_attribute = as.last_applied_attribute ∧
    (popAttributeEntry as incoming).last_applied_shadercomponent =
      as.last_applied_shadercomponent ∧
    (popAttributeEntry as incoming).global_default_attribute = as.global_default_attribute := by
  unfold popAttributeEntry
  simp only
  split <;> exact ⟨rfl, rfl, rfl⟩

theorem foldUpdate_keeps {K V W β : Type} [DecidableEq K] [KeyOrd K] [Inhabited V]
    (body : V → W → V) (g : V → β) (hbody : ∀ v w, g (body v w) = g v)
    (l : List (K × W)) (m : List (K × V)) (k : K) :
    g (Assoc.get (Assoc.foldUpdate body m l) k) = g (Assoc.get m k) :=
  Assoc.get_foldUpdate_invariant body (fun v => g v = g (Assoc.get m k))
    (fun v w hv => (hbody v w).trans hv) l m k rfl

/-- C13: stack LIFO correctness. Pushing the lists `L1..Ln` (each a `std::map`, so
with distinct keys) in order and then popping `Ln..L1` leaves, for every key,
the `valueVec` the map had before the first push (an absent key counting as an
empty stack), and so the same effective value; likewise the `attributeVec`,
`uniformVec` and `defineVec` of the attribute, uniform and define stacks. -/
theorem push_pop_lifo :
    (∀ (m : ModeMap) (Ls : List ModeList), (∀ L ∈ Ls, (L.map Prod.fst).Nodup) → ∀ k : GLMode,
      (Assoc.get (Ls.foldr (fun L acc => popModeList acc L) (Ls.foldl pushModeList m)) k).valueVec
        = (Assoc.get m k).valueVec ∧
      effectiveModeValue
          (Assoc.get (Ls.foldr (fun L acc => popModeList acc L) (Ls.foldl pushModeList m)) k)
        = effectiveModeValue (Assoc.get m k)) ∧
    (∀ (m : AttributeMap) (Ls : List AttributeList), (∀ L ∈ Ls, (L.map Prod.fst).Nodup) →
      ∀ k : TypeMemberPair,
      (Assoc.get (Ls.foldr (fun L acc => popAttributeList acc L)
          (Ls.foldl pushAttributeList m)) k).attributeVec = (Assoc.get m k).attributeVec) ∧
    (∀ (m : UniformMap) (Ls : List UniformList), (∀ L ∈ Ls, (L.map Prod.fst).Nodup) →
      ∀ k : String,
      (Assoc.get (Ls.foldr (fun L acc => popUniformList acc L)
          (Ls.foldl pushUniformList m)) k).uniformVec = (Assoc.get m k).uniformVec) ∧
    (∀ (dm : DefineMap) (Ls : List DefineList), (∀ L ∈ Ls, (L.map Prod.fst).Nodup) →
      ∀ k : String,
      (Assoc.get (Ls.foldr (fun L acc => popDefineList acc L)
          (Ls.foldl pushDefineList dm)).map k).defineVec = (Assoc.get dm.map k).defineVec) := by
  have hmode : ∀ (m : ModeMap) (Ls : List ModeList), (∀ L ∈ Ls, (L.map Prod.fst).Nodup) →
      ∀ k : GLMode,
      (Assoc.get (Ls.foldr (fun L acc => popModeList acc L) (Ls.foldl pushModeList m)) k).valueVec
        = (Assoc.get m k).valueVec := by
    intro m Ls hLs k
    exact push_pop_restores pushModeList popModeList (fun m => (Assoc.get m k).valueVec) _
      (fun L hL => foldUpdate_push_pop_step pushModeEntry popModeEntry ModeStack.valueVec
        (fun v w => ⟨_, pushModeEntry_valueVec v w⟩) (fun v w => (popModeEntry_valueVec v w).1)
        k L hL) Ls m hLs
  refine ⟨fun m Ls hLs k => ⟨hmode m Ls hLs k, ?_⟩, fun m Ls hLs k => ?_, fun m Ls hLs k => ?_,
    fun dm Ls hLs k => ?_⟩
  · have hg := fold_push_pop_keeps pushModeList popModeList
      (fun m => (Assoc.get m k).global_default_value)
      (fun m L => foldUpdate_keeps pushModeEntry ModeStack.global_default_value
        (fun v w => (pushModeEntry_fields v w).2.2) L m k)
      (fun m L => foldUpdate_keeps popModeEntry ModeStack.global_default_value
        (fun v w => (popModeEntry_fields v w).2.2) L m k) Ls m
    simp only at hg
    simp only [effectiveModeValue, hmode m Ls hLs k, hg]
  · exact push_pop_restores pushAttributeList popAttributeList
      (fun m => (Assoc.get m k).attributeVec) _
      (fun L hL => foldUpdate_push_pop_step pushAttributeEntry popAttributeEntry
        AttributeStack.attributeVec (fun v w => ⟨_, pushAttributeEntry_attributeVec v w⟩)
        (fun v w => (popAttributeEntry_attributeVec v w).1) k L hL) Ls m hLs
  · exact push_pop_restores pushUniformList popUniformList
      (fun m => (Assoc.get m k).uniformVec) _
      (fun L hL => foldUpdate_push_pop_step pushUniformEntry popUniformEntry
        UniformStack.uniformVec (fun v w => ⟨_, pushUniformEntry_uniformVec v w⟩)
        (fun v w => popUniformEntry_uniformVec v w) k L hL) Ls m hLs
  · refine push_pop_restores pushDefineList popDefineList
      (fun dm => (Assoc.get dm.map k).defineVec) _ (fun L hL => ?_) Ls dm hLs
    have h := foldUpdate_push_pop_step (fun ds inc => (pushDefineEntry ds inc).1)
      (fun ds inc => (popDefineEntry ds inc).1) DefineStack.defineVec
      (fun v w => ⟨_, pushDefineEntry_defineVec v w⟩) (fun v w => popDefineEntry_defineVec v w)
      k L hL
    simp only [pushDefineList_map, popDefineList_map]
    rcases h with ⟨h1, h2⟩ | ⟨h1, h2⟩
    · exact Or.inl ⟨fun m => h1 m.map, fun m => h2 m.map⟩
    · exact Or.inr ⟨fun m => h1 m.map, fun m => h2 m.map⟩

/-- Witness of C13: pushing ON|OVERRIDE and then OFF for the mode 0x0B71, then popping
both, restores the stack `[1]`. -/
theorem push_pop_lifo_witness :
    (Assoc.get ([[(0x0B71, 3)], [(0x0B71, 0)]].foldr (fun L acc => popModeList acc L)
        ([[(0x0B71, 3)], [(0x0B71, 0)]].foldl pushModeList
          [(0x0B71, { (default : ModeStack) with valueVec := [1] })])) 0x0B71).valueVec = [1] :=
  ((push_pop_lifo.1 [(0x0B71, { (default : ModeStack) with valueVec := [1] })]
    [[(0x0B71, 3)], [(0x0B71, 0)]] (by decide) 0x0B71).1).trans (by decide)

/-- C15: push and pop never touch what was last issued to OpenGL. For every key,
`pushModeList` and `popModeList` leave `valid`, `last_applied_value` and
`global_default_value` as they were, and `pushAttributeList` and
`popAttributeList` leave `last_applied_attribute`, `last_applied_shadercomponent`
and `global_default_attribute` as they were. (The four members read and write
nothing but the map, so they are functions of the map and the list alone.) -/
theorem push_pop_keep_applied_fields :
    (∀ (m : ModeMap) (l : ModeList) (k : GLMode),
      (Assoc.get (pushModeList m l) k).valid = (Assoc.get m k).valid ∧
      (Assoc.get (pushModeList m l) k).last_applied_value = (Assoc.get m k).last_applied_value ∧
      (Assoc.get (pushModeList m l) k).global_default_value =
        (Assoc.get m k).global_default_value) ∧
    (∀ (m : ModeMap) (l : ModeList) (k : GLMode),
      (Assoc.get (popModeList m l) k).valid = (Assoc.get m k).valid ∧
      (Assoc.get (popModeList m l) k).last_applied_value = (Assoc.get m k).last_applied_value ∧
      (Assoc.get (popModeList m l) k).global_default_value =
        (Assoc.get m k).global_default_value) ∧
    (∀ (m : AttributeMap) (l : AttributeList) (k : TypeMemberPair),
      (Assoc.get (pushAttributeList m l) k).last_applied_attribute =
        (Assoc.get m k).last_applied_attribute ∧
      (Assoc.get (pushAttributeList m l) k).last_applied_shadercomponent =
        (Assoc.get m k).last_applied_shadercomponent ∧
      (Assoc.get (pushAttributeList m l) k).global_default_attribute =
        (Assoc.get m k).global_default_attribute) ∧
    (∀ (m : AttributeMap) (l : AttributeList) (k : TypeMemberPair),
      (Assoc.get (popAttributeList m l) k).last_applied_attribute =
        (Assoc.get m k).last_applied_attribute ∧
      (Assoc.get (popAttributeList m l) k).last_applied_shadercomponent =
        (Assoc.get m k).last_applied_shadercomponent ∧
      (Assoc.get (popAttributeList m l) k).global_default_attribute =
        (Assoc.get m k).global_default_attribute) := by
  refine ⟨fun m l k => ⟨?_, ?_, ?_⟩, fun m l k => ⟨?_, ?_, ?_⟩, fun m l k => ⟨?_, ?_, ?_⟩,
    fun m l k => ⟨?_, ?_, ?_⟩⟩
  · exact foldUpdate_keeps pushModeEntry ModeStack.valid
      (fun v w => (pushModeEntry_fields v w).1) l m k
  · exact foldUpdate_keeps pushModeEntry ModeStack.last_applied_value
      (fun v w => (pushModeEntry_fields v w).2.1) l m k
  · exact foldUpdate_keeps pushModeEntry ModeStack.global_default_value
      (fun v w => (pushModeEntry_fields v w).2.2) l m k
  · exact foldUpdate_keeps popModeEntry ModeStack.valid
      (fun v w => (popModeEntry_fields v w).1) l m k
  · exact foldUpdate_keeps popModeEntry ModeStack.last_applied_value
      (fun v w => (popModeEntry_fields v w).2.1) l m k
  · exact foldUpdate_keeps popModeEntry ModeStack.global_default_value
      (fun v w => (popModeEntry_fields v w).2.2) l m k
  · exact foldUpdate_keeps pushAttributeEntry AttributeStack.last_applied_attribute
      (fun v w => (pushAttributeEntry_fields v w).1) l m k
  · exact foldUpdate_keeps pushAttributeEntry AttributeStack.last_applied_shadercomponent
      (fun v w => (pushAttributeEntry_fields v w).2.1) l m k
  · exact foldUpdate_keeps pushAttributeEntry AttributeStack.global_default_attribute
      (fun v w => (pushAttributeEntry_fields v w).2.2) l m k
  · exact foldUpdate_keeps popAttributeEntry AttributeStack.last_applied_attribute
      (fun v w => (popAttributeEntry_fields v w).1) l m k
  · exact foldUpdate_keeps popAttributeEntry AttributeStack.last_applied_shadercomponent
      (fun v w => (popAttributeEntry_fields v w).2.1) l m k
  · exact foldUpdate_keeps popAttributeEntry AttributeStack.global_default_attribute
      (fun v w => (popAttributeEntry_fields v w).2.2) l m k

/-! ## Idempotent apply -/

theorem applyTrackedMode_changed (s : State) (mode : GLMode) (ms : ModeStack) :
    (s.applyTrackedMode mode ms).1.changed = false := by
  rw [applyTrackedMode_fst]
  cases h : ms.changed
  · simp [h]
  · simp only [if_true]
    split <;> rfl

theorem applyTrackedMode_clean (s : State) (mode : GLMode) (ms : ModeStack)
    (h : ms.changed = false) : s.applyTrackedMode mode ms = (ms, s) := by
  simp [applyTrackedMode, h]

theorem applyModeMap_changed (m : ModeMap) :
    ∀ s : State, ∀ e ∈ (s.applyModeMap m).1, e.2.changed = false := by
  induction m with
  | nil => intro s e he; simp [applyModeMap] at he
  | cons hd tl ih =>
    intro s e he
    obtain ⟨k, ms⟩ := hd
    simp only [applyModeMap, List.mem_cons] at he
    rcases he with rfl | he
    · exact applyTrackedMode_changed s k ms
    · exact ih _ e he

theorem applyModeMap_clean (m : ModeMap) :
    ∀ s : State, (∀ e ∈ m, e.2.changed = false) → s.applyModeMap m = (m, s) := by
  induction m with
  | nil => intro s _; rfl
  | cons hd tl ih =>
    intro s h
    obtain ⟨k, ms⟩ := hd
    have h1 : ms.changed = false := h (k, ms) (List.mem_cons_self _ _)
    simp only [applyModeMap, applyTrackedMode_clean s k ms h1,
      ih s (fun e he => h e (List.mem_cons_of_mem _ he))]

theorem applyAttributeStack_changed (s : State) (attr : Attribute) (as : AttributeStack) :
    (s.applyAttributeStack attr as).2.1.changed = as.changed := by
  unfold applyAttributeStack
  split
  · exact (applyAttributeBody_vec s attr as).2
  · rfl

theorem applyTrackedAttribute_changed (s : State) (as : AttributeStack) :
    (s.applyTrackedAttribute as).1.changed = false := by
  unfold applyTrackedAttribute
  cases h : as.changed
  · simp [h]
  · simp only [if_true]
    split
    · rw [applyAttributeStack_changed]
    · rw [applyGlobalDefaultAttribute_changed]

theorem applyTrackedAttribute_clean (s : State) (as : AttributeStack)
    (h : as.changed = false) : s.applyTrackedAttribute as = (as, s) := by
  simp [applyTrackedAttribute, h]

theorem applyAttributeMap_changed (m : AttributeMap) :
    ∀ s : State, ∀ e ∈ (s.applyAttributeMap m).1, e.2.changed = false := by
  induction m with
  | nil => intro s e he; simp [applyAttributeMap] at he
  | cons hd tl ih =>
    intro s e he
    obtain ⟨k, as⟩ := hd
    simp only [applyAttributeMap, List.mem_cons] at he
    rcases he with rfl | he
    · exact applyTrackedAttribute_changed s as
    · exact ih _ e he

theorem applyAttributeMap_clean (m : AttributeMap) :
    ∀ s : State, (∀ e ∈ m, e.2.changed = false) → s.applyAttributeMap m = (m, s) := by
  induction m with
  | nil => intro s _; rfl
  | cons hd tl ih =>
    intro s h
    obtain ⟨k, as⟩ := hd
    have h1 : as.changed = false := h (k, as) (List.mem_cons_self _ _)
    simp only [applyAttributeMap, applyTrackedAttribute_clean s as h1,
      ih s (fun e he => h e (List.mem_cons_of_mem _ he))]

/-- C14: idempotent apply. After `applyModeMap` every `ModeStack` of the map has
`changed == false`, and a second `applyModeMap` right after it returns the same
map and the same state, so it issues no OpenGL command; likewise for
`applyAttributeMap`, whose second run invokes no attribute apply routine. -/
theorem apply_map_idempotent :
    (∀ (s : State) (m : ModeMap),
      (∀ e ∈ (s.applyModeMap m).1, e.2.changed = false) ∧
      (s.applyModeMap m).2.applyModeMap (s.applyModeMap m).1 = s.applyModeMap m ∧
      ((s.applyModeMap m).2.applyModeMap (s.applyModeMap m).1).2.glCalls =
        (s.applyModeMap m).2.glCalls) ∧
    (∀ (s : State) (m : AttributeMap),
      (∀ e ∈ (s.applyAttributeMap m).1, e.2.changed = false) ∧
      (s.applyAttributeMap m).2.applyAttributeMap (s.applyAttributeMap m).1 =
        s.applyAttributeMap m ∧
      ((s.applyAttributeMap m).2.applyAttributeMap (s.applyAttributeMap m).1).2.glCalls =
        (s.applyAttributeMap m).2.glCalls) := by
  constructor
  · intro s m
    have h := applyModeMap_clean (s.applyModeMap m).1 (s.applyModeMap m).2
      (applyModeMap_changed m s)
    exact ⟨applyModeMap_changed m s, h, by rw [h]⟩
  · intro s m
    have h := applyAttributeMap_clean (s.applyAttributeMap m).1 (s.applyAttributeMap m).2
      (applyAttributeMap_changed m s)
    exact ⟨applyAttributeMap_changed m s, h, by rw [h]⟩

/-! ## Texture units -/

theorem setActiveTextureUnit_eq (s : State) (unit : Nat) :
    s.setActiveTextureUnit unit =
      if unit = s._currentActiveTextureUnit then (true, s)
      else if s._glActiveTexture = true ∧ unit < s.textureUnitLimit then
        (true, { s with
          glCalls := s.glCalls ++ [GLCall.glActiveTexture ((GL_TEXTURE0 + unit) % 2 ^ 32)],
          _currentActiveTextureUnit := unit })
      else (decide (unit = 0), s) := by
  unfold setActiveTextureUnit textureUnitLimit
  by_cases h1 : unit = s._currentActiveTextureUnit
  · simp [h1]
  · by_cases h2 : s._glActiveTexture = true
    · by_cases h3 : unit <
          ((max s._glMaxTextureCoords s._glMaxTextureUnits) % 2 ^ 32).toNat
      · simp [h1, h2, h3]
      · simp [h1, h2, h3]
    · simp [h1, h2]

theorem setActiveTextureUnit_false (s : State) (unit : Nat)
    (h : (s.setActiveTextureUnit unit).1 = false) : (s.setActiveTextureUnit unit).2 = s := by
  rw [setActiveTextureUnit_eq] at h ⊢
  split
  · rfl
  · split
    · rename_i h1 h2
      simp [h1, h2] at h
    · rfl

theorem applyModeOnTexUnit_of_false (s : State) (unit : Nat) (mode : GLMode) (enabled : Bool)
    (ms : ModeStack) (h : (s.setActiveTextureUnit unit).1 = false) :
    s.applyModeOnTexUnit unit mode enabled ms = (false, ms, s) := by
  unfold applyModeOnTexUnit
  split
  · simp [h, setActiveTextureUnit_false s unit h]
  · rfl

theorem setActiveTextureUnit_out_of_range (s : State) (unit : Nat)
    (hcur : unit ≠ s._currentActiveTextureUnit) (h0 : unit ≠ 0)
    (hlimit : s.textureUnitLimit ≤ unit) : (s.setActiveTextureUnit unit).1 = false := by
  rw [setActiveTextureUnit_eq]
  simp [hcur, h0, Nat.not_lt.2 hlimit]

theorem applyModeOnTexUnit_out_of_range (s : State) (mode : GLMode) (enabled : Bool)
    (ms : ModeStack) (unit : Nat) (h0 : unit ≠ 0) (hcur : unit ≠ s._currentActiveTextureUnit)
    (hlimit : s.textureUnitLimit ≤ unit) :
    s.applyModeOnTexUnit unit mode enabled ms = (false, ms, s) :=
  applyModeOnTexUnit_of_false s unit mode enabled ms
    (setActiveTextureUnit_out_of_range s unit hcur h0 hlimit)

/-- C17: `setActiveTextureUnit(unit)` returns true exactly when `unit` is the active
unit, or `_glActiveTexture` is non-null and `unit` is below the bound, or
`unit` is 0. It calls `glActiveTexture(GL_TEXTURE0+unit)` and records `unit` as
the active unit exactly when `unit` is not the active unit and the bound check
passes, and otherwise changes nothing. The bound is the maximum of
`_glMaxTextureCoords` and `_glMaxTextureUnits` as the code compares it, converted
to unsigned int; for limits in the range `0 .. 2^32 - 1` it is that maximum. -/
theorem setActiveTextureUnit_spec (s : State) (unit : Nat) :
    ((s.setActiveTextureUnit unit).1 = true ↔
      unit = s._currentActiveTextureUnit ∨
      (s._glActiveTexture = true ∧ unit < s.textureUnitLimit) ∨ unit = 0) ∧
    (0 ≤ max s._glMaxTextureCoords s._glMaxTextureUnits →
      max s._glMaxTextureCoords s._glMaxTextureUnits < 2 ^ 32 →
      (unit < s.textureUnitLimit ↔
        (unit : Int) < max s._glMaxTextureCoords s._glMaxTextureUnits)) ∧
    (unit ≠ s._currentActiveTextureUnit → s._glActiveTexture = true →
      unit < s.textureUnitLimit →
      (s.setActiveTextureUnit unit).2 =
        { s with
          glCalls := s.glCalls ++ [GLCall.glActiveTexture ((GL_TEXTURE0 + unit) % 2 ^ 32)],
          _currentActiveTextureUnit := unit }) ∧
    (¬ (unit ≠ s._currentActiveTextureUnit ∧ s._glActiveTexture = true ∧
        unit < s.textureUnitLimit) →
      (s.setActiveTextureUnit unit).2 = s) := by
  refine ⟨?_, ?_, ?_, ?_⟩
  · rw [setActiveTextureUnit_eq]
    by_cases h1 : unit = s._currentActiveTextureUnit
    · simp [h1]
    · by_cases h2 : s._glActiveTexture = true ∧ unit < s.textureUnitLimit
      · simp [h1, h2]
      · simp only [h1, h2, if_false, decide_eq_true_eq, false_or]
  · intro hpos hlt
    unfold textureUnitLimit
    rw [Int.emod_eq_of_lt hpos hlt]
    omega
  · intro h1 h2 h3
    rw [setActiveTextureUnit_eq]
    simp [h1, h2, h3]
  · intro h
    rw [setActiveTextureUnit_eq]
    by_cases h1 : unit = s._currentActiveTextureUnit
    · simp [h1]
    · by_cases h2 : s._glActiveTexture = true ∧ unit < s.textureUnitLimit
      · exact absurd ⟨h1, h2.1, h2.2⟩ h
      · simp [h1, h2]

/-- Witness of C17: with four texture units and unit 0 active, unit 3 is selected by one
`glActiveTexture` call, and unit 0 is accepted when `_glActiveTexture` is null. -/
theorem setActiveTextureUnit_spec_witness :
    (sampleState.setActiveTextureUnit 3).2 =
      { sampleState with
        glCalls := [GLCall.glActiveTexture (GL_TEXTURE0 + 3)],
        _currentActiveTextureUnit := 3 } ∧
    (({ sampleState with _glActiveTexture := false, _currentActiveTextureUnit := 2 } :
      State).setActiveTextureUnit 0).1 = true :=
  ⟨((setActiveTextureUnit_spec sampleState 3).2.2.1 (by decide) (by decide) (by decide)).trans
      (by decide),
   (setActiveTextureUnit_spec
      ({ sampleState with _glActiveTexture := false, _currentActiveTextureUnit := 2 } : State)
      0).1.2 (Or.inr (Or.inr rfl))⟩

/-- C18: failed unit selection aborts attribute application. When
`setActiveTextureUnit(unit)` returns false, `applyAttributeOnTexUnit(unit, attr, as)`
returns false for every `attr` and leaves the stack and the state as they are,
so no apply routine is invoked and `last_applied_attribute`,
`last_applied_shadercomponent`, `global_default_attribute` and
`_shaderCompositionDirty` are unchanged; the same holds for
`applyGlobalDefaultAttributeOnTexUnit(unit, as)`. -/
theorem applyAttributeOnTexUnit_of_failed_selection (s : State) (unit : Nat)
    (as : AttributeStack) (h : (s.setActiveTextureUnit unit).1 = false) :
    (∀ attr : Attribute, s.applyAttributeOnTexUnit unit attr as = (false, as, s)) ∧
    s.applyGlobalDefaultAttributeOnTexUnit unit as = (false, as, s) := by
  constructor
  · intro attr
    unfold applyAttributeOnTexUnit
    split
    · simp [h, setActiveTextureUnit_false s unit h]
    · rfl
  · unfold applyGlobalDefaultAttributeOnTexUnit
    split
    · simp [h, setActiveTextureUnit_false s unit h]
    · rfl

/-- Witness of C18: unit 5 with four texture units and unit 0 active. -/
theorem applyAttributeOnTexUnit_of_failed_selection_witness :
    (∀ attr : Attribute, sampleState.applyAttributeOnTexUnit 5 attr default =
      (false, default, sampleState)) ∧
    sampleState.applyGlobalDefaultAttributeOnTexUnit 5 default = (false, default, sampleState) :=
  applyAttributeOnTexUnit_of_failed_selection sampleState 5 default (by decide)

/-! ## Uniform application -/

/-- C19: with no program bound (`_lastAppliedProgramObject` null), `applyUniformMap` and
`applyUniformList` return at once: for every uniform map and incoming list the
state, and with it the log of issued calls, is what it was. Both members only
read the map. -/
theorem applyUniform_without_program (s : State) (h : s._lastAppliedProgramObject = none)
    (uniformMap : UniformMap) (uniformList : UniformList) :
    s.applyUniformMap uniformMap = s ∧ s.applyUniformList uniformMap uniformList = s := by
  simp [applyUniformMap, applyUniformList, h]

/-- Witness of C19: a tracked uniform and an incoming one, with no program bound. -/
theorem applyUniform_without_program_witness :
    sampleState.applyUniformMap [("color", { uniformVec := [(7, 1)] })] = sampleState ∧
    sampleState.applyUniformList [("color", { uniformVec := [(7, 1)] })] [("scale", (8, 1))] =
      sampleState :=
  applyUniform_without_program sampleState rfl _ _

end State

/-! ## The linear merge -/

namespace Assoc

variable {K V W : Type}

theorem lawfulLt_string : LawfulLt String :=
  ⟨fun a => by simp [KeyOrd.lt],
   fun a b c h1 h2 => by
    simp only [KeyOrd.lt, decide_eq_true_eq] at h1 h2 ⊢
    exact lt_trans h1 h2,
   fun a b h1 h2 => by
    simp only [KeyOrd.lt, decide_eq_false_iff_not] at h1 h2
    exact le_antisymm (not_lt.1 h2) (not_lt.1 h1)⟩

theorem find_eq_none_of_forall_lt [DecidableEq K] [KeyOrd K] (hK : LawfulLt K)
    (m : List (K × V)) (n : K) (h : ∀ e ∈ m, KeyOrd.lt n e.1 = true) : find m n = none := by
  induction m with
  | nil => rfl
  | cons hd tl ih =>
    obtain ⟨k, v⟩ := hd
    have hk : KeyOrd.lt n k = true := h (k, v) (List.mem_cons_self _ _)
    have hne : k ≠ n := by
      intro e
      subst e
      rw [hK.irrefl] at hk
      exact Bool.noConfusion hk
    simp only [find, hne, if_false]
    exact ih (fun e he => h e (List.mem_cons_of_mem _ he))

theorem find_tail_head_eq_none [DecidableEq K] [KeyOrd K] (hK : LawfulLt K) (k : K) (v : V)
    (rest : List (K × V)) (hs : Sorted ((k, v) :: rest)) : find rest k = none :=
  find_eq_none_of_forall_lt hK rest k (List.pairwise_cons.1 hs).1

theorem find_eq_none_of_lt_head [DecidableEq K] [KeyOrd K] (hK : LawfulLt K) (k : K) (v : V)
    (rest : List (K × V)) (hs : Sorted ((k, v) :: rest)) (n : K) (hn : KeyOrd.lt n k = true) :
    find ((k, v) :: rest) n = none := by
  apply find_eq_none_of_forall_lt hK
  intro e he
  rcases List.mem_cons.1 he with rfl | he
  · exact hn
  · exact hK.trans _ _ _ hn ((List.pairwise_cons.1 hs).1 e he)

theorem find_cons_self [DecidableEq K] (k : K) (v : V) (rest : List (K × V)) :
    find ((k, v) :: rest) k = some v := by
  simp [find]

theorem find_cons_ne [DecidableEq K] (k n : K) (v : V) (rest : List (K × V)) (h : k ≠ n) :
    find ((k, v) :: rest) n = find rest n := by
  simp [find, h]

theorem filter_mergeAt [DecidableEq K] [KeyOrd K] (hK : LawfulLt K) (n k : K) (v : V)
    (rest : List (K × V)) (next : List (K × W) → List (K × Option V × Option W))
    (hs : Sorted ((k, v) :: rest))
    (hnext : ∀ l, Sorted l → (next l).filter (fun e => decide (e.1 = n)) =
      if (find rest n).isNone && (find l n).isNone then []
      else [(n, find rest n, find l n)]) :
    ∀ l : List (K × W), Sorted l →
      (mergeAt k v next l).filter (fun e => decide (e.1 = n)) =
        if (find ((k, v) :: rest) n).isNone && (find l n).isNone then []
        else [(n, find ((k, v) :: rest) n, find l n)] := by
  have hrest : find rest k = none := find_tail_head_eq_none hK k v rest hs
  intro l
  induction l with
  | nil =>
    intro hl
    rw [mergeAt, List.filter_cons, hnext [] hl]
    by_cases hk : k = n
    · subst hk
      rw [find_cons_self, hrest]
      simp [find]
    · rw [find_cons_ne k n v rest hk]
      simp [hk]
  | cons hd tl ih =>
    intro hl
    obtain ⟨dk, w⟩ := hd
    have hl' : Sorted tl := (List.pairwise_cons.1 hl).2
    have htl : find tl dk = none := find_tail_head_eq_none hK dk w tl hl
    rw [mergeAt]
    by_cases h1 : KeyOrd.lt k dk = true
    · rw [if_pos h1, List.filter_cons, hnext _ hl]
      by_cases hk : k = n
      · subst hk
        rw [find_cons_self, hrest, find_eq_none_of_lt_head hK dk w tl hl k h1]
        simp
      · rw [find_cons_ne k n v rest hk]
        simp [hk]
    · rw [if_neg h1]
      by_cases h2 : KeyOrd.lt dk k = true
      · rw [if_pos h2, List.filter_cons, ih hl']
        by_cases hd : dk = n
        · subst hd
          rw [find_cons_self, htl, find_eq_none_of_lt_head hK k v rest hs dk h2]
          simp
        · rw [find_cons_ne dk n w tl hd]
          simp [hd]
      · rw [if_neg h2, List.filter_cons, hnext _ hl']
        have hkd : k = dk := hK.total k dk (by simpa using h1) (by simpa using h2)
        subst hkd
        by_cases hk : k = n
        · subst hk
          rw [find_cons_self, find_cons_self, hrest, htl]
          simp
        · rw [find_cons_ne k n v rest hk, find_cons_ne k n w tl hk]
          simp [hk]

theorem filter_merge [DecidableEq K] [KeyOrd K] (hK : LawfulLt K) (n : K) (u : List (K × V)) :
    Sorted u → ∀ l : List (K × W), Sorted l →
      (merge u l).filter (fun e => decide (e.1 = n)) =
        if (find u n).isNone && (find l n).isNone then [] else [(n, find u n, find l n)] := by
  induction u with
  | nil =>
    intro _ l
    induction l with
    | nil => intro _; rfl
    | cons hd tl ih =>
      intro hl
      obtain ⟨dk, w⟩ := hd
      have htl : find tl dk = none := find_tail_head_eq_none hK dk w tl hl
      have ih' := ih (List.pairwise_cons.1 hl).2
      simp only [merge] at ih' ⊢
      rw [List.map_cons, List.filter_cons, ih']
      by_cases hd : dk = n
      · subst hd
        rw [find_cons_self, htl]
        simp [find]
      · rw [find_cons_ne dk n w tl hd]
        simp [find, hd]
  | cons hd tl ih =>
    intro hs l hl
    obtain ⟨k, v⟩ := hd
    exact filter_mergeAt hK n k v tl (merge tl) hs
      (fun l' hl' => ih (List.pairwise_cons.1 hs).2 l' hl') l hl

end Assoc

namespace State

theorem uniformListBlock_eq (p : Nat) (n : String) (a : Option UniformStack)
    (b : Option UniformPair) :
    uniformListBlock p (n, a, b) = (uniformToSend a b).toList.map (GLCall.uniformApply p n) := by
  unfold uniformListBlock uniformToSend
  cases a with
  | none => cases b <;> simp
  | some us =>
    cases b with
    | none => cases h : us.uniformVec.getLast? <;> simp [h]
    | some inc =>
      cases h : us.uniformVec.getLast? with
      | none => simp [h]
      | some back =>
        cases hc : (hasFlag back.2 StateAttribute.OVERRIDE &&
          !(hasFlag inc.2 StateAttribute.PROTECTED)) <;> simp [h, hc]

theorem uniformCallsFor_block (p : Nat) (n : String)
    (e : String × Option UniformStack × Option UniformPair) :
    uniformCallsFor n (uniformListBlock p e) =
      if e.1 = n then uniformListBlock p e else [] := by
  obtain ⟨k, a, b⟩ := e
  rw [uniformListBlock_eq]
  unfold uniformCallsFor
  cases uniformToSend a b with
  | none => simp
  | some x =>
    by_cases hk : k = n
    · simp [hk]
    · simp [hk]

theorem uniformCallsFor_flatMap (p : Nat) (n : String)
    (L : List (String × Option UniformStack × Option UniformPair)) :
    uniformCallsFor n (L.flatMap (uniformListBlock p)) =
      (L.filter fun e => decide (e.1 = n)).flatMap (uniformListBlock p) := by
  induction L with
  | nil => rfl
  | cons e tl ih =>
    have happ : uniformCallsFor n (uniformListBlock p e ++ tl.flatMap (uniformListBlock p)) =
        uniformCallsFor n (uniformListBlock p e) ++
          uniformCallsFor n (tl.flatMap (uniformListBlock p)) := by
      unfold uniformCallsFor
      rw [List.filter_append]
    rw [List.flatMap_cons, happ, ih, uniformCallsFor_block, List.filter_cons]
    by_cases hk : e.1 = n
    · simp [hk]
    · simp [hk]

theorem uniformCallsFor_uniformListCalls (p : Nat) (u : UniformMap) (l : UniformList)
    (hu : Assoc.Sorted u) (hl : Assoc.Sorted l) (n : String) :
    uniformCallsFor n (uniformListCalls p u l) =
      (uniformToSend (Assoc.find u n) (Assoc.find l n)).toList.map (GLCall.uniformApply p n) := by
  unfold uniformListCalls
  rw [uniformCallsFor_flatMap, Assoc.filter_merge Assoc.lawfulLt_string n u hu l hl]
  cases hfu : Assoc.find u n with
  | none =>
    cases hfl : Assoc.find l n with
    | none => simp [uniformToSend]
    | some w => simp [uniformListBlock_eq]
  | some us => simp [uniformListBlock_eq]

theorem uniformListCalls_are_sends (p : Nat) (u : UniformMap) (l : UniformList) :
    ∀ c ∈ uniformListCalls p u l, ∃ n x, c = GLCall.uniformApply p n x := by
  intro c hc
  unfold uniformListCalls at hc
  obtain ⟨⟨k, a, b⟩, _, hce⟩ := List.mem_flatMap.1 hc
  rw [uniformListBlock_eq] at hce
  obtain ⟨x, _, hx⟩ := List.mem_map.1 hce
  exact ⟨k, x, hx.symm⟩

/-- C20: uniforms are re-sent unconditionally. With the program `p` bound and the
uniform map and the incoming list in name order, `applyUniformList` appends to
the log the calls `uniformListCalls`, all of them sends to `p`. Among them the
sends for a name `n` are exactly the one `uniformToSend` names: one send when
`n` is incoming or has a non-empty tracked stack, none otherwise; for a name
that is both, the top of the stack when the stack is non-empty, its top has
OVERRIDE and the incoming pair lacks PROTECTED, and the incoming uniform
otherwise. Calling `applyUniformList` again appends the same calls again. -/
theorem applyUniformList_resends (s : State) (p : Nat) (u : UniformMap) (l : UniformList)
    (hp : s._lastAppliedProgramObject = some p) (hu : Assoc.Sorted u) (hl : Assoc.Sorted l) :
    (s.applyUniformList u l).glCalls = s.glCalls ++ uniformListCalls p u l ∧
    (∀ c ∈ uniformListCalls p u l, ∃ n x, c = GLCall.uniformApply p n x) ∧
    (∀ n : String, uniformCallsFor n (uniformListCalls p u l) =
      (uniformToSend (Assoc.find u n) (Assoc.find l n)).toList.map (GLCall.uniformApply p n)) ∧
    (∀ n : String, (uniformCallsFor n (uniformListCalls p u l)).length =
      if (Assoc.find l n).isSome ||
          ((Assoc.find u n).bind fun us => us.uniformVec.getLast?).isSome then 1 else 0) ∧
    ((s.applyUniformList u l).applyUniformList u l).glCalls =
      s.glCalls ++ uniformListCalls p u l ++ uniformListCalls p u l := by
  refine ⟨by simp [applyUniformList, hp], uniformListCalls_are_sends p u l,
    uniformCallsFor_uniformListCalls p u l hu hl, fun n => ?_, by simp [applyUniformList, hp]⟩
  rw [uniformCallsFor_uniformListCalls p u l hu hl n]
  unfold uniformToSend
  cases hfl : Assoc.find l n with
  | none =>
    cases (Assoc.find u n).bind fun us => us.uniformVec.getLast? <;> simp
  | some inc =>
    cases (Assoc.find u n).bind fun us => us.uniformVec.getLast? with
    | none => simp
    | some back =>
      cases hc : (hasFlag back.2 StateAttribute.OVERRIDE &&
        !(hasFlag inc.2 StateAttribute.PROTECTED)) <;> simp [hc]

/-- Witness of C20: with program 1 bound, the tracked uniforms `color` (top with OVERRIDE)
and `fade` (empty stack) and the incoming `color` and `scale`, the sends are the
tracked top of `color` and the incoming `scale`, and none for `fade`. -/
theorem applyUniformList_resends_witness :
    (({ sampleState with _lastAppliedProgramObject := some 1 } : State).applyUniformList
        [("color", { uniformVec := [(7, 3)] }), ("fade", { uniformVec := [] })]
        [("color", (8, 1)), ("scale", (9, 1))]).glCalls =
      [GLCall.uniformApply 1 "color" 7, GLCall.uniformApply 1 "scale" 9] := by
  have hcf : KeyOrd.lt "color" "fade" = true := by simp [KeyOrd.lt]; decide
  have hcs : KeyOrd.lt "color" "scale" = true := by simp [KeyOrd.lt]; decide
  have hfs : KeyOrd.lt "fade" "scale" = true := by simp [KeyOrd.lt]; decide
  have hcc : KeyOrd.lt "color" "color" = false := Assoc.lawfulLt_string.irrefl _
  have h := (applyUniformList_resends
    ({ sampleState with _lastAppliedProgramObject := some 1 } : State) 1
    [("color", { uniformVec := [(7, 3)] }), ("fade", { uniformVec := [] })]
    [("color", (8, 1)), ("scale", (9, 1))] rfl
    (by simp [Assoc.Sorted, hcf]) (by simp [Assoc.Sorted, hcs])).1
  rw [h]
  simp [uniformListCalls, Assoc.merge, Assoc.mergeAt, hcc, hfs, uniformListBlock, sampleState,
    hasFlag, StateAttribute.OVERRIDE, StateAttribute.PROTECTED]

/-! ## Define stacks -/

theorem getElem?_length_sub_two_append {α : Type} (vec : List α) (back inc : α)
    (h : vec.getLast? = some back) :
    (vec ++ [inc])[(vec ++ [inc]).length - 2]? = some back := by
  obtain ⟨ys, rfl⟩ := List.getLast?_eq_some_iff.1 h
  have hlen : (ys ++ [back] ++ [inc]).length - 2 = ys.length := by simp
  rw [hlen, List.append_assoc, List.getElem?_append_right (Nat.le_refl _)]
  simp

theorem pushDefineEntry_changed (ds : DefineStack) (incoming : DefinePair) :
    (pushDefineEntry ds incoming).1.changed =
      (ds.changed ||
        decide (ds.defineVec.getLast? ≠ some (pushRule Prod.snd ds.defineVec incoming))) := by
  unfold pushDefineEntry pushRule
  cases h : ds.defineVec.getLast? with
  | none => simp
  | some back =>
    cases hc : (hasFlag back.2 StateAttribute.OVERRIDE &&
        !(hasFlag incoming.2 StateAttribute.PROTECTED))
    · simp only [hc, Bool.false_eq_true, if_false]
      rw [getElem?_length_sub_two_append ds.defineVec back incoming h]
      by_cases hbi : back = incoming
      · simp [hbi]
      · simp [hbi]
    · simp [hc]

/-- Counterexample to C22 as stated: from an empty snapshot, `applyDefineList` with the
incoming define `A = 1` (ON) computes the snapshot `A ↦ 1`, which differs from
the one held before, yet leaves the map-level flag `changed` false. -/
theorem applyDefineList_changed_false_on_new_snapshot :
    (applyDefineList default [("A", ("1", StateAttribute.ON))]).currentDefines =
      [("A", ("1", StateAttribute.ON))] ∧
    (applyDefineList default [("A", ("1", StateAttribute.ON))]).currentDefines ≠
      (default : DefineMap).currentDefines ∧
    (applyDefineList default [("A", ("1", StateAttribute.ON))]).changed = false := by
  decide

/-- C22 as amended: after `applyDefineList(d, l)` the map-level flag `d.changed` is false,
whether or not the newly computed snapshot differs from the one held before;
the define stacks, with their own `changed` flags, are as they were. -/
theorem applyDefineList_clears_changed (d : DefineMap) (l : DefineList) :
    (applyDefineList d l).changed = false ∧ (applyDefineList d l).map = d.map := by
  exact ⟨rfl, rfl⟩

/-- Counterexample to C23 as stated: the stack of `A` is clean with the top `1`
(ON|OVERRIDE); pushing the incoming `A = 2` (ON) appends a copy of the top and
leaves the `changed` flag of the stack false. -/
theorem pushDefineList_override_copy_not_changed :
    (Assoc.get (pushDefineList
        { map := [("A", { changed := false, defineVec := [("1", 3)] })], changed := false,
          currentDefines := [] }
        [("A", ("2", 1))]).map "A").defineVec = [("1", 3), ("1", 3)] ∧
    (Assoc.get (pushDefineList
        { map := [("A", { changed := false, defineVec := [("1", 3)] })], changed := false,
          currentDefines := [] }
        [("A", ("2", 1))]).map "A").changed = false := by
  decide

/-- C23 as amended: after `pushDefineList(d, l)` the `changed` flag of the `DefineStack` of a
key of `l` is true exactly when it was true before or the entry the push
appended differs from the previous top, which includes every push onto an
empty stack; a push that repeats the top (an override copy, or an incoming
entry equal to the top) leaves the flag as it was. -/
theorem pushDefineList_changed (dm : DefineMap) (l : DefineList) (k : String) (v : DefinePair)
    (hnd : (l.map Prod.fst).Nodup) (hmem : (k, v) ∈ l) :
    (Assoc.get (pushDefineList dm l).map k).changed =
      ((Assoc.get dm.map k).changed ||
        decide ((Assoc.get dm.map k).defineVec.getLast? ≠
          some (pushRule Prod.snd (Assoc.get dm.map k).defineVec v))) := by
  rw [pushDefineList_map, Assoc.get_foldUpdate_of_mem _ l dm.map k v hnd hmem,
    pushDefineEntry_changed]

/-- Witness of the amended C23: a push onto an absent (empty) stack marks it changed. -/
theorem pushDefineList_changed_witness :
    (Assoc.get (pushDefineList default [("A", ("2", 1))]).map "A").changed = true :=
  (pushDefineList_changed default [("A", ("2", 1))] "A" ("2", 1) (by decide)
    (by decide)).trans (by decide)

/-! ## Dynamic object count -/

theorem setDynamicObjectCount_of_pos (s : State) (n : Nat) (flag : Bool) (hn : n ≠ 0) :
    (s.setDynamicObjectCount n flag)._dynamicObjectCount = n ∧
    (s.setDynamicObjectCount n flag)._completeDynamicObjectRenderingCallback =
      s._completeDynamicObjectRenderingCallback ∧
    (s.setDynamicObjectCount n flag).completedCalls = s.completedCalls := by
  unfold setDynamicObjectCount
  by_cases h : s._dynamicObjectCount = n
  · simp [h]
  · simp [h, hn]

theorem decrementDynamicObjectCount_eq (s : State) (cb : Nat)
    (hcb : s._completeDynamicObjectRenderingCallback = some cb) :
    s.decrementDynamicObjectCount._dynamicObjectCount =
      (2 ^ 32 - 1 + s._dynamicObjectCount) % 2 ^ 32 ∧
    s.decrementDynamicObjectCount._completeDynamicObjectRenderingCallback = some cb ∧
    s.decrementDynamicObjectCount.completedCalls =
      (if (2 ^ 32 - 1 + s._dynamicObjectCount) % 2 ^ 32 = 0 then s.completedCalls ++ [cb]
       else s.completedCalls) := by
  unfold decrementDynamicObjectCount
  generalize (2 ^ 32 - 1 + s._dynamicObjectCount) % 2 ^ 32 = m
  by_cases h : m = 0
  · simp only [h, if_true, hcb]
    exact ⟨trivial, trivial, trivial⟩
  · simp only [h, if_false, hcb]
    exact ⟨trivial, trivial, trivial⟩

theorem decrements_spec (s : State) (cb n : Nat) (base : List Nat)
    (hcb : s._completeDynamicObjectRenderingCallback = some cb)
    (hcount : s._dynamicObjectCount = n) (hbase : s.completedCalls = base) (hn : 1 ≤ n)
    (hlt : n < 2 ^ 32) :
    ∀ k, k ≤ n →
      (decrements s k)._dynamicObjectCount = n - k ∧
      (decrements s k)._completeDynamicObjectRenderingCallback = some cb ∧
      (decrements s k).completedCalls = base ++ (if k = n then [cb] else []) := by
  intro k
  induction k with
  | zero =>
    intro _
    have h0 : ¬ (0 = n) := by omega
    simp [decrements, hcount, hcb, hbase, h0]
  | succ k ih =>
    intro hk
    obtain ⟨h1, h2, h3⟩ := ih (by omega)
    have hkn : ¬ (k = n) := by omega
    rw [if_neg hkn, List.append_nil] at h3
    have hmod : (2 ^ 32 - 1 + (n - k)) % 2 ^ 32 = n - (k + 1) := by
      have : 2 ^ 32 - 1 + (n - k) = (n - (k + 1)) + 2 ^ 32 := by omega
      rw [this, Nat.add_mod_right]
      exact Nat.mod_eq_of_lt (by omega)
    obtain ⟨e1, e2, e3⟩ := decrementDynamicObjectCount_eq (decrements s k) cb h2
    rw [h1, hmod] at e1 e3
    rw [h3] at e3
    refine ⟨e1, e2, ?_⟩
    show (decrements s k).decrementDynamicObjectCount.completedCalls = _
    rw [e3]
    by_cases hlast : k + 1 = n
    · have h0 : n - (k + 1) = 0 := by omega
      rw [if_pos h0, if_pos hlast]
    · have h0 : ¬ (n - (k + 1) = 0) := by omega
      rw [if_neg h0, if_neg hlast, List.append_nil]

/-- C24: dynamic count completion. With a completion callback registered and
`1 ≤ n` (an `unsigned int`), `setDynamicObjectCount(n)` invokes no callback, and
after the `k`-th of `n` calls of `decrementDynamicObjectCount()` the count is
`n - k` and the callback has been invoked once if `k = n` and not at all if
`k < n`: exactly once in total, during the `n`-th decrement. -/
theorem dynamic_count_completion (s : State) (cb n : Nat) (callCallbackOnZero : Bool)
    (hcb : s._completeDynamicObjectRenderingCallback = some cb) (hn : 1 ≤ n)
    (hlt : n < 2 ^ 32) :
    (s.setDynamicObjectCount n callCallbackOnZero).completedCalls = s.completedCalls ∧
    ∀ k, k ≤ n →
      (decrements (s.setDynamicObjectCount n callCallbackOnZero) k).getDynamicObjectCount
        = n - k ∧
      (decrements (s.setDynamicObjectCount n callCallbackOnZero) k).completedCalls =
        s.completedCalls ++ (if k = n then [cb] else []) := by
  obtain ⟨h1, h2, h3⟩ := setDynamicObjectCount_of_pos s n callCallbackOnZero (by omega)
  refine ⟨h3, fun k hk => ?_⟩
  obtain ⟨d1, _, d3⟩ := decrements_spec (s.setDynamicObjectCount n callCallbackOnZero) cb n
    s.completedCalls (h2.trans hcb) h1 h3 hn hlt k hk
  exact ⟨d1, d3⟩

/-- Witness of C24 for `n = 3` with the callback 7 registered: the counts after the
decrements are 2, 1, 0 and the callback is invoked in the third one only. -/
theorem dynamic_count_completion_witness :
    (decrements (({ sampleState with _completeDynamicObjectRenderingCallback := some 7 } :
      State).setDynamicObjectCount 3 false) 2).completedCalls = [] ∧
    (decrements (({ sampleState with _completeDynamicObjectRenderingCallback := some 7 } :
      State).setDynamicObjectCount 3 false) 3).completedCalls = [7] ∧
    (decrements (({ sampleState with _completeDynamicObjectRenderingCallback := some 7 } :
      State).setDynamicObjectCount 3 false) 3).getDynamicObjectCount = 0 :=
  ⟨((dynamic_count_completion
      ({ sampleState with _completeDynamicObjectRenderingCallback := some 7 } : State) 7 3 false
      rfl (by decide) (by decide)).2 2 (by decide)).2,
   ((dynamic_count_completion
      ({ sampleState with _completeDynamicObjectRenderingCallback := some 7 } : State) 7 3 false
      rfl (by decide) (by decide)).2 3 (by decide)).2,
   ((dynamic_count_completion
      ({ sampleState with _completeDynamicObjectRenderingCallback := some 7 } : State) 7 3 false
      rfl (by decide) (by decide)).2 3 (by decide)).1⟩

/-- Counterexample to C25 as stated: with the callback 7 registered and a dynamic object
count of 0, `setDynamicObjectCount(0, true)` invokes no callback. -/
theorem setDynamicObjectCount_zero_at_zero_no_callback :
    ({ sampleState with _completeDynamicObjectRenderingCallback := some 7 } :
      State)._dynamicObjectCount = 0 ∧
    (({ sampleState with _completeDynamicObjectRenderingCallback := some 7 } :
      State).setDynamicObjectCount 0 true).completedCalls = [] := by
  decide

/-- C25 as amended: with a completion callback registered, `setDynamicObjectCount(0, true)`
invokes the callback, once, exactly when the dynamic object count before the
call is not 0; when it is 0 already the call changes nothing. -/
theorem setDynamicObjectCount_zero_callback (s : State) (cb : Nat)
    (hcb : s._completeDynamicObjectRenderingCallback = some cb) :
    (s._dynamicObjectCount ≠ 0 →
      (s.setDynamicObjectCount 0 true).completedCalls = s.completedCalls ++ [cb] ∧
      (s.setDynamicObjectCount 0 true)._dynamicObjectCount = 0) ∧
    (s._dynamicObjectCount = 0 → s.setDynamicObjectCount 0 true = s) := by
  unfold setDynamicObjectCount
  constructor
  · intro h
    simp [h, hcb]
  · intro h
    simp [h]

/-- Witness of the amended C25: from a count of 2 the callback 7 is invoked. -/
theorem setDynamicObjectCount_zero_callback_witness :
    (({ ({ sampleState with _dynamicObjectCount := 2 } : State) with
        _completeDynamicObjectRenderingCallback := some 7 } :
      State).setDynamicObjectCount 0 true).completedCalls = [7] :=
  ((setDynamicObjectCount_zero_callback
    ({ ({ sampleState with _dynamicObjectCount := 2 } : State) with
       _completeDynamicObjectRenderingCallback := some 7 } : State) 7 rfl).1 (by decide)).1

end State

/-! ## Extension function pointers -/

/-- C26: extension fallback resolution. For every resolver and names `primary`,
`secondary`, `getGLExtensionFuncPtr(primary, secondary)` is the address resolved
for `primary` when that is non-null and the address resolved for `secondary`
otherwise, so null when neither resolves; with `primary` unresolved and
`secondary` resolved it is the non-null address of `secondary`. -/
theorem getGLExtensionFuncPtr2_fallback (resolve : String → Nat) (primary secondary : String) :
    (resolve primary ≠ 0 →
      getGLExtensionFuncPtr2 resolve primary secondary = resolve primary) ∧
    (resolve primary = 0 →
      getGLExtensionFuncPtr2 resolve primary secondary = resolve secondary) ∧
    (resolve primary = 0 → resolve secondary = 0 →
      getGLExtensionFuncPtr2 resolve primary secondary = 0) ∧
    (resolve primary = 0 → resolve secondary ≠ 0 →
      getGLExtensionFuncPtr2 resolve primary secondary = resolve secondary ∧
      getGLExtensionFuncPtr2 resolve primary secondary ≠ 0) := by
  unfold getGLExtensionFuncPtr2
  refine ⟨fun h => by simp [h], fun h => by simp [h], fun h1 h2 => by simp [h1, h2],
    fun h1 h2 => by simp [h1, h2]⟩

/-- Counterexample to C27 as stated: the resolver knows `glActiveTexture` at the address 4096, the
three-name lookup returns 4096, yet `setGLExtensionFuncPtr` with `validContext`
false stores the null address and returns false. -/
theorem setGLExtensionFuncPtr3_invalid_context_stores_null :
    getGLExtensionFuncPtr3 (fun n => if n = "glActiveTexture" then 4096 else 0)
      "glActiveTexture" "glActiveTextureARB" "glActiveTextureEXT" = 4096 ∧
    setGLExtensionFuncPtr3 (fun n => if n = "glActiveTexture" then 4096 else 0)
      "glActiveTexture" "glActiveTextureARB" "glActiveTextureEXT" false = (false, 0) := by
  decide

/-- C27 as amended: the three-name `getGLExtensionFuncPtr(f1, f2, f3)` returns the resolved address
of the first of `f1`, `f2`, `f3` that resolves to a non-null address, and null
if none does; `setGLExtensionFuncPtr(t, f1, f2, f3, validContext)` with
`validContext` true stores that address in `t` and returns true exactly when it
is non-null, and with `validContext` false stores null and returns false. -/
theorem setGLExtensionFuncPtr3_first_resolved (resolve : String → Nat) (f1 f2 f3 : String) :
    (resolve f1 ≠ 0 → getGLExtensionFuncPtr3 resolve f1 f2 f3 = resolve f1) ∧
    (resolve f1 = 0 → resolve f2 ≠ 0 → getGLExtensionFuncPtr3 resolve f1 f2 f3 = resolve f2) ∧
    (resolve f1 = 0 → resolve f2 = 0 → getGLExtensionFuncPtr3 resolve f1 f2 f3 = resolve f3) ∧
    (setGLExtensionFuncPtr3 resolve f1 f2 f3 true).2 = getGLExtensionFuncPtr3 resolve f1 f2 f3 ∧
    ((setGLExtensionFuncPtr3 resolve f1 f2 f3 true).1 = true ↔
      getGLExtensionFuncPtr3 resolve f1 f2 f3 ≠ 0) ∧
    setGLExtensionFuncPtr3 resolve f1 f2 f3 false = (false, 0) := by
  unfold setGLExtensionFuncPtr3 convertPointer getGLExtensionFuncPtr3 getGLExtensionFuncPtr2
  refine ⟨fun h => by simp [h], fun h1 h2 => by simp [h1, h2], fun h1 h2 => by simp [h1, h2],
    by simp, by simp, by simp⟩

namespace Assoc

variable {K V W : Type}

theorem lawfulLt_nat : LawfulLt Nat :=
  ⟨fun a => by simp [KeyOrd.lt],
   fun a b c h1 h2 => by
    simp only [KeyOrd.lt, decide_eq_true_eq] at h1 h2 ⊢
    omega,
   fun a b h1 h2 => by
    simp only [KeyOrd.lt, decide_eq_false_iff_not] at h1 h2
    omega⟩

theorem lawfulLt_typeMemberPair : LawfulLt TypeMemberPair :=
  ⟨fun a => by simp [KeyOrd.lt],
   fun a b c h1 h2 => by
    simp only [KeyOrd.lt, Bool.or_eq_true, Bool.and_eq_true, decide_eq_true_eq] at h1 h2 ⊢
    omega,
   fun a b h1 h2 => by
    obtain ⟨at1, am1⟩ := a
    obtain ⟨bt1, bm1⟩ := b
    simp only [KeyOrd.lt, Bool.or_eq_false_iff, Bool.and_eq_false_imp, decide_eq_true_eq,
      decide_eq_false_iff_not] at h1 h2
    have ht : at1 = bt1 := by omega
    have hm1 := h1.2 ht
    have hm2 := h2.2 ht.symm
    have hm : am1 = bm1 := by omega
    rw [ht, hm]⟩

theorem find_traverse [DecidableEq K] {S A B : Type} (block : S → K × A → B × S) (n : K)
    (L : List (K × A)) :
    ∀ s : S,
      (L.filter (fun e => decide (e.1 = n)) = [] → find (traverse block s L).1 n = none) ∧
      (∀ e tl, L.filter (fun e => decide (e.1 = n)) = e :: tl →
        ∃ t : S, find (traverse block s L).1 n = some (block t e).1) := by
  induction L with
  | nil =>
    intro s
    exact ⟨fun _ => rfl, fun e tl h => by simp at h⟩
  | cons hd rest ih =>
    intro s
    by_cases hk : hd.1 = n
    · have hf : (hd :: rest).filter (fun e => decide (e.1 = n)) =
          hd :: rest.filter (fun e => decide (e.1 = n)) := by
        rw [List.filter_cons]
        simp [hk]
      rw [hf]
      refine ⟨fun h => List.noConfusion h, fun e tl h => ⟨s, ?_⟩⟩
      have he : hd = e := (List.cons.inj h).1
      subst he
      simp only [traverse]
      rw [← hk]
      exact find_cons_self _ _ _
    · have hf : (hd :: rest).filter (fun e => decide (e.1 = n)) =
          rest.filter (fun e => decide (e.1 = n)) := by
        rw [List.filter_cons]
        simp [hk]
      rw [hf]
      simp only [traverse]
      rw [find_cons_ne _ _ _ _ hk]
      exact ih _

end Assoc

namespace State

/-! ## The mode proxy -/

theorem getLastAppliedModeValue_touchMode (s : State) (mode : GLMode) :
    Assoc.get (s.touchMode mode)._modeMap mode = Assoc.get s._modeMap mode := by
  simp [touchMode, Assoc.get_put_same]

theorem getLastAppliedModeValue_applyMode (s : State) (mode : GLMode) (enabled : Bool) :
    (s.applyMode mode enabled).2.getLastAppliedModeValue mode =
      (if (Assoc.get s._modeMap mode).valid &&
          ((Assoc.get s._modeMap mode).last_applied_value != enabled) then enabled
       else (Assoc.get s._modeMap mode).last_applied_value) ∧
    (Assoc.get (s.applyMode mode enabled).2._modeMap mode).valid =
      (Assoc.get s._modeMap mode).valid := by
  unfold getLastAppliedModeValue
  rw [applyMode_get, applyModeStack_ms]
  constructor <;> split <;> rfl

/-- C28: the mode proxy restores the previous value. For every state, mode and value,
constructing `ApplyModeProxy(state, mode, value)` and then destroying it leaves
`getLastAppliedModeValue(mode)` as it was before the construction; between the
two, `getLastAppliedModeValue(mode)` is `value` whenever the mode is valid. -/
theorem applyModeProxy_restores (s : State) (mode : GLMode) (value : Bool) :
    ((ApplyModeProxy.construct s mode value).1.destroy
        (ApplyModeProxy.construct s mode value).2).getLastAppliedModeValue mode =
      s.getLastAppliedModeValue mode ∧
    ((Assoc.get s._modeMap mode).valid = true →
      (ApplyModeProxy.construct s mode value).2.getLastAppliedModeValue mode = value) := by
  have ht := getLastAppliedModeValue_touchMode s mode
  have h1 := getLastAppliedModeValue_applyMode (s.touchMode mode) mode value
  rw [ht] at h1
  have h2 := getLastAppliedModeValue_applyMode ((s.touchMode mode).applyMode mode value).2 mode
    (Assoc.get s._modeMap mode).last_applied_value
  rw [h1.2] at h2
  have h1a := h1.1
  have h2a := h2.1
  unfold getLastAppliedModeValue at h1a h2a ⊢
  rw [h1a] at h2a
  unfold ApplyModeProxy.construct ApplyModeProxy.destroy getLastAppliedModeValue
  by_cases hneed : ((Assoc.get s._modeMap mode).last_applied_value != value) = true
  · simp only [hneed, if_true]
    rw [h2a, h1a]
    constructor
    · cases hv : (Assoc.get s._modeMap mode).valid <;>
        cases hl : (Assoc.get s._modeMap mode).last_applied_value <;>
        cases value <;> simp_all
    · intro hv
      simp [hv, hneed]
  · have hfalse : ((Assoc.get s._modeMap mode).last_applied_value != value) = false := by
      simpa using hneed
    simp only [hfalse, Bool.false_eq_true, if_false]
    rw [ht]
    refine ⟨rfl, fun _ => ?_⟩
    simpa using hfalse

/-! ## The define snapshot -/

theorem find_defineListStep (acc : DefineList)
    (e : String × Option DefineStack × Option DefinePair) (n : String) :
    Assoc.find (defineListStep acc e) n =
      if e.1 = n then
        (match defineListBlock e with
          | some pair => some pair
          | none => Assoc.find acc n)
      else Assoc.find acc n := by
  unfold defineListStep
  cases defineListBlock e with
  | none => simp
  | some pair =>
    by_cases hk : e.1 = n
    · rw [if_pos hk, ← hk]
      exact Assoc.find_put_same _ _ _
    · rw [if_neg hk]
      exact Assoc.find_put_other _ _ _ _ (Ne.symm hk)

theorem find_foldl_defineListStep (n : String)
    (L : List (String × Option DefineStack × Option DefinePair)) :
    ∀ acc : DefineList,
      Assoc.find (L.foldl defineListStep acc) n =
        (L.filter fun e => decide (e.1 = n)).foldl
          (fun o e => match defineListBlock e with
            | some pair => some pair
            | none => o)
          (Assoc.find acc n) := by
  induction L with
  | nil => intro acc; rfl
  | cons hd tl ih =>
    intro acc
    rw [List.foldl_cons, ih, find_defineListStep, List.filter_cons]
    by_cases hk : hd.1 = n
    · simp [hk]
    · simp [hk]

theorem defineListBlock_eq_resolved (n : String) (a : Option DefineStack)
    (b : Option DefinePair) :
    defineListBlock (n, a, b) =
      (resolvedDefine a b).filter fun e => hasFlag e.2 StateAttribute.ON := by
  unfold defineListBlock resolvedDefine
  cases a with
  | none =>
    cases b with
    | none => simp [Option.filter]
    | some inc => simp [Option.filter]
  | some ds =>
    cases b with
    | none => cases h : ds.defineVec.getLast? <;> simp [h, Option.filter]
    | some inc =>
      cases h : ds.defineVec.getLast? with
      | none => simp [h, Option.filter]
      | some back =>
        cases hc : (hasFlag back.2 StateAttribute.OVERRIDE &&
          !(hasFlag inc.2 StateAttribute.PROTECTED)) <;> simp [h, hc, Option.filter]

theorem find_applyDefineList (d : DefineMap) (l : DefineList) (hd : Assoc.Sorted d.map)
    (hl : Assoc.Sorted l) (n : String) :
    Assoc.find (applyDefineList d l).currentDefines n =
      defineListBlock (n, Assoc.find d.map n, Assoc.find l n) := by
  unfold applyDefineList
  simp only []
  rw [find_foldl_defineListStep, Assoc.filter_merge Assoc.lawfulLt_string n d.map hd l hl]
  cases hfd : Assoc.find d.map n with
  | none =>
    cases hfl : Assoc.find l n with
    | none => simp [defineListBlock, Assoc.find]
    | some inc =>
      simp only [Option.isNone_none, Option.isNone_some, Bool.and_false, Bool.false_eq_true,
        if_false, List.foldl_cons, List.foldl_nil]
      cases defineListBlock (n, none, some inc) <;> simp [Assoc.find]
  | some ds =>
    simp only [Option.isNone_some, Bool.false_and, Bool.false_eq_true, if_false,
      List.foldl_cons, List.foldl_nil]
    cases defineListBlock (n, some ds, Assoc.find l n) <;> simp [Assoc.find]

/-- C21: the define snapshot. For a `DefineMap` `d` and an incoming list `l`, both in name
order, after `applyDefineList(d, l)` the snapshot `currentDefines` maps a name
`n` to an entry exactly when the resolved entry of `n` (`resolvedDefine`) has
the ON flag, and then to that entry; the snapshot does not depend on the one
held before the call. -/
theorem applyDefineList_snapshot (d : DefineMap) (l : DefineList) (hd : Assoc.Sorted d.map)
    (hl : Assoc.Sorted l) :
    (∀ n : String, Assoc.find (applyDefineList d l).currentDefines n =
      (resolvedDefine (Assoc.find d.map n) (Assoc.find l n)).filter
        fun e => hasFlag e.2 StateAttribute.ON) ∧
    (∀ (n : String) (e : DefinePair),
      Assoc.find (applyDefineList d l).currentDefines n = some e ↔
        (resolvedDefine (Assoc.find d.map n) (Assoc.find l n) = some e ∧
          hasFlag e.2 StateAttribute.ON = true)) ∧
    (∀ previous : DefineList,
      (applyDefineList { d with currentDefines := previous } l).currentDefines =
        (applyDefineList d l).currentDefines) := by
  have key : ∀ n : String, Assoc.find (applyDefineList d l).currentDefines n =
      (resolvedDefine (Assoc.find d.map n) (Assoc.find l n)).filter
        fun e => hasFlag e.2 StateAttribute.ON := by
    intro n
    rw [find_applyDefineList d l hd hl n, defineListBlock_eq_resolved]
  refine ⟨key, fun n e => ?_, fun _ => rfl⟩
  rw [key n]
  cases resolvedDefine (Assoc.find d.map n) (Assoc.find l n) with
  | none => simp [Option.filter]
  | some x =>
    by_cases hx : hasFlag x.2 StateAttribute.ON = true
    · simp only [Option.filter, hx, if_true, Option.some.injEq]
      constructor
      · intro h
        subst h
        exact ⟨rfl, hx⟩
      · intro h
        exact h.1
    · simp only [Option.filter, hx, if_false, Option.some.injEq]
      constructor
      · intro h
        exact absurd h (by simp)
      · intro h
        rw [h.1] at hx
        exact absurd h.2 hx

/-- Witness of C21: the tracked `A` has the top `1` (ON|OVERRIDE), the incoming list has
`A = 2` (ON) and `B = 3` (ON), and the previous snapshot holds `Z`; the new
snapshot maps `A` to the tracked top and holds no `Z`. -/
theorem applyDefineList_snapshot_witness :
    Assoc.find (applyDefineList
        { map := [("A", { changed := true, defineVec := [("1", 3)] })], changed := true,
          currentDefines := [("Z", ("9", 1))] }
        [("A", ("2", 1)), ("B", ("3", 1))]).currentDefines "A" = some ("1", 3) ∧
    Assoc.find (applyDefineList
        { map := [("A", { changed := true, defineVec := [("1", 3)] })], changed := true,
          currentDefines := [("Z", ("9", 1))] }
        [("A", ("2", 1)), ("B", ("3", 1))]).currentDefines "Z" = none := by
  have hab : KeyOrd.lt "A" "B" = true := by simp [KeyOrd.lt]; decide
  have h := (applyDefineList_snapshot
    { map := [("A", { changed := true, defineVec := [("1", 3)] })], changed := true,
      currentDefines := [("Z", ("9", 1))] }
    [("A", ("2", 1)), ("B", ("3", 1))] (by simp [Assoc.Sorted]) (by simp [Assoc.Sorted, hab])).1
  exact ⟨(h "A").trans (by decide), (h "Z").trans (by decide)⟩

/-! ## The merge of `applyModeList` and `applyAttributeList` -/

theorem applyIncomingMode_eq (t : State) (k : GLMode) (e : Bool) (ms : ModeStack) :
    (if (t.applyModeStack k e ms).1 = true then
        (({ (t.applyModeStack k e ms).2.1 with changed := true } : ModeStack),
          (t.applyModeStack k e ms).2.2)
      else (t.applyModeStack k e ms).2) =
      ((if ms.valid && (ms.last_applied_value != e) then
          { ms with last_applied_value := e, changed := true }
        else ms),
       (t.applyModeStack k e ms).2.2) := by
  have h1 := applyModeStack_fst t k e ms
  have h2 := applyModeStack_ms t k e ms
  by_cases h : (ms.valid && (ms.last_applied_value != e)) = true
  · rw [if_pos h] at h2
    rw [if_pos (h1.trans h), if_pos h]
    exact Prod.ext (by rw [h2]) rfl
  · rw [if_neg h] at h2
    rw [if_neg (by rw [h1]; exact h), if_neg h]
    exact Prod.ext h2 rfl

theorem applyBothMode_override (t : State) (k : GLMode) (ms : ModeStack) (v top : GLModeValue)
    (htop : ms.valueVec.getLast? = some top)
    (hov : hasFlag top StateAttribute.OVERRIDE = true)
    (hpr : hasFlag v StateAttribute.PROTECTED = false) :
    t.applyBothMode k ms v =
      if ms.changed then
        (t.applyModeStack k (hasFlag top StateAttribute.ON) { ms with changed := false }).2
      else (ms, t) := by
  unfold applyBothMode
  rw [htop]
  simp [hov, hpr]

theorem applyBothMode_incoming (t : State) (k : GLMode) (ms : ModeStack) (v : GLModeValue)
    (h : ∀ top, ms.valueVec.getLast? = some top →
      (hasFlag top StateAttribute.OVERRIDE && !(hasFlag v StateAttribute.PROTECTED)) = false) :
    t.applyBothMode k ms v =
      ((if ms.valid && (ms.last_applied_value != hasFlag v StateAttribute.ON) then
          { ms with last_applied_value := hasFlag v StateAttribute.ON, changed := true }
        else ms),
       (t.applyModeStack k (hasFlag v StateAttribute.ON) ms).2.2) := by
  unfold applyBothMode
  cases htop : ms.valueVec.getLast? with
  | none =>
    simp only []
    exact applyIncomingMode_eq t k _ ms
  | some top =>
    simp only []
    rw [if_neg (by rw [h top htop]; exact Bool.false_ne_true)]
    exact applyIncomingMode_eq t k _ ms

theorem find_applyModeList (s : State) (m : ModeMap) (l : ModeList) (hm : Assoc.Sorted m)
    (hl : Assoc.Sorted l) (k : GLMode) :
    (Assoc.find m k = none → Assoc.find l k = none →
      Assoc.find (s.applyModeList m l).1 k = none) ∧
    ((Assoc.find m k).isSome = true ∨ (Assoc.find l k).isSome = true →
      ∃ t : State, Assoc.find (s.applyModeList m l).1 k =
        some (t.modeListBlock (k, Assoc.find m k, Assoc.find l k)).1) := by
  have hf := Assoc.filter_merge Assoc.lawfulLt_nat k m hm l hl
  have ht := Assoc.find_traverse modeListBlock k (Assoc.merge m l) s
  unfold applyModeList
  constructor
  · intro h1 h2
    rw [h1, h2] at hf
    exact ht.1 hf
  · intro h
    have hc : ((Assoc.find m k).isNone && (Assoc.find l k).isNone) = false := by
      rcases h with h | h
      · cases hx : Assoc.find m k with
        | none => rw [hx] at h; exact absurd h (by simp)
        | some x => simp
      · cases hx : Assoc.find l k with
        | none => rw [hx] at h; exact absurd h (by simp)
        | some x => simp
    rw [hc] at hf
    exact ht.2 _ _ hf

theorem applyNewMode_fst (t : State) (k : GLMode) (v : GLModeValue) :
    (t.applyNewMode k v).1 =
      { valid := true, changed := true, last_applied_value := hasFlag v StateAttribute.ON,
        global_default_value := false, valueVec := [] } := by
  unfold applyNewMode
  simp only []
  rw [applyModeStack_ms]
  cases hasFlag v StateAttribute.ON <;> rfl

theorem applyAttributeListIncoming_eq_traverse (l : AttributeList) :
    ∀ s : State, s.applyAttributeListIncoming l =
      Assoc.traverse attributeListBlock s (l.map fun e => (e.1, none, some e.2)) := by
  induction l with
  | nil => intro s; rfl
  | cons hd tl ih =>
    intro s
    obtain ⟨key, incoming⟩ := hd
    simp only [applyAttributeListIncoming, List.map_cons, Assoc.traverse, attributeListBlock]
    rw [ih]

theorem applyAttributeListAt_eq_traverse (key : TypeMemberPair) (as : AttributeStack)
    (next : State → AttributeList → AttributeMap × State)
    (nextKeys : AttributeList →
      List (TypeMemberPair × Option AttributeStack × Option AttributePair))
    (hnext : ∀ s l, next s l = Assoc.traverse attributeListBlock s (nextKeys l))
    (l : AttributeList) :
    ∀ s : State, applyAttributeListAt key as next s l =
      Assoc.traverse attributeListBlock s (Assoc.mergeAt key as nextKeys l) := by
  induction l with
  | nil =>
    intro s
    simp only [applyAttributeListAt, Assoc.mergeAt, Assoc.traverse, attributeListBlock]
    rw [hnext]
  | cons hd tl ih =>
    intro s
    obtain ⟨dkey, incoming⟩ := hd
    rw [applyAttributeListAt, Assoc.mergeAt]
    by_cases h1 : KeyOrd.lt key dkey = true
    · rw [if_pos h1, if_pos h1]
      simp only [Assoc.traverse, attributeListBlock]
      rw [hnext]
    · rw [if_neg h1, if_neg h1]
      by_cases h2 : KeyOrd.lt dkey key = true
      · rw [if_pos h2, if_pos h2]
        simp only [Assoc.traverse, attributeListBlock]
        rw [ih]
      · rw [if_neg h2, if_neg h2]
        simp only [Assoc.traverse, attributeListBlock]
        rw [hnext]

theorem applyAttributeListFrom_eq_traverse (m : AttributeMap) :
    ∀ (s : State) (l : AttributeList), applyAttributeListFrom m s l =
      Assoc.traverse attributeListBlock s (Assoc.merge m l) := by
  induction m with
  | nil =>
    intro s l
    exact applyAttributeListIncoming_eq_traverse l s
  | cons hd tl ih =>
    intro s l
    obtain ⟨key, as⟩ := hd
    exact applyAttributeListAt_eq_traverse key as (applyAttributeListFrom tl) (Assoc.merge tl)
      ih l s

theorem applyNewAttribute_fields (t : State) (incoming : AttributePair) :
    (t.applyNewAttribute incoming).1.attributeVec = [] ∧
    (t.applyNewAttribute incoming).1.last_applied_attribute = some incoming.1 ∧
    (t.applyNewAttribute incoming).1.changed = true := by
  have hs : t.applyAttributeStack incoming.1 default =
      (true, t.applyAttributeBody incoming.1 default) := by
    unfold applyAttributeStack
    rw [if_pos (by rfl)]
  unfold applyNewAttribute
  rw [hs]
  exact ⟨(applyAttributeBody_vec t incoming.1 default).1,
    applyAttributeBody_last t incoming.1 default, rfl⟩

/-- C30: the merge on incoming keys not yet tracked. For a mode map `m` and an incoming list
`l` in key order, after `applyModeList(m, l)` every key of `l` is present in the
map, and a key of `l` that was not tracked has a stack with an empty `valueVec`,
`last_applied_value` equal to the ON bit of the incoming value and `changed`
true. Likewise after `applyAttributeList` every incoming key is present, and
one that was not tracked has an empty `attributeVec`, `last_applied_attribute`
equal to the incoming attribute and `changed` true. -/
theorem applyList_inserts_untracked_keys (s : State) (m : ModeMap) (l : ModeList)
    (am : AttributeMap) (al : AttributeList) (hm : Assoc.Sorted m) (hl : Assoc.Sorted l)
    (ham : Assoc.Sorted am) (hal : Assoc.Sorted al) :
    (∀ k v, Assoc.find l k = some v → (Assoc.find (s.applyModeList m l).1 k).isSome = true) ∧
    (∀ k v, Assoc.find l k = some v → Assoc.find m k = none →
      ∃ ms : ModeStack, Assoc.find (s.applyModeList m l).1 k = some ms ∧
        ms.valueVec = [] ∧ ms.last_applied_value = hasFlag v StateAttribute.ON ∧
        ms.changed = true) ∧
    (∀ k inc, Assoc.find al k = some inc →
      (Assoc.find (s.applyAttributeList am al).1 k).isSome = true) ∧
    (∀ k inc, Assoc.find al k = some inc → Assoc.find am k = none →
      ∃ as : AttributeStack, Assoc.find (s.applyAttributeList am al).1 k = some as ∧
        as.attributeVec = [] ∧ as.last_applied_attribute = some inc.1 ∧ as.changed = true) := by
  have hattr : ∀ k inc, Assoc.find al k = some inc →
      ∃ t : State, Assoc.find (s.applyAttributeList am al).1 k =
        some (t.attributeListBlock (k, Assoc.find am k, some inc)).1 := by
    intro k inc hk
    have hf := Assoc.filter_merge Assoc.lawfulLt_typeMemberPair k am ham al hal
    rw [hk] at hf
    simp only [Option.isNone_some, Bool.and_false, Bool.false_eq_true, if_false] at hf
    unfold applyAttributeList
    rw [applyAttributeListFrom_eq_traverse]
    exact (Assoc.find_traverse attributeListBlock k (Assoc.merge am al) s).2 _ _ hf
  refine ⟨fun k v hk => ?_, fun k v hk hn => ?_, fun k inc hk => ?_, fun k inc hk hn => ?_⟩
  · obtain ⟨t, ht⟩ := (find_applyModeList s m l hm hl k).2 (Or.inr (by rw [hk]; rfl))
    rw [ht]
    rfl
  · obtain ⟨t, ht⟩ := (find_applyModeList s m l hm hl k).2 (Or.inr (by rw [hk]; rfl))
    rw [hk, hn] at ht
    refine ⟨_, ht, ?_⟩
    show (t.applyNewMode k v).1.valueVec = [] ∧
      (t.applyNewMode k v).1.last_applied_value = hasFlag v StateAttribute.ON ∧
      (t.applyNewMode k v).1.changed = true
    rw [applyNewMode_fst]
    exact ⟨rfl, rfl, rfl⟩
  · obtain ⟨t, ht⟩ := hattr k inc hk
    rw [ht]
    rfl
  · obtain ⟨t, ht⟩ := hattr k inc hk
    rw [hn] at ht
    exact ⟨_, ht, applyNewAttribute_fields t inc⟩

/-- Witness of C30: the mode 2884 and the attribute key (9, 0) are incoming and not tracked. -/
theorem applyList_inserts_untracked_keys_witness :
    (Assoc.find (sampleState.applyModeList [] [(2884, 1)]).1 2884).isSome = true ∧
    (Assoc.find (sampleState.applyAttributeList []
      [(⟨9, 0⟩, (sampleAttribute 1 [7], 1))]).1 ⟨9, 0⟩).isSome = true :=
  ⟨(applyList_inserts_untracked_keys sampleState [] [(2884, 1)] []
      [(⟨9, 0⟩, (sampleAttribute 1 [7], 1))] (by simp [Assoc.Sorted]) (by simp [Assoc.Sorted])
      (by simp [Assoc.Sorted]) (by simp [Assoc.Sorted])).1 2884 1 (by decide),
   (applyList_inserts_untracked_keys sampleState [] [(2884, 1)] []
      [(⟨9, 0⟩, (sampleAttribute 1 [7], 1))] (by simp [Assoc.Sorted]) (by simp [Assoc.Sorted])
      (by simp [Assoc.Sorted]) (by simp [Assoc.Sorted])).2.2.1 ⟨9, 0⟩ (sampleAttribute 1 [7], 1)
      (by decide)⟩

/-! ## The global default, shader composition and the dynamic count -/

theorem ptrEq_refl (p : Option Attribute) : ptrEq p p = true := by
  cases p <;> simp [ptrEq, Attribute.same]

/-- C40: `applyGlobalDefaultAttribute(as)` returns true exactly when `last_applied_attribute`
differs from `global_default_attribute` before the call; afterwards
`last_applied_attribute` equals `global_default_attribute`, which the call does
not change; when the global default is null and an attribute was applied
before, it returns true, resets `last_applied_attribute` to null and leaves the
state as it is, so no attribute apply routine is invoked. -/
theorem applyGlobalDefaultAttribute_spec (s : State) (as : AttributeStack) :
    ((s.applyGlobalDefaultAttribute as).1 = true ↔
      ptrEq as.last_applied_attribute as.global_default_attribute = false) ∧
    (s.applyGlobalDefaultAttribute as).2.1.global_default_attribute =
      as.global_default_attribute ∧
    ptrEq (s.applyGlobalDefaultAttribute as).2.1.last_applied_attribute
      as.global_default_attribute = true ∧
    ((s.applyGlobalDefaultAttribute as).1 = true →
      (s.applyGlobalDefaultAttribute as).2.1.last_applied_attribute =
        as.global_default_attribute) ∧
    (∀ a : Attribute, as.global_default_attribute = none →
      as.last_applied_attribute = some a →
      s.applyGlobalDefaultAttribute as = (true, { as with last_applied_attribute := none }, s)) := by
  refine ⟨?_, applyGlobalDefaultAttribute_default s as, ?_, ?_, ?_⟩
  · unfold applyGlobalDefaultAttribute
    cases h : ptrEq as.last_applied_attribute as.global_default_attribute
    · cases hg : as.global_default_attribute <;> simp
    · simp
  · unfold applyGlobalDefaultAttribute
    cases h : ptrEq as.last_applied_attribute as.global_default_attribute
    · cases hg : as.global_default_attribute with
      | none => simp [ptrEq]
      | some d => simp [applyGlobalDefaultBody_eq, ptrEq, Attribute.same]
    · simpa using h
  · unfold applyGlobalDefaultAttribute
    cases h : ptrEq as.last_applied_attribute as.global_default_attribute
    · cases hg : as.global_default_attribute with
      | none => simp
      | some d => simp [applyGlobalDefaultBody_eq]
    · simp
  · intro a hg ha
    unfold applyGlobalDefaultAttribute
    rw [hg, ha]
    simp [ptrEq]

/-- C32: shader-composition dirtiness. When `attr` is not the instance last applied,
`applyAttribute(attr, as)` sets `_shaderCompositionDirty` to true and
`last_applied_shadercomponent` to the shader component of `attr` if that
component differs from the one last applied, and leaves both as they are if it
is the same; when `attr` is the instance last applied neither is changed. -/
theorem applyAttributeStack_shader_composition (s : State) (attr : Attribute)
    (as : AttributeStack) :
    (ptrEq as.last_applied_attribute (some attr) = false →
      (as.last_applied_shadercomponent ≠ attr.shaderComponent →
        (s.applyAttributeStack attr as).2.2._shaderCompositionDirty = true ∧
        (s.applyAttributeStack attr as).2.1.last_applied_shadercomponent =
          attr.shaderComponent) ∧
      (as.last_applied_shadercomponent = attr.shaderComponent →
        (s.applyAttributeStack attr as).2.2._shaderCompositionDirty =
          s._shaderCompositionDirty ∧
        (s.applyAttributeStack attr as).2.1.last_applied_shadercomponent =
          as.last_applied_shadercomponent)) ∧
    (ptrEq as.last_applied_attribute (some attr) = true →
      (s.applyAttributeStack attr as).2.2._shaderCompositionDirty = s._shaderCompositionDirty ∧
      (s.applyAttributeStack attr as).2.1.last_applied_shadercomponent =
        as.last_applied_shadercomponent) := by
  unfold applyAttributeStack
  constructor
  · intro h
    rw [h]
    simp only [Bool.not_false, if_true]
    rw [applyAttributeBody_eq]
    constructor
    · intro hne
      simp [hne]
    · intro heq
      simp [heq]
  · intro h
    rw [h]
    simp

theorem decrementDynamicObjectCount_fields (s : State) :
    s.decrementDynamicObjectCount._dynamicObjectCount =
      (2 ^ 32 - 1 + s._dynamicObjectCount) % 2 ^ 32 ∧
    s.decrementDynamicObjectCount.completedCalls =
      (if (2 ^ 32 - 1 + s._dynamicObjectCount) % 2 ^ 32 = 0 then
        s.completedCalls ++ s._completeDynamicObjectRenderingCallback.toList
       else s.completedCalls) := by
  unfold decrementDynamicObjectCount
  generalize (2 ^ 32 - 1 + s._dynamicObjectCount) % 2 ^ 32 = m
  by_cases h : m = 0
  · cases hc : s._completeDynamicObjectRenderingCallback <;> simp [h, hc]
  · simp [h]

/-- C38: decrement below zero wraps. For a state whose dynamic object count (an
`unsigned int`) is 0, `decrementDynamicObjectCount()` sets the count to
`2^32 - 1` and invokes no callback; in general a decrement invokes the callback
exactly when the count before it is 1 and a callback is registered, and then
once. -/
theorem decrementDynamicObjectCount_wraps (s : State) (hlt : s._dynamicObjectCount < 2 ^ 32) :
    (s._dynamicObjectCount = 0 →
      s.decrementDynamicObjectCount.getDynamicObjectCount = 2 ^ 32 - 1 ∧
      s.decrementDynamicObjectCount.completedCalls = s.completedCalls) ∧
    (s.decrementDynamicObjectCount.completedCalls ≠ s.completedCalls ↔
      (s._dynamicObjectCount = 1 ∧
        s._completeDynamicObjectRenderingCallback.isSome = true)) ∧
    (∀ cb, s._dynamicObjectCount = 1 → s._completeDynamicObjectRenderingCallback = some cb →
      s.decrementDynamicObjectCount.completedCalls = s.completedCalls ++ [cb]) := by
  obtain ⟨h1, h2⟩ := decrementDynamicObjectCount_fields s
  unfold getDynamicObjectCount
  rw [h1, h2]
  have hz : (2 ^ 32 - 1 + s._dynamicObjectCount) % 2 ^ 32 = 0 ↔ s._dynamicObjectCount = 1 := by
    omega
  refine ⟨fun h0 => ?_, ?_, fun cb hone hcb => ?_⟩
  · have hne : ¬ (2 ^ 32 - 1 + s._dynamicObjectCount) % 2 ^ 32 = 0 := by
      rw [hz, h0]
      decide
    rw [if_neg hne, h0]
    exact ⟨rfl, rfl⟩
  · by_cases hone : s._dynamicObjectCount = 1
    · rw [if_pos (hz.2 hone)]
      cases hc : s._completeDynamicObjectRenderingCallback with
      | none => simp [hone]
      | some cb => simp [hone]
    · rw [if_neg (fun h => hone (hz.1 h))]
      simp [hone]
  · rw [if_pos (hz.2 hone), hcb]
    rfl

/-- Witness of C38: from a count of 0 with the callback 7 registered, the count wraps to
`2^32 - 1` and no callback is invoked. -/
theorem decrementDynamicObjectCount_wraps_witness :
    (({ sampleState with _completeDynamicObjectRenderingCallback := some 7 } :
      State).decrementDynamicObjectCount).getDynamicObjectCount = 4294967295 ∧
    (({ sampleState with _completeDynamicObjectRenderingCallback := some 7 } :
      State).decrementDynamicObjectCount).completedCalls = [] :=
  (decrementDynamicObjectCount_wraps
    ({ sampleState with _completeDynamicObjectRenderingCallback := some 7 } : State)
    (by decide)).1 rfl

/-! ## The merge with an empty list, and tracked keys -/

theorem applyModeList_nil (m : ModeMap) :
    ∀ s : State, s.applyModeList m [] = s.applyModeMap m := by
  induction m with
  | nil => intro s; rfl
  | cons hd tl ih =>
    intro s
    obtain ⟨k, ms⟩ := hd
    have h := ih (s.applyTrackedMode k ms).2
    unfold applyModeList at h
    show Assoc.traverse modeListBlock s ((k, some ms, none) :: Assoc.merge tl []) = _
    have hb : modeListBlock s (k, some ms, none) = s.applyTrackedMode k ms := rfl
    simp only [Assoc.traverse, applyModeMap]
    rw [hb, h]

theorem applyAttributeList_nil (m : AttributeMap) :
    ∀ s : State, s.applyAttributeList m [] = s.applyAttributeMap m := by
  induction m with
  | nil => intro s; rfl
  | cons hd tl ih =>
    intro s
    obtain ⟨key, as⟩ := hd
    have h := ih (s.applyTrackedAttribute as).2
    unfold applyAttributeList at h
    show applyAttributeListAt key as (applyAttributeListFrom tl) s [] = _
    simp only [applyAttributeListAt, applyAttributeMap]
    rw [h]

theorem uniformListCalls_nil (p : Nat) (u : UniformMap) :
    uniformListCalls p u [] = uniformMapCalls p u := by
  unfold uniformListCalls uniformMapCalls
  induction u with
  | nil => rfl
  | cons hd tl ih =>
    obtain ⟨k, us⟩ := hd
    show ((k, some us, none) :: Assoc.merge tl []).flatMap (uniformListBlock p) = _
    rw [List.flatMap_cons, List.flatMap_cons, ih]
    rfl

/-- C35: the merge with an empty incoming list is the plain map apply. `applyModeList(m, [])`
returns the same map and the same state, so the same sequence of driver calls,
as `applyModeMap(m)`; likewise `applyAttributeList(a, [])` and
`applyAttributeMap(a)`, and `applyUniformList(u, [])` and `applyUniformMap(u)`. -/
theorem apply_list_empty_is_apply_map :
    (∀ (s : State) (m : ModeMap), s.applyModeList m [] = s.applyModeMap m) ∧
    (∀ (s : State) (a : AttributeMap), s.applyAttributeList a [] = s.applyAttributeMap a) ∧
    (∀ (s : State) (u : UniformMap), s.applyUniformList u [] = s.applyUniformMap u) := by
  refine ⟨fun s m => applyModeList_nil m s, fun s a => applyAttributeList_nil a s, fun s u => ?_⟩
  unfold applyUniformList applyUniformMap
  cases s._lastAppliedProgramObject with
  | none => rfl
  | some p => simp only [uniformListCalls_nil]

theorem applyTrackedMode_dirty (t : State) (k : GLMode) (ms : ModeStack)
    (h : ms.changed = true) :
    t.applyTrackedMode k ms =
      (t.applyModeStack k (effectiveModeValue ms) { ms with changed := false }).2 := by
  unfold applyTrackedMode effectiveModeValue
  rw [if_pos h]
  cases hx : ms.valueVec.getLast? <;> simp [hx]

theorem applyTrackedMode_fst_indep (t t2 : State) (k : GLMode) (ms : ModeStack) :
    (t.applyTrackedMode k ms).1 = (t2.applyTrackedMode k ms).1 := by
  rw [applyTrackedMode_fst, applyTrackedMode_fst]

/-- C31: the merge on a tracked key with no incoming value. For a map `m` and an incoming
list `l` in key order and a key `k` tracked in `m` with the stack `ms` and absent
from `l`, `applyModeList(m, l)` leaves for `k` the stack the block for a tracked
key leaves, whatever state the merge has reached. If `k` is not dirty the block
changes nothing. If `k` is dirty the block clears `changed` and keeps the other
fields but `last_applied_value`; when `k` is valid `last_applied_value` becomes
the effective value (the ON bit of the stack top, or `global_default_value`
for an empty stack) and one driver call is issued if that value differs from
the value last applied, none if it does not; when `k` is invalid
`last_applied_value` stays and no driver call is issued. -/
theorem applyModeList_tracked_only (s : State) (m : ModeMap) (l : ModeList) (k : GLMode)
    (ms : ModeStack) (hm : Assoc.Sorted m) (hl : Assoc.Sorted l)
    (hfm : Assoc.find m k = some ms) (hfl : Assoc.find l k = none) :
    (∀ t : State, Assoc.find (s.applyModeList m l).1 k = some (t.applyTrackedMode k ms).1) ∧
    (ms.changed = false → ∀ t : State, t.applyTrackedMode k ms = (ms, t)) ∧
    (ms.changed = true → ∀ t : State,
      (t.applyTrackedMode k ms).1.changed = false ∧
      (t.applyTrackedMode k ms).1.valid = ms.valid ∧
      (t.applyTrackedMode k ms).1.global_default_value = ms.global_default_value ∧
      (t.applyTrackedMode k ms).1.valueVec = ms.valueVec ∧
      (ms.valid = true →
        (t.applyTrackedMode k ms).1.last_applied_value = effectiveModeValue ms ∧
        (t.applyTrackedMode k ms).2.glCalls =
          if ms.last_applied_value != effectiveModeValue ms then
            t.glCalls ++ [if effectiveModeValue ms then GLCall.glEnable k
                          else GLCall.glDisable k]
          else t.glCalls) ∧
      (ms.valid = false →
        (t.applyTrackedMode k ms).1.last_applied_value = ms.last_applied_value ∧
        (t.applyTrackedMode k ms).2.glCalls = t.glCalls)) := by
  refine ⟨fun t => ?_, fun hc t => applyTrackedMode_clean t k ms hc, fun hc t => ?_⟩
  · obtain ⟨t0, h0⟩ := (find_applyModeList s m l hm hl k).2 (Or.inl (by rw [hfm]; rfl))
    rw [h0, hfm, hfl]
    exact congrArg some (applyTrackedMode_fst_indep t0 t k ms)
  · rw [applyTrackedMode_dirty t k ms hc, applyModeStack_ms, applyModeStack_glCalls]
    refine ⟨?_, ?_, ?_, ?_, fun hv => ?_, fun hv => ?_⟩
    · split <;> rfl
    · split <;> rfl
    · split <;> rfl
    · split <;> rfl
    · simp only [hv, Bool.true_and]
      refine ⟨?_, trivial⟩
      cases hx : (ms.last_applied_value != effectiveModeValue ms)
      · simp only [Bool.false_eq_true, if_false]
        simpa using hx
      · simp
    · simp [hv]

/-- Witness of C31: the mode 2884 is tracked, valid, dirty, last applied off, with the top 1
(ON), and not incoming; after the merge it is clean and the value last applied is on. -/
theorem applyModeList_tracked_only_witness :
    Assoc.find (sampleState.applyModeList
        [(2884, { valid := true, changed := true, last_applied_value := false,
                  global_default_value := false, valueVec := [1] })]
        [(3042, 1)]).1 2884 =
      some { valid := true, changed := false, last_applied_value := true,
             global_default_value := false, valueVec := [1] } :=
  ((applyModeList_tracked_only sampleState
      [(2884, { valid := true, changed := true, last_applied_value := false,
                global_default_value := false, valueVec := [1] })]
      [(3042, 1)] 2884
      { valid := true, changed := true, last_applied_value := false,
        global_default_value := false, valueVec := [1] }
      (by simp [Assoc.Sorted]) (by simp [Assoc.Sorted]) (by decide) (by decide)).1
    sampleState).trans (by decide)

/-! ## Texture units -/

theorem applyAttributeOnTexUnit_of_false (s : State) (unit : Nat) (attr : Attribute)
    (as : AttributeStack) (h : (s.setActiveTextureUnit unit).1 = false) :
    s.applyAttributeOnTexUnit unit attr as = (false, as, s) := by
  unfold applyAttributeOnTexUnit
  split
  · simp [h, setActiveTextureUnit_false s unit h]
  · rfl

theorem applyGlobalDefaultAttributeOnTexUnit_of_false (s : State) (unit : Nat)
    (as : AttributeStack) (h : (s.setActiveTextureUnit unit).1 = false) :
    s.applyGlobalDefaultAttributeOnTexUnit unit as = (false, as, s) := by
  unfold applyGlobalDefaultAttributeOnTexUnit
  split
  · simp [h, setActiveTextureUnit_false s unit h]
  · rfl

theorem applyTrackedModeOnTexUnit_of_false (s : State) (unit : Nat) (mode : GLMode)
    (ms : ModeStack) (h : (s.setActiveTextureUnit unit).1 = false) :
    s.applyTrackedModeOnTexUnit unit mode ms = ({ ms with changed := false }, s) := by
  obtain ⟨valid, changed, last, dflt, vec⟩ := ms
  unfold applyTrackedModeOnTexUnit
  cases changed
  · rfl
  · simp only [if_true]
    cases vec.getLast? <;> simp [applyModeOnTexUnit_of_false _ _ _ _ _ h]

theorem applyTrackedModeOnTexUnit_clean (s : State) (unit : Nat) (mode : GLMode)
    (ms : ModeStack) (h : ms.changed = false) :
    s.applyTrackedModeOnTexUnit unit mode ms = (ms, s) := by
  simp [applyTrackedModeOnTexUnit, h]

theorem applyModeMapOnTexUnit_of_false (s : State) (unit : Nat)
    (h : (s.setActiveTextureUnit unit).1 = false) (m : ModeMap) :
    s.applyModeMapOnTexUnit unit m = (m.map fun e => (e.1, { e.2 with changed := false }), s) := by
  induction m with
  | nil => rfl
  | cons hd tl ih =>
    obtain ⟨k, ms⟩ := hd
    simp only [applyModeMapOnTexUnit, applyTrackedModeOnTexUnit_of_false s unit k ms h, ih,
      List.map_cons]

theorem applyModeMapOnTexUnit_clean (m : ModeMap) :
    ∀ (s : State) (unit : Nat), (∀ e ∈ m, e.2.changed = false) →
      s.applyModeMapOnTexUnit unit m = (m, s) := by
  induction m with
  | nil => intro s unit _; rfl
  | cons hd tl ih =>
    intro s unit h
    obtain ⟨k, ms⟩ := hd
    have h1 : ms.changed = false := h (k, ms) (List.mem_cons_self _ _)
    simp only [applyModeMapOnTexUnit, applyTrackedModeOnTexUnit_clean s unit k ms h1,
      ih s unit (fun e he => h e (List.mem_cons_of_mem _ he))]

theorem applyTrackedAttributeOnTexUnit_of_false (s : State) (unit : Nat)
    (as : AttributeStack) (h : (s.setActiveTextureUnit unit).1 = false) :
    s.applyTrackedAttributeOnTexUnit unit as = ({ as with changed := false }, s) := by
  obtain ⟨changed, last, sc, dflt, vec⟩ := as
  unfold applyTrackedAttributeOnTexUnit
  cases changed
  · rfl
  · simp only [if_true]
    cases vec.getLast? <;>
      simp [applyAttributeOnTexUnit_of_false _ _ _ _ h,
        applyGlobalDefaultAttributeOnTexUnit_of_false _ _ _ h]

theorem applyTrackedAttributeOnTexUnit_clean (s : State) (unit : Nat)
    (as : AttributeStack) (h : as.changed = false) :
    s.applyTrackedAttributeOnTexUnit unit as = (as, s) := by
  simp [applyTrackedAttributeOnTexUnit, h]

theorem applyAttributeMapOnTexUnit_of_false (s : State) (unit : Nat)
    (h : (s.setActiveTextureUnit unit).1 = false) (m : AttributeMap) :
    s.applyAttributeMapOnTexUnit unit m =
      (m.map fun e => (e.1, { e.2 with changed := false }), s) := by
  induction m with
  | nil => rfl
  | cons hd tl ih =>
    obtain ⟨k, as⟩ := hd
    simp only [applyAttributeMapOnTexUnit, applyTrackedAttributeOnTexUnit_of_false s unit as h,
      ih, List.map_cons]

theorem applyAttributeMapOnTexUnit_clean (m : AttributeMap) :
    ∀ (s : State) (unit : Nat), (∀ e ∈ m, e.2.changed = false) →
      s.applyAttributeMapOnTexUnit unit m = (m, s) := by
  induction m with
  | nil => intro s unit _; rfl
  | cons hd tl ih =>
    intro s unit h
    obtain ⟨k, as⟩ := hd
    have h1 : as.changed = false := h (k, as) (List.mem_cons_self _ _)
    simp only [applyAttributeMapOnTexUnit, applyTrackedAttributeOnTexUnit_clean s unit as h1,
      ih s unit (fun e he => h e (List.mem_cons_of_mem _ he))]

/-- C36: dirty flags are consumed even when unit selection fails. When
`setActiveTextureUnit(unit)` returns false, `applyModeMapOnTexUnit(unit, m)` returns
the map `m` with `changed` set to false in every stack and every other field,
`last_applied_value` among them, as it was, and leaves the state as it is, so
it issues no driver call; a following `applyModeMapOnTexUnit`, in any state
and for any unit, finds every stack clean and changes nothing, so a key that
had not converged is not retried. The same holds for
`applyAttributeMapOnTexUnit`. -/
theorem applyMapOnTexUnit_failed_selection (s : State) (unit : Nat)
    (h : (s.setActiveTextureUnit unit).1 = false) :
    (∀ m : ModeMap, s.applyModeMapOnTexUnit unit m =
      (m.map fun e => (e.1, { e.2 with changed := false }), s)) ∧
    (∀ (m : ModeMap) (t : State) (unit2 : Nat),
      t.applyModeMapOnTexUnit unit2 (s.applyModeMapOnTexUnit unit m).1 =
        ((s.applyModeMapOnTexUnit unit m).1, t)) ∧
    (∀ m : AttributeMap, s.applyAttributeMapOnTexUnit unit m =
      (m.map fun e => (e.1, { e.2 with changed := false }), s)) ∧
    (∀ (m : AttributeMap) (t : State) (unit2 : Nat),
      t.applyAttributeMapOnTexUnit unit2 (s.applyAttributeMapOnTexUnit unit m).1 =
        ((s.applyAttributeMapOnTexUnit unit m).1, t)) := by
  refine ⟨applyModeMapOnTexUnit_of_false s unit h, fun m t unit2 => ?_,
    applyAttributeMapOnTexUnit_of_false s unit h, fun m t unit2 => ?_⟩
  · apply applyModeMapOnTexUnit_clean
    rw [applyModeMapOnTexUnit_of_false s unit h]
    intro e he
    obtain ⟨e0, _, rfl⟩ := List.mem_map.1 he
    rfl
  · apply applyAttributeMapOnTexUnit_clean
    rw [applyAttributeMapOnTexUnit_of_false s unit h]
    intro e he
    obtain ⟨e0, _, rfl⟩ := List.mem_map.1 he
    rfl

/-- Witness of C36: unit 5 with four texture units and unit 0 active; the mode 2884 is dirty
with the top 1 (ON) and last applied off: the flag is cleared, the value last
applied stays off and the state is unchanged. -/
theorem applyMapOnTexUnit_failed_selection_witness :
    sampleState.applyModeMapOnTexUnit 5
        [(2884, { valid := true, changed := true, last_applied_value := false,
                  global_default_value := false, valueVec := [1] })] =
      ([(2884, { valid := true, changed := false, last_applied_value := false,
                 global_default_value := false, valueVec := [1] })], sampleState) :=
  (applyMapOnTexUnit_failed_selection sampleState 5 (by decide)).1
    [(2884, { valid := true, changed := true, last_applied_value := false,
              global_default_value := false, valueVec := [1] })]

theorem lastActiveTexture_append_singleton (calls : List GLCall) (c : GLCall) :
    lastActiveTexture (calls ++ [c]) =
      match c with
      | GLCall.glActiveTexture texture => some texture
      | _ => lastActiveTexture calls := by
  unfold lastActiveTexture
  rw [List.foldl_append]
  cases c <;> rfl

theorem sameSelection_refl (s : State) : sameSelection s s :=
  ⟨rfl, rfl, rfl, rfl, rfl⟩

theorem activeUnitInvariant_of_sameSelection (t u : State) (h : sameSelection t u)
    (hu : activeUnitInvariant u) : activeUnitInvariant t := by
  obtain ⟨h1, _, h3, h4, h5⟩ := h
  unfold activeUnitInvariant textureUnitLimit at hu ⊢
  rw [h1, h3, h4, h5]
  exact hu

theorem setActiveTextureUnit_invariant (s : State) (unit : Nat) (h : activeUnitInvariant s) :
    activeUnitInvariant (s.setActiveTextureUnit unit).2 ∧
    (s.setActiveTextureUnit unit).2._glActiveTexture = s._glActiveTexture ∧
    (s.setActiveTextureUnit unit).2._glMaxTextureCoords = s._glMaxTextureCoords ∧
    (s.setActiveTextureUnit unit).2._glMaxTextureUnits = s._glMaxTextureUnits := by
  rw [setActiveTextureUnit_eq]
  by_cases h1 : unit = s._currentActiveTextureUnit
  · rw [if_pos h1]
    exact ⟨h, rfl, rfl, rfl⟩
  · rw [if_neg h1]
    by_cases h2 : s._glActiveTexture = true ∧ unit < s.textureUnitLimit
    · rw [if_pos h2]
      refine ⟨?_, rfl, rfl, rfl⟩
      unfold activeUnitInvariant
      refine ⟨Or.inr h2.2, ?_⟩
      show (match lastActiveTexture
          (s.glCalls ++ [GLCall.glActiveTexture ((GL_TEXTURE0 + unit) % 2 ^ 32)]) with
        | none => unit = 0
        | some texture => texture = (GL_TEXTURE0 + unit) % 2 ^ 32)
      rw [lastActiveTexture_append_singleton]
    · rw [if_neg h2]
      exact ⟨h, rfl, rfl, rfl⟩

theorem applyModeOnTexUnit_sameSelection (s : State) (unit : Nat) (mode : GLMode)
    (enabled : Bool) (ms : ModeStack) :
    sameSelection (s.applyModeOnTexUnit unit mode enabled ms).2.2 s ∨
    sameSelection (s.applyModeOnTexUnit unit mode enabled ms).2.2 (s.setActiveTextureUnit unit).2 := by
  unfold applyModeOnTexUnit
  by_cases h1 : (ms.valid && (ms.last_applied_value != enabled)) = true
  · rw [if_pos h1]
    right
    by_cases h2 : (s.setActiveTextureUnit unit).1 = true
    · simp only [h2, if_true]
      cases enabled <;>
        by_cases h3 : (s.setActiveTextureUnit unit).2._checkGLErrors =
          CheckForGLErrors.ONCE_PER_ATTRIBUTE <;>
        simp [h3, sameSelection, checkGLErrorsMode, lastActiveTexture_append_singleton]
    · simp only [h2, if_false]
      exact sameSelection_refl _
  · rw [if_neg h1]
    left
    exact sameSelection_refl _

theorem applyAttributeOnTexUnit_sameSelection (s : State) (unit : Nat) (attr : Attribute)
    (as : AttributeStack) :
    sameSelection (s.applyAttributeOnTexUnit unit attr as).2.2 s ∨
    sameSelection (s.applyAttributeOnTexUnit unit attr as).2.2
      (s.setActiveTextureUnit unit).2 := by
  unfold applyAttributeOnTexUnit
  by_cases h1 : (!(ptrEq as.last_applied_attribute (some attr))) = true
  · rw [if_pos h1]
    right
    by_cases h2 : (s.setActiveTextureUnit unit).1 = true
    · simp only [h2, if_true]
      rw [applyAttributeBody_eq]
      simp [sameSelection, lastActiveTexture_append_singleton]
    · simp only [h2, if_false]
      exact sameSelection_refl _
  · rw [if_neg h1]
    left
    exact sameSelection_refl _

theorem runTexUnitCall_invariant (s : State) (call : TexUnitCall) (h : activeUnitInvariant s) :
    activeUnitInvariant (runTexUnitCall s call) ∧
    (runTexUnitCall s call)._glActiveTexture = s._glActiveTexture ∧
    (runTexUnitCall s call)._glMaxTextureCoords = s._glMaxTextureCoords ∧
    (runTexUnitCall s call)._glMaxTextureUnits = s._glMaxTextureUnits := by
  have hset := setActiveTextureUnit_invariant s
  cases call with
  | setActiveTextureUnit unit => exact hset unit h
  | applyModeOnTexUnit unit mode enabled ms =>
    rcases applyModeOnTexUnit_sameSelection s unit mode enabled ms with hs | hs
    · exact ⟨activeUnitInvariant_of_sameSelection _ _ hs h, hs.2.1, hs.2.2.1, hs.2.2.2.1⟩
    · obtain ⟨i1, i2, i3, i4⟩ := hset unit h
      exact ⟨activeUnitInvariant_of_sameSelection _ _ hs i1, hs.2.1.trans i2,
        hs.2.2.1.trans i3, hs.2.2.2.1.trans i4⟩
  | applyAttributeOnTexUnit unit attr as =>
    rcases applyAttributeOnTexUnit_sameSelection s unit attr as with hs | hs
    · exact ⟨activeUnitInvariant_of_sameSelection _ _ hs h, hs.2.1, hs.2.2.1, hs.2.2.2.1⟩
    · obtain ⟨i1, i2, i3, i4⟩ := hset unit h
      exact ⟨activeUnitInvariant_of_sameSelection _ _ hs i1, hs.2.1.trans i2,
        hs.2.2.1.trans i3, hs.2.2.2.1.trans i4⟩

theorem runTexUnitCalls_invariant (calls : List TexUnitCall) :
    ∀ s : State, activeUnitInvariant s →
      activeUnitInvariant (runTexUnitCalls s calls) ∧
      (runTexUnitCalls s calls)._glActiveTexture = s._glActiveTexture ∧
      (runTexUnitCalls s calls)._glMaxTextureCoords = s._glMaxTextureCoords ∧
      (runTexUnitCalls s calls)._glMaxTextureUnits = s._glMaxTextureUnits := by
  induction calls with
  | nil => intro s h; exact ⟨h, rfl, rfl, rfl⟩
  | cons call rest ih =>
    intro s h
    obtain ⟨i1, i2, i3, i4⟩ := runTexUnitCall_invariant s call h
    obtain ⟨j1, j2, j3, j4⟩ := ih (runTexUnitCall s call) i1
    exact ⟨j1, j2.trans i2, j3.trans i3, j4.trans i4⟩

/-- C37: the active-unit invariant. From a state in which `_currentActiveTextureUnit` is 0 and
no `_glActiveTexture` call has been made, after any sequence of
`setActiveTextureUnit`, `applyModeOnTexUnit` and `applyAttributeOnTexUnit` calls
the members `_glActiveTexture`, `_glMaxTextureCoords` and `_glMaxTextureUnits` are
as they were, `_currentActiveTextureUnit` is 0 or below the bound
`setActiveTextureUnit` compares against, which for limits that are not negative
is at most their maximum, and `_currentActiveTextureUnit` is the unit of the
most recent `_glActiveTexture` call, or 0 when none was made. -/
theorem active_unit_invariant (s : State) (calls : List TexUnitCall)
    (h0 : s._currentActiveTextureUnit = 0) (hlog : lastActiveTexture s.glCalls = none) :
    (runTexUnitCalls s calls)._glActiveTexture = s._glActiveTexture ∧
    (runTexUnitCalls s calls)._glMaxTextureCoords = s._glMaxTextureCoords ∧
    (runTexUnitCalls s calls)._glMaxTextureUnits = s._glMaxTextureUnits ∧
    ((runTexUnitCalls s calls)._currentActiveTextureUnit = 0 ∨
      (runTexUnitCalls s calls)._currentActiveTextureUnit < s.textureUnitLimit) ∧
    (0 ≤ max s._glMaxTextureCoords s._glMaxTextureUnits →
      (runTexUnitCalls s calls)._currentActiveTextureUnit = 0 ∨
      ((runTexUnitCalls s calls)._currentActiveTextureUnit : Int) <
        max s._glMaxTextureCoords s._glMaxTextureUnits) ∧
    (match lastActiveTexture (runTexUnitCalls s calls).glCalls with
      | none => (runTexUnitCalls s calls)._currentActiveTextureUnit = 0
      | some texture =>
        texture = (GL_TEXTURE0 + (runTexUnitCalls s calls)._currentActiveTextureUnit) % 2 ^ 32) := by
  have hinit : activeUnitInvariant s := by
    unfold activeUnitInvariant
    rw [hlog]
    exact ⟨Or.inl h0, h0⟩
  obtain ⟨⟨i1, i2⟩, j2, j3, j4⟩ := runTexUnitCalls_invariant calls s hinit
  have hlimit : (runTexUnitCalls s calls).textureUnitLimit = s.textureUnitLimit := by
    unfold textureUnitLimit
    rw [j3, j4]
  rw [hlimit] at i1
  refine ⟨j2, j3, j4, i1, fun hpos => ?_, i2⟩
  rcases i1 with h | h
  · exact Or.inl h
  · right
    unfold textureUnitLimit at h
    omega

/-- Witness of C37: from `sampleState`, selecting unit 2, then the out-of-range unit 9, then
applying a mode on unit 3 leaves unit 3 active, the unit of the last
`_glActiveTexture` call. -/
theorem active_unit_invariant_witness :
    (runTexUnitCalls sampleState
      [TexUnitCall.setActiveTextureUnit 2, TexUnitCall.setActiveTextureUnit 9,
       TexUnitCall.applyModeOnTexUnit 3 2884 true default])._currentActiveTextureUnit = 3 ∧
    ((runTexUnitCalls sampleState
      [TexUnitCall.setActiveTextureUnit 2, TexUnitCall.setActiveTextureUnit 9,
       TexUnitCall.applyModeOnTexUnit 3 2884 true default])._currentActiveTextureUnit = 0 ∨
     (runTexUnitCalls sampleState
      [TexUnitCall.setActiveTextureUnit 2, TexUnitCall.setActiveTextureUnit 9,
       TexUnitCall.applyModeOnTexUnit 3 2884 true default])._currentActiveTextureUnit <
        sampleState.textureUnitLimit) :=
  ⟨by decide,
   (active_unit_invariant sampleState
      [TexUnitCall.setActiveTextureUnit 2, TexUnitCall.setActiveTextureUnit 9,
       TexUnitCall.applyModeOnTexUnit 3 2884 true default] rfl rfl).2.2.2.1⟩

theorem runTexUnitCalls_unit_in_range (s0 : State) (calls : List TexUnitCall)
    (h0 : s0._currentActiveTextureUnit = 0) (hlog : lastActiveTexture s0.glCalls = none) :
    (runTexUnitCalls s0 calls)._currentActiveTextureUnit = 0 ∨
    (runTexUnitCalls s0 calls)._currentActiveTextureUnit <
      (runTexUnitCalls s0 calls).textureUnitLimit := by
  have hinit : activeUnitInvariant s0 := by
    unfold activeUnitInvariant
    rw [hlog]
    exact ⟨Or.inl h0, h0⟩
  exact (runTexUnitCalls_invariant calls s0 hinit).1.1

/-- C16: texture unit bounds. In a state whose active texture unit is 0 or below the bound
`setActiveTextureUnit` compares against, as is every state reached from unit 0
by `setActiveTextureUnit`, `applyModeOnTexUnit` and `applyAttributeOnTexUnit` calls,
`applyModeOnTexUnit(unit, mode, enabled, ms)` for a unit that is not 0 and not
below the bound returns false and leaves the stack and the state as they are:
no `glActiveTexture`, no `glEnable`/`glDisable`, `last_applied_value` unchanged.
So does `applyModeOnTexUnit(5, ...)` when the maximum of `_glMaxTextureCoords`
and `_glMaxTextureUnits` is 4; for limits in the range `0 .. 2^32 - 1` the bound
is that maximum. -/
theorem applyModeOnTexUnit_unit_out_of_bounds (s : State) (mode : GLMode) (enabled : Bool)
    (ms : ModeStack)
    (hreach : s._currentActiveTextureUnit = 0 ∨
      s._currentActiveTextureUnit < s.textureUnitLimit) :
    (max s._glMaxTextureCoords s._glMaxTextureUnits = 4 →
      s.applyModeOnTexUnit 5 mode enabled ms = (false, ms, s)) ∧
    (∀ unit : Nat, unit ≠ 0 → s.textureUnitLimit ≤ unit →
      s.applyModeOnTexUnit unit mode enabled ms = (false, ms, s)) ∧
    (0 ≤ max s._glMaxTextureCoords s._glMaxTextureUnits →
      max s._glMaxTextureCoords s._glMaxTextureUnits < 2 ^ 32 →
      ∀ unit : Nat, unit ≠ 0 → max s._glMaxTextureCoords s._glMaxTextureUnits ≤ (unit : Int) →
        s.applyModeOnTexUnit unit mode enabled ms = (false, ms, s)) := by
  have main : ∀ unit : Nat, unit ≠ 0 → s.textureUnitLimit ≤ unit →
      s.applyModeOnTexUnit unit mode enabled ms = (false, ms, s) := by
    intro unit hunit hlimit
    apply applyModeOnTexUnit_out_of_range s mode enabled ms unit hunit _ hlimit
    rcases hreach with h | h
    · rw [h]
      exact hunit
    · omega
  refine ⟨fun hmax => main 5 (by decide) ?_, main, fun hpos hlt unit hunit hle => ?_⟩
  · unfold textureUnitLimit
    rw [hmax]
    decide
  · apply main unit hunit
    unfold textureUnitLimit
    omega

/-- Witness of C16: from `sampleState`, which has four texture units, after unit 2 is selected,
`applyModeOnTexUnit(5, ...)` returns false and changes nothing. -/
theorem applyModeOnTexUnit_unit_out_of_bounds_witness :
    (runTexUnitCalls sampleState [TexUnitCall.setActiveTextureUnit 2]).applyModeOnTexUnit 5
        0x0DE1 true default =
      (false, default, runTexUnitCalls sampleState [TexUnitCall.setActiveTextureUnit 2]) :=
  (applyModeOnTexUnit_unit_out_of_bounds
    (runTexUnitCalls sampleState [TexUnitCall.setActiveTextureUnit 2]) 0x0DE1 true default
    (runTexUnitCalls_unit_in_range sampleState [TexUnitCall.setActiveTextureUnit 2] rfl rfl)).1
    (by decide)

end State

/-! ## The clean-implies-converged invariant -/

namespace Assoc

variable {K V W : Type}

theorem find_foldUpdate_cases [DecidableEq K] [KeyOrd K] [Inhabited V]
    (body : V → W → V) (l : List (K × W)) :
    ∀ (m : List (K × V)) (k : K) (v2 : V), find (foldUpdate body m l) k = some v2 →
      find m k = some v2 ∨ ∃ v w, v2 = body v w := by
  induction l with
  | nil => intro m k v2 h; exact Or.inl h
  | cons hd tl ih =>
    intro m k v2 h
    obtain ⟨k1, w1⟩ := hd
    simp only [foldUpdate] at h
    rcases ih _ k v2 h with h1 | h1
    · by_cases hk : k = k1
      · subst hk
        rw [find_put_same] at h1
        exact Or.inr ⟨get m k, w1, (Option.some.inj h1).symm⟩
      · rw [find_put_other _ _ _ _ hk] at h1
        exact Or.inl h1
    · exact Or.inr h1

theorem find_traverse_merge [DecidableEq K] [KeyOrd K] (hK : LawfulLt K) {S B : Type}
    (block : S → K × Option V × Option W → B × S) (s : S) (u : List (K × V))
    (l : List (K × W)) (hu : Sorted u) (hl : Sorted l) (k : K) :
    (find u k = none → find l k = none → find (traverse block s (merge u l)).1 k = none) ∧
    ((find u k).isSome = true ∨ (find l k).isSome = true →
      ∃ t : S, find (traverse block s (merge u l)).1 k =
        some (block t (k, find u k, find l k)).1) := by
  have hf := filter_merge hK k u hu l hl
  have ht := find_traverse block k (merge u l) s
  constructor
  · intro h1 h2
    rw [h1, h2] at hf
    exact ht.1 hf
  · intro h
    have hc : ((find u k).isNone && (find l k).isNone) = false := by
      rcases h with h | h
      · cases hx : find u k with
        | none => rw [hx] at h; exact absurd h (by simp)
        | some x => simp
      · cases hx : find l k with
        | none => rw [hx] at h; exact absurd h (by simp)
        | some x => simp
    rw [hc] at hf
    exact ht.2 _ _ hf

end Assoc

namespace State

theorem modeStackConverged_of_changed (ms : ModeStack) (h : ms.changed = true) :
    modeStackConverged ms = true := by
  simp [modeStackConverged, h]

theorem modeStackConverged_clean (ms : ModeStack) (h : modeStackConverged ms = true)
    (hc : ms.changed = false) (hv : ms.valid = true) :
    ms.last_applied_value = effectiveModeValue ms := by
  simpa [modeStackConverged, hc, hv] using h

theorem effectiveModeValue_congr (a b : ModeStack) (hv : a.valueVec = b.valueVec)
    (hg : a.global_default_value = b.global_default_value) :
    effectiveModeValue a = effectiveModeValue b := by
  unfold effectiveModeValue
  rw [hv, hg]

theorem modeMapConverged_of_all (m : ModeMap)
    (h : (m.all fun e => modeStackConverged e.2) = true) : modeMapConverged m := by
  intro k ms hk
  exact List.all_eq_true.1 h (k, ms) (Assoc.mem_of_find_eq_some m k ms hk)

theorem applyTrackedMode_fst_eff (t : State) (k : GLMode) (ms : ModeStack) :
    (t.applyTrackedMode k ms).1 =
      if ms.changed = true then
        if (ms.valid && (ms.last_applied_value != effectiveModeValue ms)) = true then
          { ms with changed := false, last_applied_value := effectiveModeValue ms }
        else { ms with changed := false }
      else ms := by
  by_cases hc : ms.changed = true
  · rw [if_pos hc, applyTrackedMode_dirty t k ms hc, applyModeStack_ms]
  · rw [if_neg hc, applyTrackedMode_clean t k ms (by simpa using hc)]

theorem applyTrackedMode_result (t : State) (k : GLMode) (ms : ModeStack) :
    (t.applyTrackedMode k ms).1.valueVec = ms.valueVec ∧
    (t.applyTrackedMode k ms).1.valid = ms.valid ∧
    (t.applyTrackedMode k ms).1.global_default_value = ms.global_default_value ∧
    (t.applyTrackedMode k ms).1.changed = false ∧
    (modeStackConverged ms = true → ms.valid = true →
      (t.applyTrackedMode k ms).1.last_applied_value = effectiveModeValue ms) := by
  rw [applyTrackedMode_fst_eff]
  by_cases hc : ms.changed = true
  · rw [if_pos hc]
    by_cases hx : (ms.valid && (ms.last_applied_value != effectiveModeValue ms)) = true
    · rw [if_pos hx]
      exact ⟨rfl, rfl, rfl, rfl, fun _ _ => rfl⟩
    · rw [if_neg hx]
      refine ⟨rfl, rfl, rfl, rfl, fun _ hv => ?_⟩
      simpa [hv] using hx
  · rw [if_neg hc]
    have hc2 : ms.changed = false := by simpa using hc
    exact ⟨rfl, rfl, rfl, hc2, fun h hv => modeStackConverged_clean ms h hc2 hv⟩

theorem modeStackConverged_applyTrackedMode (t : State) (k : GLMode) (ms : ModeStack)
    (h : modeStackConverged ms = true) :
    modeStackConverged (t.applyTrackedMode k ms).1 = true := by
  obtain ⟨h1, h2, h3, h4, h5⟩ := applyTrackedMode_result t k ms
  unfold modeStackConverged
  rw [effectiveModeValue_congr _ ms h1 h3, h2, h4]
  cases hv : ms.valid
  · rfl
  · simp [h5 h hv]

theorem applyBothMode_cases (t : State) (k : GLMode) (ms : ModeStack) (v : GLModeValue) :
    (ms.changed = true ∧ ∃ top, ms.valueVec.getLast? = some top ∧
      t.applyBothMode k ms v =
        (t.applyModeStack k (hasFlag top StateAttribute.ON) { ms with changed := false }).2) ∨
    t.applyBothMode k ms v = (ms, t) ∨
    t.applyBothMode k ms v =
      ((if ms.valid && (ms.last_applied_value != hasFlag v StateAttribute.ON) then
          { ms with last_applied_value := hasFlag v StateAttribute.ON, changed := true }
        else ms),
       (t.applyModeStack k (hasFlag v StateAttribute.ON) ms).2.2) := by
  cases htop : ms.valueVec.getLast? with
  | none =>
    right
    right
    apply applyBothMode_incoming
    intro top ht
    rw [htop] at ht
    exact Option.noConfusion ht
  | some top =>
    cases hc : (hasFlag top StateAttribute.OVERRIDE && !(hasFlag v StateAttribute.PROTECTED))
    · right
      right
      apply applyBothMode_incoming
      intro top2 ht
      rw [htop] at ht
      rw [← Option.some.inj ht]
      exact hc
    · have hov : hasFlag top StateAttribute.OVERRIDE = true := by
        cases ho : hasFlag top StateAttribute.OVERRIDE
        · rw [ho] at hc
          exact absurd hc (by simp)
        · rfl
      have hpr : hasFlag v StateAttribute.PROTECTED = false := by
        cases hp : hasFlag v StateAttribute.PROTECTED
        · rfl
        · rw [hp] at hc
          exact absurd hc (by simp)
      rw [applyBothMode_override t k ms v top htop hov hpr]
      cases hch : ms.changed
      · right
        left
        simp
      · left
        exact ⟨rfl, top, rfl, by simp⟩

theorem applyBothMode_result (t : State) (k : GLMode) (ms : ModeStack) (v : GLModeValue) :
    (t.applyBothMode k ms v).1.valueVec = ms.valueVec ∧
    (t.applyBothMode k ms v).1.valid = ms.valid ∧
    (t.applyBothMode k ms v).1.global_default_value = ms.global_default_value ∧
    (modeStackConverged ms = true → modeStackConverged (t.applyBothMode k ms v).1 = true) := by
  rcases applyBothMode_cases t k ms v with ⟨hc, top, htop, h⟩ | h | h
  · have hd := applyTrackedMode_dirty t k ms hc
    have he : effectiveModeValue ms = hasFlag top StateAttribute.ON := by
      unfold effectiveModeValue
      rw [htop]
    rw [he] at hd
    rw [h, ← hd]
    obtain ⟨h1, h2, h3, _, _⟩ := applyTrackedMode_result t k ms
    exact ⟨h1, h2, h3, modeStackConverged_applyTrackedMode t k ms⟩
  · rw [h]
    exact ⟨rfl, rfl, rfl, fun hconv => hconv⟩
  · rw [h]
    by_cases hx : (ms.valid && (ms.last_applied_value != hasFlag v StateAttribute.ON)) = true
    · rw [if_pos hx]
      exact ⟨rfl, rfl, rfl, fun _ => modeStackConverged_of_changed _ rfl⟩
    · rw [if_neg hx]
      exact ⟨rfl, rfl, rfl, fun hconv => hconv⟩

theorem modeListBlock_result (t : State) (k : GLMode) (a : Option ModeStack)
    (b : Option GLModeValue) (hab : a.isSome = true ∨ b.isSome = true) :
    (∀ ms, a = some ms → modeStackConverged ms = true) →
      modeStackConverged (t.modeListBlock (k, a, b)).1 = true ∧
      (∀ ms, a = some ms →
        (t.modeListBlock (k, a, b)).1.valueVec = ms.valueVec ∧
        (t.modeListBlock (k, a, b)).1.valid = ms.valid ∧
        (t.modeListBlock (k, a, b)).1.global_default_value = ms.global_default_value) ∧
      (a = none →
        (t.modeListBlock (k, a, b)).1.valueVec = [] ∧
        (t.modeListBlock (k, a, b)).1.global_default_value = false) := by
  intro hconv
  cases a with
  | none =>
    cases b with
    | none => exact absurd hab (by simp)
    | some v =>
      show modeStackConverged (t.applyNewMode k v).1 = true ∧ _
      refine ⟨?_, fun ms h => Option.noConfusion h, fun _ => ?_⟩
      · rw [applyNewMode_fst]
        rfl
      · show (t.applyNewMode k v).1.valueVec = [] ∧
          (t.applyNewMode k v).1.global_default_value = false
        rw [applyNewMode_fst]
        exact ⟨rfl, rfl⟩
  | some ms =>
    cases b with
    | none =>
      show modeStackConverged (t.applyTrackedMode k ms).1 = true ∧ _
      obtain ⟨h1, h2, h3, _, _⟩ := applyTrackedMode_result t k ms
      refine ⟨modeStackConverged_applyTrackedMode t k ms (hconv ms rfl), fun ms2 h => ?_,
        fun h => Option.noConfusion h⟩
      rw [← Option.some.inj h]
      exact ⟨h1, h2, h3⟩
    | some v =>
      show modeStackConverged (t.applyBothMode k ms v).1 = true ∧ _
      obtain ⟨h1, h2, h3, h4⟩ := applyBothMode_result t k ms v
      refine ⟨h4 (hconv ms rfl), fun ms2 h => ?_, fun h => Option.noConfusion h⟩
      rw [← Option.some.inj h]
      exact ⟨h1, h2, h3⟩

theorem modeMapConverged_foldUpdate (body : ModeStack → GLModeValue → ModeStack)
    (hbody : ∀ ms v, (body ms v).changed = true) (m : ModeMap) (l : ModeList)
    (h : modeMapConverged m) : modeMapConverged (Assoc.foldUpdate body m l) := by
  intro k ms hk
  rcases Assoc.find_foldUpdate_cases body l m k ms hk with h1 | ⟨v, w, h1⟩
  · exact h k ms h1
  · rw [h1]
    exact modeStackConverged_of_changed _ (hbody v w)

theorem modeMapConverged_applyModeMap (s : State) (m : ModeMap) (h : modeMapConverged m) :
    modeMapConverged (s.applyModeMap m).1 := by
  intro k ms hk
  rw [find_applyModeMap] at hk
  cases hf : Assoc.find m k with
  | none =>
    rw [hf] at hk
    exact Option.noConfusion hk
  | some ms0 =>
    rw [hf] at hk
    rw [← Option.some.inj hk]
    exact modeStackConverged_applyTrackedMode s k ms0 (h k ms0 hf)

theorem find_applyModeList_some (s : State) (m : ModeMap) (l : ModeList)
    (hm : Assoc.Sorted m) (hl : Assoc.Sorted l) (k : GLMode) (ms : ModeStack)
    (hk : Assoc.find (s.applyModeList m l).1 k = some ms) :
    ((Assoc.find m k).isSome = true ∨ (Assoc.find l k).isSome = true) ∧
    ∃ t : State, ms = (t.modeListBlock (k, Assoc.find m k, Assoc.find l k)).1 := by
  obtain ⟨hnone, hsome⟩ := find_applyModeList s m l hm hl k
  have hab : (Assoc.find m k).isSome = true ∨ (Assoc.find l k).isSome = true := by
    cases h1 : Assoc.find m k with
    | some x => exact Or.inl rfl
    | none =>
      cases h2 : Assoc.find l k with
      | some x => exact Or.inr rfl
      | none =>
        rw [hnone h1 h2] at hk
        exact Option.noConfusion hk
  obtain ⟨t, ht⟩ := hsome hab
  rw [ht] at hk
  exact ⟨hab, t, (Option.some.inj hk).symm⟩

theorem modeMapConverged_applyModeList (s : State) (m : ModeMap) (l : ModeList)
    (hm : Assoc.Sorted m) (hl : Assoc.Sorted l) (h : modeMapConverged m) :
    modeMapConverged (s.applyModeList m l).1 := by
  intro k ms hk
  obtain ⟨hab, t, ht⟩ := find_applyModeList_some s m l hm hl k ms hk
  rw [ht]
  exact (modeListBlock_result t k _ _ hab (fun ms0 h0 => h k ms0 h0)).1

theorem modeMapConverged_applyMode (s : State) (mode : GLMode) (enabled : Bool)
    (h : modeMapConverged s._modeMap) :
    modeMapConverged (s.applyMode mode enabled).2._modeMap := by
  intro k ms hk
  unfold applyMode at hk
  simp only [applyModeStack_modeMap] at hk
  by_cases hkm : k = mode
  · subst hkm
    rw [Assoc.find_put_same] at hk
    rw [← Option.some.inj hk]
    apply modeStackConverged_of_changed
    rw [applyModeStack_ms]
    split <;> rfl
  · rw [Assoc.find_put_other _ _ _ _ hkm] at hk
    exact h k ms hk

theorem attributeStackConverged_of_changed (as : AttributeStack) (h : as.changed = true) :
    attributeStackConverged as = true := by
  simp [attributeStackConverged, h]

theorem attributeStackConverged_of_top (as : AttributeStack) (top : AttributePair)
    (htop : as.attributeVec.getLast? = some top)
    (h : ptrEq as.last_applied_attribute (some top.1) = true) :
    attributeStackConverged as = true := by
  unfold attributeStackConverged effectiveAttribute
  rw [htop]
  simp [h]

theorem attributeStackConverged_of_empty (as : AttributeStack)
    (htop : as.attributeVec.getLast? = none)
    (h : ptrEq as.last_applied_attribute as.global_default_attribute = true) :
    attributeStackConverged as = true := by
  unfold attributeStackConverged effectiveAttribute
  rw [htop]
  simp [h]

theorem attributeMapConverged_of_all (m : AttributeMap)
    (h : (m.all fun e => attributeStackConverged e.2) = true) : attributeMapConverged m := by
  intro k as hk
  exact List.all_eq_true.1 h (k, as) (Assoc.mem_of_find_eq_some m k as hk)

theorem applyAttributeStack_result (s : State) (attr : Attribute) (as : AttributeStack) :
    (s.applyAttributeStack attr as).2.1.attributeVec = as.attributeVec ∧
    (s.applyAttributeStack attr as).2.1.changed = as.changed ∧
    ptrEq (s.applyAttributeStack attr as).2.1.last_applied_attribute (some attr) = true ∧
    ((s.applyAttributeStack attr as).1 = false →
      s.applyAttributeStack attr as = (false, as, s)) := by
  unfold applyAttributeStack
  cases h : ptrEq as.last_applied_attribute (some attr)
  · simp only [Bool.not_false, if_true]
    refine ⟨(applyAttributeBody_vec s attr as).1, (applyAttributeBody_vec s attr as).2, ?_,
      fun hf => Bool.noConfusion hf⟩
    rw [applyAttributeBody_last]
    exact ptrEq_refl _
  · rw [if_neg (by simp)]
    exact ⟨rfl, rfl, h, fun _ => rfl⟩

theorem applyGlobalDefaultAttribute_result (s : State) (as : AttributeStack) :
    (s.applyGlobalDefaultAttribute as).2.1.attributeVec = as.attributeVec ∧
    ptrEq (s.applyGlobalDefaultAttribute as).2.1.last_applied_attribute
      as.global_default_attribute = true := by
  unfold applyGlobalDefaultAttribute
  cases h : ptrEq as.last_applied_attribute as.global_default_attribute
  · cases hg : as.global_default_attribute with
    | none => simp [ptrEq]
    | some d => simp [applyGlobalDefaultBody_eq, ptrEq, Attribute.same]
  · simpa using h

theorem applyTrackedAttribute_dirty_some (t : State) (as : AttributeStack) (top : AttributePair)
    (hc : as.changed = true) (htop : as.attributeVec.getLast? = some top) :
    t.applyTrackedAttribute as = (t.applyAttributeStack top.1 { as with changed := false }).2 := by
  simp [applyTrackedAttribute, hc, htop]

theorem applyTrackedAttribute_dirty_none (t : State) (as : AttributeStack)
    (hc : as.changed = true) (htop : as.attributeVec.getLast? = none) :
    t.applyTrackedAttribute as = (t.applyGlobalDefaultAttribute { as with changed := false }).2 := by
  simp [applyTrackedAttribute, hc, htop]

theorem attributeStackConverged_applyAttributeStack_top (t : State) (as : AttributeStack)
    (top : AttributePair) (htop : as.attributeVec.getLast? = some top) :
    attributeStackConverged (t.applyAttributeStack top.1 { as with changed := false }).2.1 =
      true := by
  obtain ⟨h1, _, h3, _⟩ := applyAttributeStack_result t top.1 { as with changed := false }
  exact attributeStackConverged_of_top _ top (by rw [h1]; exact htop) h3

theorem attributeStackConverged_applyTrackedAttribute (t : State) (as : AttributeStack)
    (h : attributeStackConverged as = true) :
    attributeStackConverged (t.applyTrackedAttribute as).1 = true := by
  cases hc : as.changed
  · rw [applyTrackedAttribute_clean t as hc]
    exact h
  · cases htop : as.attributeVec.getLast? with
    | some top =>
      rw [applyTrackedAttribute_dirty_some t as top hc htop]
      exact attributeStackConverged_applyAttributeStack_top t as top htop
    | none =>
      rw [applyTrackedAttribute_dirty_none t as hc htop]
      obtain ⟨h1, h2⟩ := applyGlobalDefaultAttribute_result t { as with changed := false }
      have hd := applyGlobalDefaultAttribute_default t { as with changed := false }
      apply attributeStackConverged_of_empty
      · rw [h1]
        exact htop
      · rw [hd]
        exact h2

theorem applyBothAttribute_cases (t : State) (as : AttributeStack) (incoming : AttributePair) :
    (∃ top, as.attributeVec.getLast? = some top ∧
      t.applyBothAttribute as incoming =
        (t.applyAttributeStack top.1 { as with changed := false }).2) ∨
    t.applyBothAttribute as incoming = (as, t) ∨
    (t.applyBothAttribute as incoming).1.changed = true := by
  have hinc : (if (t.applyAttributeStack incoming.1 as).1 = true then
        (({ (t.applyAttributeStack incoming.1 as).2.1 with changed := true } : AttributeStack),
          (t.applyAttributeStack incoming.1 as).2.2)
      else (t.applyAttributeStack incoming.1 as).2) = (as, t) ∨
      (if (t.applyAttributeStack incoming.1 as).1 = true then
        (({ (t.applyAttributeStack incoming.1 as).2.1 with changed := true } : AttributeStack),
          (t.applyAttributeStack incoming.1 as).2.2)
      else (t.applyAttributeStack incoming.1 as).2).1.changed = true := by
    cases hr : (t.applyAttributeStack incoming.1 as).1
    · left
      rw [if_neg (by simp)]
      rw [(applyAttributeStack_result t incoming.1 as).2.2.2 hr]
    · right
      rw [if_pos rfl]
  unfold applyBothAttribute
  cases htop : as.attributeVec.getLast? with
  | none =>
    right
    exact hinc
  | some top =>
    simp only []
    cases hc : (hasFlag top.2 StateAttribute.OVERRIDE &&
        !(hasFlag incoming.2 StateAttribute.PROTECTED))
    · right
      rw [if_neg (by simp)]
      exact hinc
    · rw [if_pos rfl]
      cases hch : as.changed
      · right
        left
        rw [if_neg (by simp)]
      · left
        rw [if_pos rfl]
        exact ⟨top, rfl, rfl⟩

theorem attributeStackConverged_applyBothAttribute (t : State) (as : AttributeStack)
    (incoming : AttributePair) (h : attributeStackConverged as = true) :
    attributeStackConverged (t.applyBothAttribute as incoming).1 = true := by
  rcases applyBothAttribute_cases t as incoming with ⟨top, htop, hb⟩ | hb | hb
  · rw [hb]
    exact attributeStackConverged_applyAttributeStack_top t as top htop
  · rw [hb]
    exact h
  · exact attributeStackConverged_of_changed _ hb

theorem attributeListBlock_converged (t : State) (k : TypeMemberPair)
    (a : Option AttributeStack) (b : Option AttributePair)
    (hab : a.isSome = true ∨ b.isSome = true)
    (hconv : ∀ as, a = some as → attributeStackConverged as = true) :
    attributeStackConverged (t.attributeListBlock (k, a, b)).1 = true := by
  cases a with
  | none =>
    cases b with
    | none => exact absurd hab (by simp)
    | some inc =>
      show attributeStackConverged (t.applyNewAttribute inc).1 = true
      exact attributeStackConverged_of_changed _ (applyNewAttribute_fields t inc).2.2
  | some as =>
    cases b with
    | none => exact attributeStackConverged_applyTrackedAttribute t as (hconv as rfl)
    | some inc => exact attributeStackConverged_applyBothAttribute t as inc (hconv as rfl)

theorem attributeMapConverged_foldUpdate (body : AttributeStack → AttributePair → AttributeStack)
    (hbody : ∀ as v, (body as v).changed = true) (m : AttributeMap) (l : AttributeList)
    (h : attributeMapConverged m) : attributeMapConverged (Assoc.foldUpdate body m l) := by
  intro k as hk
  rcases Assoc.find_foldUpdate_cases body l m k as hk with h1 | ⟨v, w, h1⟩
  · exact h k as h1
  · rw [h1]
    exact attributeStackConverged_of_changed _ (hbody v w)

theorem attributeMapConverged_applyAttributeMap (s : State) (m : AttributeMap)
    (h : attributeMapConverged m) : attributeMapConverged (s.applyAttributeMap m).1 := by
  intro k as hk
  obtain ⟨hsome, hnone⟩ := find_applyAttributeMap m s k
  cases hf : Assoc.find m k with
  | none =>
    rw [hnone hf] at hk
    exact Option.noConfusion hk
  | some as0 =>
    obtain ⟨t, ht⟩ := hsome as0 hf
    rw [ht] at hk
    rw [← Option.some.inj hk]
    exact attributeStackConverged_applyTrackedAttribute t as0 (h k as0 hf)

theorem attributeMapConverged_applyAttributeList (s : State) (m : AttributeMap)
    (l : AttributeList) (hm : Assoc.Sorted m) (hl : Assoc.Sorted l)
    (h : attributeMapConverged m) : attributeMapConverged (s.applyAttributeList m l).1 := by
  intro k as hk
  unfold applyAttributeList at hk
  rw [applyAttributeListFrom_eq_traverse] at hk
  obtain ⟨hnone, hsome⟩ := Assoc.find_traverse_merge Assoc.lawfulLt_typeMemberPair
    attributeListBlock s m l hm hl k
  have hab : (Assoc.find m k).isSome = true ∨ (Assoc.find l k).isSome = true := by
    cases h1 : Assoc.find m k with
    | some x => exact Or.inl rfl
    | none =>
      cases h2 : Assoc.find l k with
      | some x => exact Or.inr rfl
      | none =>
        rw [hnone h1 h2] at hk
        exact Option.noConfusion hk
  obtain ⟨t, ht⟩ := hsome hab
  rw [ht] at hk
  rw [← Option.some.inj hk]
  exact attributeListBlock_converged t k _ _ hab (fun as0 h0 => h k as0 h0)

theorem attributeMapConverged_applyAttribute (s : State) (attr : Attribute)
    (h : attributeMapConverged s._attributeMap) :
    attributeMapConverged (s.applyAttribute attr).2._attributeMap := by
  intro k as hk
  unfold applyAttribute at hk
  simp only [applyAttributeStack_attributeMap] at hk
  by_cases hkm : k = attr.typeMemberPair
  · subst hkm
    rw [Assoc.find_put_same] at hk
    rw [← Option.some.inj hk]
    apply attributeStackConverged_of_changed
    rw [applyAttributeStack_changed]
  · rw [Assoc.find_put_other _ _ _ _ hkm] at hk
    exact h k as hk

/-- C33: the clean-implies-converged invariant. The predicate `modeMapConverged` (every valid
mode that is not dirty has the effective value of its stack as
`last_applied_value`) holds for the empty map and is preserved by
`pushModeList`, `popModeList`, `applyModeMap`, `applyModeList` (map and list in
key order) and the public `applyMode`; the predicate `attributeMapConverged`
(every stack that is not dirty has its effective attribute as
`last_applied_attribute`) holds for the empty map and is preserved by
`pushAttributeList`, `popAttributeList`, `applyAttributeMap`, `applyAttributeList`
and the public `applyAttribute`. -/
theorem clean_implies_converged_invariant :
    modeMapConverged [] ∧
    (∀ (m : ModeMap) (l : ModeList), modeMapConverged m → modeMapConverged (pushModeList m l)) ∧
    (∀ (m : ModeMap) (l : ModeList), modeMapConverged m → modeMapConverged (popModeList m l)) ∧
    (∀ (s : State) (m : ModeMap), modeMapConverged m →
      modeMapConverged (s.applyModeMap m).1) ∧
    (∀ (s : State) (m : ModeMap) (l : ModeList), Assoc.Sorted m → Assoc.Sorted l →
      modeMapConverged m → modeMapConverged (s.applyModeList m l).1) ∧
    (∀ (s : State) (mode : GLMode) (enabled : Bool), modeMapConverged s._modeMap →
      modeMapConverged (s.applyMode mode enabled).2._modeMap) ∧
    attributeMapConverged [] ∧
    (∀ (m : AttributeMap) (l : AttributeList), attributeMapConverged m →
      attributeMapConverged (pushAttributeList m l)) ∧
    (∀ (m : AttributeMap) (l : AttributeList), attributeMapConverged m →
      attributeMapConverged (popAttributeList m l)) ∧
    (∀ (s : State) (m : AttributeMap), attributeMapConverged m →
      attributeMapConverged (s.applyAttributeMap m).1) ∧
    (∀ (s : State) (m : AttributeMap) (l : AttributeList), Assoc.Sorted m → Assoc.Sorted l →
      attributeMapConverged m → attributeMapConverged (s.applyAttributeList m l).1) ∧
    (∀ (s : State) (attr : Attribute), attributeMapConverged s._attributeMap →
      attributeMapConverged (s.applyAttribute attr).2._attributeMap) := by
  refine ⟨fun k ms h => Option.noConfusion h,
    fun m l h => modeMapConverged_foldUpdate pushModeEntry (fun _ _ => rfl) m l h,
    fun m l h => modeMapConverged_foldUpdate popModeEntry (fun _ _ => rfl) m l h,
    modeMapConverged_applyModeMap, modeMapConverged_applyModeList, modeMapConverged_applyMode,
    fun k as h => Option.noConfusion h,
    fun m l h => attributeMapConverged_foldUpdate pushAttributeEntry (fun _ _ => rfl) m l h,
    fun m l h => attributeMapConverged_foldUpdate popAttributeEntry (fun _ _ => rfl) m l h,
    attributeMapConverged_applyAttributeMap, attributeMapConverged_applyAttributeList,
    attributeMapConverged_applyAttribute⟩

/-- C34: a one-shot apply is undone by the next full apply. For a mode map `m` that satisfies
the clean-implies-converged predicate and an incoming list `l`, both in key
order, after `applyModeList(m, l)` followed by `applyModeMap` every stack is
clean and every valid key has the effective value of its stack (the ON bit of
its top, or `global_default_value` when it is empty) as `last_applied_value`;
the stack of a key of `m` has the entries, the validity and the default it had
in `m`, and the stack of a key that came from `l` is empty with the default
off, so no value of `l` stays applied unless it is the effective value. -/
theorem apply_list_then_map_converges (s : State) (m : ModeMap) (l : ModeList)
    (hm : Assoc.Sorted m) (hl : Assoc.Sorted l) (hconv : modeMapConverged m) :
    ∀ (k : GLMode) (ms2 : ModeStack),
      Assoc.find ((s.applyModeList m l).2.applyModeMap (s.applyModeList m l).1).1 k = some ms2 →
      ms2.changed = false ∧
      (ms2.valid = true → ms2.last_applied_value = effectiveModeValue ms2) ∧
      (∀ ms0, Assoc.find m k = some ms0 →
        ms2.valueVec = ms0.valueVec ∧ ms2.valid = ms0.valid ∧
        ms2.global_default_value = ms0.global_default_value) ∧
      (Assoc.find m k = none → ms2.valueVec = [] ∧ ms2.global_default_value = false) := by
  intro k ms2 hk
  rw [find_applyModeMap] at hk
  cases hf : Assoc.find (s.applyModeList m l).1 k with
  | none =>
    rw [hf] at hk
    exact Option.noConfusion hk
  | some ms1 =>
    rw [hf] at hk
    have h2 : ms2 = ((s.applyModeList m l).2.applyTrackedMode k ms1).1 :=
      (Option.some.inj hk).symm
    obtain ⟨hab, t, ht⟩ := find_applyModeList_some s m l hm hl k ms1 hf
    obtain ⟨b1, b2, b3⟩ := modeListBlock_result t k _ _ hab (fun ms0 h0 => hconv k ms0 h0)
    rw [← ht] at b1 b2 b3
    obtain ⟨r1, r2, r3, r4, r5⟩ := applyTrackedMode_result (s.applyModeList m l).2 k ms1
    rw [← h2] at r1 r2 r3 r4 r5
    refine ⟨r4, fun hv => ?_, fun ms0 h0 => ?_, fun h0 => ?_⟩
    · rw [effectiveModeValue_congr ms2 ms1 r1 r3]
      exact r5 b1 (by rw [← r2]; exact hv)
    · obtain ⟨c1, c2, c3⟩ := b2 ms0 h0
      exact ⟨r1.trans c1, r2.trans c2, r3.trans c3⟩
    · obtain ⟨c1, c2⟩ := b3 h0
      exact ⟨r1.trans c1, r3.trans c2⟩

/-- Witness of C34: the mode 2884 is clean and converged with the top 1 (ON); the incoming
list turns it off; the merge followed by the map apply leaves it clean with the
value last applied on again. -/
theorem apply_list_then_map_converges_witness :
    Assoc.find
        ((sampleState.applyModeList
            [(2884, { valid := true, changed := false, last_applied_value := true,
                      global_default_value := false, valueVec := [1] })]
            [(2884, 0)]).2.applyModeMap
          (sampleState.applyModeList
            [(2884, { valid := true, changed := false, last_applied_value := true,
                      global_default_value := false, valueVec := [1] })]
            [(2884, 0)]).1).1 2884 =
      some { valid := true, changed := false, last_applied_value := true,
             global_default_value := false, valueVec := [1] } ∧
    (({ valid := true, changed := false, last_applied_value := true,
        global_default_value := false, valueVec := [1] } : ModeStack).valid = true →
      ({ valid := true, changed := false, last_applied_value := true,
         global_default_value := false, valueVec := [1] } : ModeStack).last_applied_value =
        effectiveModeValue { valid := true, changed := false, last_applied_value := true,
                             global_default_value := false, valueVec := [1] }) :=
  ⟨by decide,
   (apply_list_then_map_converges sampleState
      [(2884, { valid := true, changed := false, last_applied_value := true,
                global_default_value := false, valueVec := [1] })]
      [(2884, 0)] (by simp [Assoc.Sorted]) (by simp [Assoc.Sorted])
      (modeMapConverged_of_all _ (by decide)) 2884 _ (by decide)).2.1⟩

/-! ## Stack accesses -/

theorem vec_cases {α : Type} (vec : List α) :
    (vec.isEmpty = true ∧ vec.getLast? = none) ∨
    (vec.isEmpty = false ∧ ∃ back, vec.getLast? = some back) := by
  cases vec with
  | nil => exact Or.inl ⟨rfl, rfl⟩
  | cons a l => exact Or.inr ⟨rfl, _, List.getLast?_eq_getLast _ (List.cons_ne_nil a l)⟩

theorem overrideGuard_eq {α : Type} (flags : α → Nat) (vec : List α) (incomingFlags : Nat) :
    overrideGuard flags vec incomingFlags =
      some (match vec.getLast? with
        | some back => hasFlag (flags back) StateAttribute.OVERRIDE &&
            !(hasFlag incomingFlags StateAttribute.PROTECTED)
        | none => false) := by
  rcases vec_cases vec with ⟨he, hl⟩ | ⟨he, back, hl⟩
  · simp [overrideGuard, he, hl]
  · simp [overrideGuard, vecBack, he, hl]

theorem vecPopBack_eq {α : Type} (vec : List α) (h : vec.isEmpty = false) :
    vecPopBack vec = some vec.dropLast := by
  simp [vecPopBack, h]

theorem two_le_length_of_getLast? {α : Type} (vec : List α) (back inc : α)
    (h : vec.getLast? = some back) : ¬ (vec ++ [inc]).length < 2 := by
  obtain ⟨ys, rfl⟩ := List.getLast?_eq_some_iff.1 h
  simp

theorem vecAtSizeMinus2_append {α : Type} (vec : List α) (back inc : α)
    (h : vec.getLast? = some back) : vecAtSizeMinus2 (vec ++ [inc]) = some back := by
  unfold vecAtSizeMinus2
  rw [if_neg (two_le_length_of_getLast? vec back inc h)]
  exact getElem?_length_sub_two_append vec back inc h

theorem pushModeEntryChecked_eq (ms : ModeStack) (value : GLModeValue) :
    pushModeEntryChecked ms value = some (pushModeEntry ms value) := by
  obtain ⟨valid, changed, last, dflt, vec⟩ := ms
  rcases vec_cases vec with ⟨he, hl⟩ | ⟨he, back, hl⟩
  · simp [pushModeEntryChecked, pushModeEntry, he, hl]
  · cases hov : hasFlag back StateAttribute.OVERRIDE <;>
      cases hpr : hasFlag value StateAttribute.PROTECTED <;>
      simp [pushModeEntryChecked, pushModeEntry, vecBack, he, hl, hov, hpr]

theorem popModeEntryChecked_eq (ms : ModeStack) (value : GLModeValue) :
    popModeEntryChecked ms value = some (popModeEntry ms value) := by
  obtain ⟨valid, changed, last, dflt, vec⟩ := ms
  rcases vec_cases vec with ⟨he, hl⟩ | ⟨he, back, hl⟩
  · simp [popModeEntryChecked, popModeEntry, he]
  · simp [popModeEntryChecked, popModeEntry, vecPopBack, he]

theorem applyTrackedModeChecked_eq (s : State) (mode : GLMode) (ms : ModeStack) :
    s.applyTrackedModeChecked mode ms = some (s.applyTrackedMode mode ms) := by
  obtain ⟨valid, changed, last, dflt, vec⟩ := ms
  cases changed
  · simp [applyTrackedModeChecked, applyTrackedMode]
  · rcases vec_cases vec with ⟨he, hl⟩ | ⟨he, back, hl⟩
    · simp [applyTrackedModeChecked, applyTrackedMode, he, hl]
    · simp [applyTrackedModeChecked, applyTrackedMode, vecBack, he, hl]

theorem applyBothModeChecked_eq (s : State) (mode : GLMode) (ms : ModeStack)
    (value : GLModeValue) :
    s.applyBothModeChecked mode ms value = some (s.applyBothMode mode ms value) := by
  obtain ⟨valid, changed, last, dflt, vec⟩ := ms
  unfold applyBothModeChecked
  rw [overrideGuard_eq]
  rcases vec_cases vec with ⟨he, hl⟩ | ⟨he, back, hl⟩
  · simp [applyBothMode, hl]
  · cases hov : hasFlag back StateAttribute.OVERRIDE <;>
      cases hpr : hasFlag value StateAttribute.PROTECTED <;>
      cases changed <;> simp [applyBothMode, vecBack, hl, hov, hpr]

theorem pushAttributeEntryChecked_eq (as : AttributeStack) (incoming : AttributePair) :
    pushAttributeEntryChecked as incoming = some (pushAttributeEntry as incoming) := by
  obtain ⟨changed, last, sc, dflt, vec⟩ := as
  rcases vec_cases vec with ⟨he, hl⟩ | ⟨he, back, hl⟩
  · simp [pushAttributeEntryChecked, pushAttributeEntry, he, hl]
  · cases hov : hasFlag back.2 StateAttribute.OVERRIDE <;>
      cases hpr : hasFlag incoming.2 StateAttribute.PROTECTED <;>
      simp [pushAttributeEntryChecked, pushAttributeEntry, vecBack, he, hl, hov, hpr]

theorem popAttributeEntryChecked_eq (as : AttributeStack) (incoming : AttributePair) :
    popAttributeEntryChecked as incoming = some (popAttributeEntry as incoming) := by
  obtain ⟨changed, last, sc, dflt, vec⟩ := as
  rcases vec_cases vec with ⟨he, hl⟩ | ⟨he, back, hl⟩
  · simp [popAttributeEntryChecked, popAttributeEntry, he]
  · simp [popAttributeEntryChecked, popAttributeEntry, vecPopBack, he]

theorem applyTrackedAttributeChecked_eq (s : State) (as : AttributeStack) :
    s.applyTrackedAttributeChecked as = some (s.applyTrackedAttribute as) := by
  obtain ⟨changed, last, sc, dflt, vec⟩ := as
  cases changed
  · simp [applyTrackedAttributeChecked, applyTrackedAttribute]
  · rcases vec_cases vec with ⟨he, hl⟩ | ⟨he, back, hl⟩
    · simp [applyTrackedAttributeChecked, applyTrackedAttribute, he, hl]
    · simp [applyTrackedAttributeChecked, applyTrackedAttribute, vecBack, he, hl]

theorem applyBothAttributeChecked_eq (s : State) (as : AttributeStack)
    (incoming : AttributePair) :
    s.applyBothAttributeChecked as incoming = some (s.applyBothAttribute as incoming) := by
  obtain ⟨changed, last, sc, dflt, vec⟩ := as
  unfold applyBothAttributeChecked
  rw [overrideGuard_eq]
  rcases vec_cases vec with ⟨he, hl⟩ | ⟨he, back, hl⟩
  · simp [applyBothAttribute, hl]
  · cases hov : hasFlag back.2 StateAttribute.OVERRIDE <;>
      cases hpr : hasFlag incoming.2 StateAttribute.PROTECTED <;>
      cases changed <;> simp [applyBothAttribute, vecBack, hl, hov, hpr]

theorem pushUniformEntryChecked_eq (us : UniformStack) (incoming : UniformPair) :
    pushUniformEntryChecked us incoming = some (pushUniformEntry us incoming) := by
  obtain ⟨vec⟩ := us
  rcases vec_cases vec with ⟨he, hl⟩ | ⟨he, back, hl⟩
  · simp [pushUniformEntryChecked, pushUniformEntry, he, hl]
  · cases hov : hasFlag back.2 StateAttribute.OVERRIDE <;>
      cases hpr : hasFlag incoming.2 StateAttribute.PROTECTED <;>
      simp [pushUniformEntryChecked, pushUniformEntry, vecBack, he, hl, hov, hpr]

theorem popUniformEntryChecked_eq (us : UniformStack) (incoming : UniformPair) :
    popUniformEntryChecked us incoming = some (popUniformEntry us incoming) := by
  obtain ⟨vec⟩ := us
  rcases vec_cases vec with ⟨he, hl⟩ | ⟨he, back, hl⟩
  · simp [popUniformEntryChecked, popUniformEntry, he]
  · simp [popUniformEntryChecked, popUniformEntry, vecPopBack, he]

theorem uniformMapBlockChecked_eq (program : Nat) (entry : String × UniformStack) :
    uniformMapBlockChecked program entry = some (uniformMapBlock program entry) := by
  obtain ⟨name, ⟨vec⟩⟩ := entry
  rcases vec_cases vec with ⟨he, hl⟩ | ⟨he, back, hl⟩
  · simp [uniformMapBlockChecked, uniformMapBlock, he, hl]
  · simp [uniformMapBlockChecked, uniformMapBlock, vecBack, he, hl]

theorem uniformListBlockChecked_eq (program : Nat)
    (entry : String × Option UniformStack × Option UniformPair) :
    uniformListBlockChecked program entry = some (uniformListBlock program entry) := by
  obtain ⟨name, a, b⟩ := entry
  cases a with
  | none => cases b <;> rfl
  | some us =>
    obtain ⟨vec⟩ := us
    cases b with
    | none =>
      rcases vec_cases vec with ⟨he, hl⟩ | ⟨he, back, hl⟩
      · simp [uniformListBlockChecked, uniformListBlock, he, hl]
      · simp [uniformListBlockChecked, uniformListBlock, vecBack, he, hl]
    | some incoming =>
      unfold uniformListBlockChecked
      simp only []
      rw [overrideGuard_eq]
      rcases vec_cases vec with ⟨he, hl⟩ | ⟨he, back, hl⟩
      · simp [uniformListBlock, hl]
      · cases hov : hasFlag back.2 StateAttribute.OVERRIDE <;>
      cases hpr : hasFlag incoming.2 StateAttribute.PROTECTED <;>
          simp [uniformListBlock, vecBack, hl, hov, hpr]

theorem pushDefineEntryChecked_eq (ds : DefineStack) (incoming : DefinePair) :
    pushDefineEntryChecked ds incoming = some (pushDefineEntry ds incoming) := by
  obtain ⟨changed, vec⟩ := ds
  rcases vec_cases vec with ⟨he, hl⟩ | ⟨he, back, hl⟩
  · simp [pushDefineEntryChecked, pushDefineEntry, he, hl]
  · have h1 := vecAtSizeMinus2_append vec back incoming hl
    have h2 := getElem?_length_sub_two_append vec back incoming hl
    have h3 : (vec ++ [incoming]).getLast? = some incoming := by simp
    have h4 : (vec ++ [incoming])[vec.length - 1]? = some back := by simpa using h2
    cases hov : hasFlag back.2 StateAttribute.OVERRIDE <;>
      cases hpr : hasFlag incoming.2 StateAttribute.PROTECTED <;>
      simp [pushDefineEntryChecked, pushDefineEntry, vecBack, he, hl, hov, hpr, h1, h3, h4]

theorem popDefineEntryChecked_eq (ds : DefineStack) (incoming : DefinePair) :
    popDefineEntryChecked ds incoming = some (popDefineEntry ds incoming) := by
  obtain ⟨changed, vec⟩ := ds
  rcases vec_cases vec with ⟨he, hl⟩ | ⟨he, back, hl⟩
  · simp [popDefineEntryChecked, popDefineEntry, he]
  · by_cases hlen : vec.length < 2
    · simp [popDefineEntryChecked, popDefineEntry, popDefineGuard, vecPopBack, he, hlen]
    · have hidx : vec.length - 2 < vec.length := by omega
      have hget : vec[vec.length - 2]? = some (vec.get ⟨vec.length - 2, hidx⟩) :=
        List.getElem?_eq_getElem hidx
      by_cases hne : vec.get ⟨vec.length - 2, hidx⟩ = back
      · simp [popDefineEntryChecked, popDefineEntry, popDefineGuard, vecPopBack,
          vecAtSizeMinus2, vecBack, he, hl, hlen, hget, hne]
      · simp [popDefineEntryChecked, popDefineEntry, popDefineGuard, vecPopBack,
          vecAtSizeMinus2, vecBack, he, hl, hlen, hget, hne]

theorem defineListBlockChecked_eq (entry : String × Option DefineStack × Option DefinePair) :
    defineListBlockChecked entry = some (defineListBlock entry) := by
  obtain ⟨name, a, b⟩ := entry
  cases a with
  | none => cases b <;> rfl
  | some ds =>
    obtain ⟨changed, vec⟩ := ds
    cases b with
    | none =>
      rcases vec_cases vec with ⟨he, hl⟩ | ⟨he, back, hl⟩
      · simp [defineListBlockChecked, defineListBlock, definedTop, he, hl]
      · cases hon : hasFlag back.2 StateAttribute.ON <;>
          simp [defineListBlockChecked, defineListBlock, definedTop, vecBack, he, hl, hon]
    | some incoming =>
      unfold defineListBlockChecked
      simp only []
      rw [overrideGuard_eq]
      rcases vec_cases vec with ⟨he, hl⟩ | ⟨he, back, hl⟩
      · simp [defineListBlock, hl]
      · cases hov : hasFlag back.2 StateAttribute.OVERRIDE <;>
      cases hpr : hasFlag incoming.2 StateAttribute.PROTECTED <;>
          cases hon : hasFlag back.2 StateAttribute.ON <;>
          simp [defineListBlock, vecBack, hl, hov, hpr, hon]

/-- C39: stack accesses are in range. With every `back()`, `dv[dv.size()-2]` and `pop_back()`
made through an accessor that fails out of range, the loop bodies of the push,
pop and apply members on modes, attributes, uniforms and defines never fail, on
any stack (an empty one, as `map[key]` creates for a key never seen, included)
and any incoming entry, and they return what the members return: the element
`dv[dv.size()-2]` is reached only with at least two entries and `back()` only
on a non-empty stack. -/
theorem stack_accesses_in_range :
    (∀ ms value, pushModeEntryChecked ms value = some (pushModeEntry ms value)) ∧
    (∀ ms value, popModeEntryChecked ms value = some (popModeEntry ms value)) ∧
    (∀ (s : State) mode ms, s.applyTrackedModeChecked mode ms =
      some (s.applyTrackedMode mode ms)) ∧
    (∀ (s : State) mode ms value, s.applyBothModeChecked mode ms value =
      some (s.applyBothMode mode ms value)) ∧
    (∀ as incoming, pushAttributeEntryChecked as incoming =
      some (pushAttributeEntry as incoming)) ∧
    (∀ as incoming, popAttributeEntryChecked as incoming =
      some (popAttributeEntry as incoming)) ∧
    (∀ (s : State) as, s.applyTrackedAttributeChecked as = some (s.applyTrackedAttribute as)) ∧
    (∀ (s : State) as incoming, s.applyBothAttributeChecked as incoming =
      some (s.applyBothAttribute as incoming)) ∧
    (∀ us incoming, pushUniformEntryChecked us incoming = some (pushUniformEntry us incoming)) ∧
    (∀ us incoming, popUniformEntryChecked us incoming = some (popUniformEntry us incoming)) ∧
    (∀ program entry, uniformMapBlockChecked program entry =
      some (uniformMapBlock program entry)) ∧
    (∀ program entry, uniformListBlockChecked program entry =
      some (uniformListBlock program entry)) ∧
    (∀ ds incoming, pushDefineEntryChecked ds incoming = some (pushDefineEntry ds incoming)) ∧
    (∀ ds incoming, popDefineEntryChecked ds incoming = some (popDefineEntry ds incoming)) ∧
    (∀ entry, defineListBlockChecked entry = some (defineListBlock entry)) ∧
    (∀ (dv : List DefinePair), dv.length < 2 → vecAtSizeMinus2 dv = none) ∧
    (vecBack ([] : List DefinePair) = none) := by
  refine ⟨pushModeEntryChecked_eq, popModeEntryChecked_eq, applyTrackedModeChecked_eq,
    applyBothModeChecked_eq, pushAttributeEntryChecked_eq, popAttributeEntryChecked_eq,
    applyTrackedAttributeChecked_eq, applyBothAttributeChecked_eq, pushUniformEntryChecked_eq,
    popUniformEntryChecked_eq, uniformMapBlockChecked_eq, uniformListBlockChecked_eq,
    pushDefineEntryChecked_eq, popDefineEntryChecked_eq, defineListBlockChecked_eq,
    fun dv h => ?_, rfl⟩
  unfold vecAtSizeMinus2
  rw [if_pos h]

/-! ## Instances on the sample state -/

/-- Witness of C28: on `sampleState` the mode 2884 was last applied off; a proxy for the value on
leaves it on while it lives and off again once destroyed. -/
theorem applyModeProxy_restores_witness :
    ((ApplyModeProxy.construct sampleState 2884 true).1.destroy
        (ApplyModeProxy.construct sampleState 2884 true).2).getLastAppliedModeValue 2884 =
      false ∧
    (ApplyModeProxy.construct sampleState 2884 true).2.getLastAppliedModeValue 2884 = true :=
  ⟨(applyModeProxy_restores sampleState 2884 true).1.trans (by decide),
   (applyModeProxy_restores sampleState 2884 true).2 (by decide)⟩

/-- Witness of C32: an attribute with the shader component 5 applied to a fresh stack, whose
last applied component is null, flags shader composition dirty and records the
component. -/
theorem applyAttributeStack_shader_composition_witness :
    (sampleState.applyAttributeStack
        { sampleAttribute 1 [7] with shaderComponent := some 5 }
        default).2.2._shaderCompositionDirty = true ∧
    (sampleState.applyAttributeStack
        { sampleAttribute 1 [7] with shaderComponent := some 5 }
        default).2.1.last_applied_shadercomponent = some 5 :=
  ((applyAttributeStack_shader_composition sampleState
      { sampleAttribute 1 [7] with shaderComponent := some 5 } default).1 (by decide)).1
    (by decide)

/-- Witness of C40: with a null global default and the attribute 1 last applied, the call
returns true, resets the attribute last applied to null and leaves the state as
it is. -/
theorem applyGlobalDefaultAttribute_spec_witness :
    sampleState.applyGlobalDefaultAttribute
        { (default : AttributeStack) with last_applied_attribute := some (sampleAttribute 1 [7]) } =
      (true, default, sampleState) :=
  (applyGlobalDefaultAttribute_spec sampleState
    { (default : AttributeStack) with last_applied_attribute := some (sampleAttribute 1 [7]) }).2.2.2.2
    (sampleAttribute 1 [7]) rfl rfl

end State

/-- Witness of C26: `glActiveTexture` does not resolve and `glActiveTextureARB` resolves to the
address 4096, which the two-name lookup returns. -/
theorem getGLExtensionFuncPtr2_fallback_witness :
    getGLExtensionFuncPtr2 (fun n => if n = "glActiveTextureARB" then 4096 else 0)
      "glActiveTexture" "glActiveTextureARB" = 4096 :=
  ((getGLExtensionFuncPtr2_fallback (fun n => if n = "glActiveTextureARB" then 4096 else 0)
      "glActiveTexture" "glActiveTextureARB").2.2.2 (by decide) (by decide)).1.trans (by decide)

/-- Witness of the amended C27: only the third name resolves, to the address 4096; with a valid
context that address is stored. -/
theorem setGLExtensionFuncPtr3_first_resolved_witness :
    (setGLExtensionFuncPtr3 (fun n => if n = "glActiveTextureEXT" then 4096 else 0)
      "glActiveTexture" "glActiveTextureARB" "glActiveTextureEXT" true).2 = 4096 :=
  ((setGLExtensionFuncPtr3_first_resolved
      (fun n => if n = "glActiveTextureEXT" then 4096 else 0)
      "glActiveTexture" "glActiveTextureARB" "glActiveTextureEXT").2.2.2.1).trans
    (((setGLExtensionFuncPtr3_first_resolved
      (fun n => if n = "glActiveTextureEXT" then 4096 else 0)
      "glActiveTexture" "glActiveTextureARB" "glActiveTextureEXT").2.2.1 (by decide)
      (by decide)).trans (by decide))

end osg
